import Mathlib

/-!
# Hermes core (content-transfer-engine): blob and tag metadata engine

A shallow embedding of `tasks/hermes_core/src/hermes_core.cc` (class `Server`)
and of the client wrappers in `hermes_core.h` / `bucket.h`.

Conventions of the embedding

* `size_t` byte counts and offsets are natural numbers.  The sum
  `blob_off_ + data_size_` of a put or a get is reduced modulo `2^64` where the code
  computes it (`putSizeDiff`, `putBlobInfo`, `walk`), and the free-capacity counter
  of a target (`stats_->free_`), updated with `-=` / `+=`, is modelled modulo `2^64`.
  The running sums of buffer sizes inside the buffer walk are natural numbers; they
  are the 64-bit values of the code for a blob whose buffers hold fewer than `2^64`
  bytes (`walkBuffers_no_wrap`).
* An access to `schema.plcmnts_[sub_idx + 1]` past the end of the vector is undefined
  in the source.  The allocation loop records it in `AllocState.oob`; the other
  fields returned by a run with `oob = true` describe no behaviour of the program,
  and the statements on what an allocation obtains exclude such runs.
* `chi::string` is a list of bytes.
* A `std::unordered_map` is a function from keys to optional values.
* One lane is modelled (`tls_[CHI_CUR_LANE->lane_id_]`).
* Calls that leave the class are parameters of the operation (`Env`: the hash of a
  blob name, the data placement engine, `bdev` `Allocate`) or are recorded in
  `Server.issued` (requests sent through `client_`, calls into a stager, `Free`).
  A recorded request changes the state only when it is applied explicitly
  (`applyTagRequests`, `applyDestroyRequests`, `applyBucketRequests`); what a stager
  plugin does on `StageIn` / `StageOut` is outside the model, as when no stager is
  registered.
* The bytes held by the block devices are `Server.dev`; a device `Write` / `Read`
  transfers exactly the bytes asked for.
* The size of a tag goes through the casts `(ssize_t)` and `(size_t)` of
  `TagUpdateSize`, modelled as two's complement on 64 bits (`toSsize`, `toSize`).
* The route functions are templates over the task type; the values of their
  `std::is_base_of_v` tests are the parameter `TaskTraits`, and the hash functions
  of the routing key are the parameter `RouteHash`.  An undefined read of
  `end()->second` is the result `none`.
* The access log `io_pattern_` is the list of the records pushed, in push order,
  with `id_` the position of the push.
* A method that only fills a field of its task (`GetBlobName`, `GetBlobScore`,
  `BlobHasTag`, …) is a function of the state and of the value the field had at the
  call.  `ReorganizeBlob` returns, besides the state, the `PutBlob` it sends with
  `AsyncPutBlob`.
* `MonitorPollMetadata` is modelled in its mode `kReplicaAgg`, as a function of
  `max_count_` and of the replicas' results.
-/

namespace Hermes

/-! ## Identifiers, strings, flags -/

/-- Identifier triple `{node_id, hash, unique}` used for tags and blobs. -/
structure UniqueId where
  node_id : Nat
  hash : Nat
  unique : Nat
deriving DecidableEq, Repr

abbrev TagId := UniqueId

abbrev BlobId := UniqueId

abbrev TargetId := Nat

abbrev ChiString := List Nat

abbrev Score := Nat

/-- Modelled from the spec: `UniqueId::GetNull` is declared outside src/; the null
id is the all-zero triple. -/
def UniqueId.GetNull : UniqueId := ⟨0, 0, 0⟩

/-- Modelled from the spec: `UniqueId::IsNull` is declared outside src/; an id is
null when it equals `GetNull`. -/
def UniqueId.IsNull (id : UniqueId) : Bool := decide (id = UniqueId.GetNull)

/-- Modelled from the spec: `BlobInfo::GetBlobNameWithBucket` is declared outside
src/; the blob-name-with-bucket key is the tag id serialised in a fixed-width
header followed by the bytes of the blob name. -/
def GetBlobNameWithBucket (tag_id : TagId) (blob_name : ChiString) : ChiString :=
  tag_id.node_id :: tag_id.hash :: tag_id.unique :: blob_name

/-- The bits of `bitfield32_t flags_` that `Server` consults. -/
structure Flags where
  should_stage : Bool
  did_create : Bool
  keep_in_tag : Bool
deriving DecidableEq, Repr

def Flags.none : Flags := ⟨false, false, false⟩

/-! ## Data model -/

/-- A `chi::Block` returned by a block device. -/
structure Block where
  off : Nat
  size : Nat
deriving DecidableEq, Repr

/-- The record `BufferInfo`: a block together with the target holding it. -/
structure BufferInfo where
  tid : TargetId
  off : Nat
  size : Nat
deriving DecidableEq, Repr

structure BlobInfo where
  blob_id : BlobId
  tag_id : TagId
  name : ChiString
  buffers : List BufferInfo
  tags : List TagId
  blob_size : Nat
  max_blob_size : Nat
  score : Score
  user_score : Score
  access_freq : Nat
  mod_count : Nat
  last_flush : Nat
deriving DecidableEq, Repr

/-- The value-initialised `BlobInfo()`. -/
def BlobInfo.default : BlobInfo :=
  ⟨UniqueId.GetNull, UniqueId.GetNull, [], [], [], 0, 0, 0, 0, 0, 0, 0⟩

structure TagInfo where
  tag_id : TagId
  name : ChiString
  blobs : List BlobId
  internal_size : Nat
  should_stage : Bool
  owner : Bool
deriving DecidableEq, Repr

/-- The value-initialised `TagInfo()`. -/
def TagInfo.default : TagInfo := ⟨UniqueId.GetNull, [], [], 0, false, false⟩

/-- The part of `TargetInfo` read by the blob engine: its id and `stats_->free_`. -/
structure TargetInfo where
  id : TargetId
  free : Nat
deriving DecidableEq, Repr

structure SubPlacement where
  size : Nat
  tid : TargetId
deriving DecidableEq, Repr

/-- The field `plcmnts_` of a `PlacementSchema`. -/
abbrev PlacementSchema := List SubPlacement

inductive IoType where
  | kRead
  | kWrite
deriving DecidableEq, Repr

structure IoStat where
  type : IoType
  blob_id : BlobId
  tag_id : TagId
  blob_size : Nat
  id : Nat
deriving DecidableEq, Repr

inductive UpdateSizeMode where
  | kAdd
  | kCap
deriving DecidableEq, Repr

/-- Requests that `Server` sends through `client_` to a container. -/
inductive Request where
  | StageIn (tag_id : TagId) (blob_name : ChiString) (score : Score)
  | StageOut (tag_id : TagId) (blob_name : ChiString) (data : List Nat) (data_size : Nat)
  | TagUpdateSize (tag_id : TagId) (update : Int) (mode : UpdateSizeMode)
  | TagAddBlob (tag_id : TagId) (blob_id : BlobId)
  | TagRemoveBlob (tag_id : TagId) (blob_id : BlobId)
  | DestroyBlob (tag_id : TagId) (blob_id : BlobId) (flags : Flags)
  | RegisterStager (tag_id : TagId) (tag_name : ChiString)
  | UnregisterStager (tag_id : TagId)
  | UpdateSize (tag_id : TagId) (blob_name : ChiString) (blob_off : Nat) (data_size : Nat)
  | Free (buf : BufferInfo)
deriving DecidableEq, Repr

/-! ## Maps -/

abbrev Map (K V : Type) := K → Option V

def Map.empty {K V : Type} : Map K V := fun _ => Option.none

def Map.set {K V : Type} [DecidableEq K] (m : Map K V) (k : K) (v : V) : Map K V :=
  fun x => if x = k then some v else m x

def Map.erase {K V : Type} [DecidableEq K] (m : Map K V) (k : K) : Map K V :=
  fun x => if x = k then Option.none else m x

/-- The call `m.emplace(k, v)`: inserts only when the key is absent. -/
def Map.emplace {K V : Type} [DecidableEq K] (m : Map K V) (k : K) (v : V) : Map K V :=
  match m k with
  | some _ => m
  | Option.none => m.set k v

/-! ## Block devices -/

/-- Bytes held by the block devices: target id and device offset to byte. -/
abbrev Storage := TargetId → Nat → Nat

def Storage.read (st : Storage) (tid : TargetId) (off len : Nat) : List Nat :=
  (List.range len).map (fun i => st tid (off + i))

def Storage.write (st : Storage) (tid : TargetId) (off : Nat) (bytes : List Nat) : Storage :=
  fun t o => if t = tid ∧ off ≤ o ∧ o < off + bytes.length then bytes.getD (o - off) 0 else st t o

/-! ## The buffer walk shared by `PutBlob` and `GetBlob` -/

/-- Loop variables of the buffer walk. -/
structure WalkState where
  blob_off : Nat
  buf_off : Nat
  buf_left : Nat
  found_left : Bool
deriving DecidableEq, Repr

/-- One `AsyncWrite` / `AsyncRead` issued by the walk: the target, the device
offset `tgt_off`, the length `buf_size`, and the payload offset `buf_off`. -/
structure Segment where
  tid : TargetId
  tgt_off : Nat
  buf_size : Nat
  buf_off : Nat
deriving DecidableEq, Repr

/-- The loop `for (BufferInfo &buf : blob_info.buffers_)` of `PutBlob` (lines
911-939) and of `GetBlob` (lines 1045-1073), which are the same statement for
statement.  Returns the transfers issued and the loop variables at exit.
`blob_right` is the 64-bit value computed before the loop.  `buf_left`, `buf_right`
and `buf_off` are running sums of sizes of the buffers visited so far; they are
natural numbers here, which is the `size_t` arithmetic of the source when the
buffers of the list hold fewer than `2^64` bytes in all: then no addition of the
loop reaches `2^64` (`walkNoWrap`) and no subtraction underflows
(`walkNoUnderflow`). -/
def walkBuffers (blob_right : Nat) : List BufferInfo → WalkState → List Segment × WalkState
  | [], ws => ([], ws)
  | buf :: rest, ws =>
    let buf_right := ws.buf_left + buf.size
    if ws.blob_off ≥ blob_right then ([], ws)
    else
      let found_left := ws.found_left || (decide (ws.buf_left ≤ ws.blob_off) && decide (ws.blob_off < buf_right))
      if found_left then
        let rel_off := ws.blob_off - ws.buf_left
        let tgt_off := buf.off + rel_off
        let buf_size := if buf_right > blob_right then blob_right - (ws.buf_left + rel_off)
                        else buf.size - rel_off
        let r := walkBuffers blob_right rest
          ⟨buf_right, ws.buf_off + buf_size, ws.buf_left + buf.size, true⟩
        (⟨buf.tid, tgt_off, buf_size, ws.buf_off⟩ :: r.1, r.2)
      else
        walkBuffers blob_right rest ⟨ws.blob_off, ws.buf_off, ws.buf_left + buf.size, false⟩

/-- The walk from its initial loop variables (`blob_off = task->blob_off_`,
`buf_off = 0`, `buf_left = 0`, `found_left = false`), with
`blob_right = task->blob_off_ + task->data_size_` computed in `size_t`, that is,
modulo `2^64` (lines 908 and 1043). -/
def walk (blob_off data_size : Nat) (buffers : List BufferInfo) : List Segment × WalkState :=
  walkBuffers ((blob_off + data_size) % 2 ^ 64) buffers ⟨blob_off, 0, 0, false⟩

/-- Effect of the `AsyncWrite` tasks of a walk on the devices, in issue order:
each copies `buf_size` bytes of the payload starting at `data + buf_off`. -/
def applyWrites (data : List Nat) : List Segment → Storage → Storage
  | [], st => st
  | s :: rest, st =>
    applyWrites data rest (st.write s.tid s.tgt_off ((data.drop s.buf_off).take s.buf_size))

/-- Bytes delivered by the `AsyncRead` tasks of a walk; the payload offsets are
contiguous from 0, so the output buffer is the concatenation. -/
def doReads (st : Storage) : List Segment → List Nat
  | [] => []
  | s :: rest => st.read s.tid s.tgt_off s.buf_size ++ doReads st rest

/-- Total size of the buffers of a list. -/
def sumSizes (bufs : List BufferInfo) : Nat := (bufs.map (fun b => b.size)).sum

/-! ## Server state -/

/-- The per-lane metadata maps (`struct HermesLane`); a stager is recorded by its
presence only. -/
structure HermesLane where
  tag_id_map : Map ChiString TagId
  tag_map : Map TagId TagInfo
  blob_id_map : Map ChiString BlobId
  blob_map : Map BlobId BlobInfo
  stager_map : Map TagId Unit

/-- State of `class Server` as seen from the current lane, together with the block
devices (`dev`), the requests sent through `client_` (`issued`) and the flush
counter of the run context (`flush_count`). -/
structure Server where
  tls : HermesLane
  id_alloc : Nat
  targets : List TargetInfo
  fallback_target : TargetId
  io_pattern : List IoStat
  node_id : Nat
  dev : Storage
  issued : List Request
  flush_count : Nat

/-- What the collaborators outside the class answer during one operation: the hash
of a blob name, the schemas of the data placement engine, and the blocks returned
by the `Allocate` call made for sub-placement `sub_idx` of schema `i`. -/
structure Env where
  HashBlobName : TagId → ChiString → Nat
  Placement : List Nat → List TargetInfo → Score → List PlacementSchema
  Allocate : Nat → Nat → TargetId → Nat → List Block

structure PutBlobTask where
  tag_id : TagId
  blob_name : ChiString
  blob_id : BlobId
  blob_off : Nat
  data_size : Nat
  data : List Nat
  score : Score
  flags : Flags
deriving DecidableEq, Repr

structure GetBlobTask where
  tag_id : TagId
  blob_name : ChiString
  blob_id : BlobId
  blob_off : Nat
  data_size : Nat
  data : List Nat
  flags : Flags
deriving DecidableEq, Repr

structure DestroyBlobTask where
  tag_id : TagId
  blob_id : BlobId
  flags : Flags
deriving DecidableEq, Repr

structure GetBlobSizeTask where
  tag_id : TagId
  blob_name : ChiString
  blob_id : BlobId
  size : Nat
deriving DecidableEq, Repr

/-- Modelled from the spec: `BlobInfo::UpdateWriteStats` is declared outside src/;
it increments `mod_count_` by one (other statistics are not tracked). -/
def BlobInfo.UpdateWriteStats (b : BlobInfo) : BlobInfo :=
  { b with mod_count := b.mod_count + 1 }

/-- Modelled from the spec: `BlobInfo::UpdateReadStats` is declared outside src/;
it leaves `mod_count_` and the other tracked fields unchanged. -/
def BlobInfo.UpdateReadStats (b : BlobInfo) : BlobInfo := b

/-- Modelled from the spec: `circular_mpsc_queue::push` is declared outside src/;
the record is appended and `stat->id_ = qtok.id_` stores its sequence number. -/
def io_push (q : List IoStat) (x : IoStat) : List IoStat :=
  q ++ [{ x with id := q.length }]

/-- The statement `free_ -= n` on the targets with id `tid`, modulo `2^64`. -/
def subFree (targets : List TargetInfo) (tid : TargetId) (n : Nat) : List TargetInfo :=
  targets.map (fun t =>
    if t.id = tid then { t with free := (t.free + (2 ^ 64 - n % 2 ^ 64)) % 2 ^ 64 } else t)

/-- The statement `free_ += n` on the targets with id `tid`, modulo `2^64`. -/
def addFree (targets : List TargetInfo) (tid : TargetId) (n : Nat) : List TargetInfo :=
  targets.map (fun t => if t.id = tid then { t with free := (t.free + n) % 2 ^ 64 } else t)

/-- Lines 883-889: every block of non-zero size becomes a `BufferInfo` on `tid`. -/
def blocksToBuffers (tid : TargetId) (blocks : List Block) : List BufferInfo :=
  (blocks.filter (fun blk => decide (blk.size ≠ 0))).map (fun blk => ⟨tid, blk.off, blk.size⟩)

/-- Result of the allocation loop: the blob's buffers, the targets, and `oob`, set
when `schema.plcmnts_[sub_idx + 1]` was accessed with `sub_idx + 1` equal to the
number of sub-placements.  That access, and the `+=` through it (lines 895-897), are
undefined in the source: when `oob` is set the fields `buffers` and `targets` are
those of the loop up to that point and say nothing about the program after it. -/
structure AllocState where
  buffers : List BufferInfo
  targets : List TargetInfo
  oob : Bool
deriving DecidableEq, Repr

/-- The loop over `sub_idx` of lines 869-900 on the sub-placements from `sub_idx`
on.  `spill` is the amount line 897 added to the current sub-placement
(`next_placement.size_ += diff` of the previous iteration), so the current
`placement.size_` is `p.size + spill`.  A spill left over after the last
sub-placement is the write of lines 895-897 past the end of `plcmnts_`; it sets
`oob`. -/
def allocSchema (alloc : Nat → TargetId → Nat → List Block) :
    Nat → Nat → List SubPlacement → AllocState → AllocState
  | _, spill, [], st => { st with oob := st.oob || decide (0 < spill) }
  | sub_idx, spill, p :: rest, st =>
    let size := p.size + spill
    if size = 0 then allocSchema alloc (sub_idx + 1) 0 rest st
    else
      let new := blocksToBuffers p.tid (alloc sub_idx p.tid size)
      let t_alloc := sumSizes new
      let diff := if t_alloc < size then size - t_alloc else 0
      allocSchema alloc (sub_idx + 1) diff rest
        ⟨st.buffers ++ new, subFree st.targets p.tid t_alloc, st.oob⟩

/-- The loop over `schema_vec` of lines 867-901; line 868 appends the fallback
sub-placement `(0, fallback_target_->id_)` to each schema. -/
def allocAll (alloc : Nat → Nat → TargetId → Nat → List Block) (fallback : TargetId) :
    Nat → List PlacementSchema → AllocState → AllocState
  | _, [], st => st
  | i, schema :: rest, st =>
    allocAll alloc fallback (i + 1) rest
      (allocSchema (alloc i) 0 0 (schema ++ [⟨0, fallback⟩]) st)

/-! ## Blob operations -/

/-- The helper `Server::GetOrCreateBlobId(tls, tag_id, name_hash, blob_name, flags)`
(lines 642-667). -/
def GetOrCreateBlobId (s : Server) (tag_id : TagId) (name_hash : Nat) (blob_name : ChiString)
    (flags : Flags) : BlobId × Server × Flags :=
  let blob_name_unique := GetBlobNameWithBucket tag_id blob_name
  match s.tls.blob_id_map blob_name_unique with
  | Option.none =>
    let blob_id : BlobId := ⟨s.node_id, name_hash, s.id_alloc⟩
    let blob_id_map := s.tls.blob_id_map.emplace blob_name_unique blob_id
    let blob_map := s.tls.blob_map.emplace blob_id BlobInfo.default
    let blob_info := (blob_map blob_id).getD BlobInfo.default
    let blob_info := { blob_info with
      name := blob_name, blob_id := blob_id, tag_id := tag_id, blob_size := 0,
      max_blob_size := 0, score := 1, mod_count := 0, access_freq := 0, last_flush := 0 }
    (blob_id,
     { s with
       tls := { s.tls with blob_id_map := blob_id_map, blob_map := blob_map.set blob_id blob_info },
       id_alloc := (s.id_alloc + 1) % 2 ^ 64 },
     { flags with did_create := true })
  | some id => (id, s, flags)

/-- The task method `Server::GetOrCreateBlobId(GetOrCreateBlobIdTask*)` (lines 668-676). -/
def GetOrCreateBlobIdTask (env : Env) (s : Server) (tag_id : TagId) (blob_name : ChiString) :
    Server × BlobId :=
  let r := GetOrCreateBlobId s tag_id (env.HashBlobName tag_id blob_name) blob_name Flags.none
  (r.2.1, r.1)

/-- The method `Server::GetBlobId` (lines 688-703). -/
def GetBlobId (s : Server) (tag_id : TagId) (blob_name : ChiString) : BlobId :=
  match s.tls.blob_id_map (GetBlobNameWithBucket tag_id blob_name) with
  | Option.none => UniqueId.GetNull
  | some id => id

/-- The wrapper `Bucket::ContainsBlob` (bucket.h lines 524-528). -/
def ContainsBlob (s : Server) (tag_id : TagId) (blob_name : ChiString) : Bool :=
  !(GetBlobId s tag_id blob_name).IsNull

/-- The method `Server::GetBlobSize` (lines 737-754). -/
def GetBlobSize (env : Env) (s : Server) (task : GetBlobSizeTask) : Server × GetBlobSizeTask :=
  let r : Server × GetBlobSizeTask :=
    if task.blob_id.IsNull then
      let g := GetOrCreateBlobId s task.tag_id (env.HashBlobName task.tag_id task.blob_name)
        task.blob_name Flags.none
      (g.2.1, { task with blob_id := g.1 })
    else (s, task)
  match r.1.tls.blob_map r.2.blob_id with
  | Option.none => (r.1, { r.2 with size := 0 })
  | some blob => (r.1, { r.2 with size := blob.blob_size })

/-- Lines 813-819 of `PutBlob`: a null `blob_id_` is resolved (or the blob created)
through the blob name. -/
def resolvePut (env : Env) (s : Server) (task : PutBlobTask) : Server × PutBlobTask :=
  if task.blob_id.IsNull then
    let g := GetOrCreateBlobId s task.tag_id (env.HashBlobName task.tag_id task.blob_name)
      task.blob_name task.flags
    (g.2.1, { task with blob_id := g.1, flags := g.2.2 })
  else (s, task)

/-- Lines 843-847 of `PutBlob`: the variable `size_diff`; `needed_space` is a `size_t`
sum, that is, modulo `2^64`. -/
def putSizeDiff (task : PutBlobTask) (blob_info : BlobInfo) : Nat :=
  let needed_space := (task.blob_off + task.data_size) % 2 ^ 64
  if needed_space > blob_info.max_blob_size then needed_space - blob_info.max_blob_size else 0

/-- Lines 856-901 of `PutBlob`: the placement request and the allocation loop, run
on the blob's buffers and the targets. -/
def putAllocate (env : Env) (s1 : Server) (task : PutBlobTask) (blob_info : BlobInfo) :
    AllocState :=
  let size_diff := putSizeDiff task blob_info
  let schema_vec := if size_diff > 0 then env.Placement [size_diff] s1.targets task.score else []
  allocAll env.Allocate s1.fallback_target 0 schema_vec ⟨blob_info.buffers, s1.targets, false⟩

/-- The assignments `PutBlob` makes to the fields of `blob_info`: `last_flush_` when
it stages (line 834), `blob_size_` (lines 848-851, where
`task->blob_off_ + task->data_size_` is a `size_t` sum, that is, modulo `2^64`), the
buffers appended by the allocation loop (line 887), `max_blob_size_ = blob_off`
(line 940) and `UpdateWriteStats` (line 986). -/
def putBlobInfo (task : PutBlobTask) (blob_info0 : BlobInfo) (a : AllocState) : BlobInfo :=
  let stage := task.flags.should_stage && decide (blob_info0.last_flush = 0)
  let blob_info1 := if stage then { blob_info0 with last_flush := 1 } else blob_info0
  let min_blob_size := (task.blob_off + task.data_size) % 2 ^ 64
  let blob_info2 := if min_blob_size > blob_info1.blob_size
                    then { blob_info1 with blob_size := (task.blob_off + task.data_size) % 2 ^ 64 }
                    else blob_info1
  let w := walk task.blob_off task.data_size a.buffers
  let blob_info3 := { blob_info2 with buffers := a.buffers, max_blob_size := w.2.blob_off }
  blob_info3.UpdateWriteStats

/-- The requests `PutBlob` sends: `StageIn` (line 835), then the stager's
`UpdateSize` or `AsyncTagUpdateSize` (lines 949-968), then `AsyncTagAddBlob` when
the blob was created (lines 969-974). -/
def putIssued (s1 : Server) (task : PutBlobTask) (blob_info0 : BlobInfo) : List Request :=
  let stage := task.flags.should_stage && decide (blob_info0.last_flush = 0)
  let issued1 := if stage then s1.issued ++ [Request.StageIn task.tag_id blob_info0.name 1]
                 else s1.issued
  let bkt_size_diff : Int := (putSizeDiff task blob_info0 : Int)
  let issued2 :=
    if task.flags.should_stage then
      match s1.tls.stager_map task.tag_id with
      | Option.none => issued1
      | some _ => issued1 ++ [Request.UpdateSize task.tag_id blob_info0.name task.blob_off
          task.data_size]
    else issued1 ++ [Request.TagUpdateSize task.tag_id bkt_size_diff UpdateSizeMode.kAdd]
  if task.flags.did_create then issued2 ++ [Request.TagAddBlob task.tag_id task.blob_id]
  else issued2

/-- The method `Server::PutBlob` (lines 810-992).  The field updates of `blob_info`
are collected in `putBlobInfo` and the requests sent in `putIssued`; the stager
called by `StageIn` is outside the class and its effect is not modelled. -/
def PutBlob (env : Env) (s : Server) (task : PutBlobTask) : Server × PutBlobTask :=
  -- Get blob ID
  let r := resolvePut env s task
  let s1 := r.1
  let task := r.2
  -- Get blob struct
  match s1.tls.blob_map task.blob_id with
  | Option.none => (s1, task)
  | some blob_info0 =>
    -- Use DPE, allocate blob buffers
    let a := putAllocate env s1 task blob_info0
    -- Place blob in buffers
    let w := walk task.blob_off task.data_size a.buffers
    let dev := applyWrites task.data w.1 s1.dev
    let io_pattern := io_push s1.io_pattern
      ⟨IoType.kWrite, task.blob_id, task.tag_id, task.data_size, 0⟩
    ({ s1 with
       tls := { s1.tls with
         blob_map := s1.tls.blob_map.set task.blob_id (putBlobInfo task blob_info0 a) },
       targets := a.targets, dev := dev, issued := putIssued s1 task blob_info0,
       io_pattern := io_pattern },
     task)

/-- The wrapper `Client::PutBlob` (hermes_core.h lines 196-208): the value returned
is `task->data_size_` after the task has run. -/
def ClientPutBlob (env : Env) (s : Server) (task : PutBlobTask) : Server × Nat :=
  let r := PutBlob env s task
  (r.1, r.2.data_size)

/-- Lines 1007-1012 of `GetBlob`: a null `blob_id_` is resolved (or the blob created)
through the blob name. -/
def resolveGet (env : Env) (s : Server) (task : GetBlobTask) : Server × GetBlobTask :=
  if task.blob_id.IsNull then
    let g := GetOrCreateBlobId s task.tag_id (env.HashBlobName task.tag_id task.blob_name)
      task.blob_name task.flags
    (g.2.1, { task with blob_id := g.1, flags := g.2.2 })
  else (s, task)

/-- The method `Server::GetBlob` (lines 1003-1085).  `blob_map[task->blob_id_]`
inserts a value-initialised `BlobInfo` when the id is absent. -/
def GetBlob (env : Env) (s : Server) (task : GetBlobTask) : Server × GetBlobTask :=
  -- Get blob struct
  let r := resolveGet env s task
  let s1 := r.1
  let task := r.2
  -- Get blob map struct
  let blob_info0 := (s1.tls.blob_map task.blob_id).getD BlobInfo.default
  -- Stage blob
  let stage := task.flags.should_stage && decide (blob_info0.last_flush = 0)
  let blob_info1 := if stage then { blob_info0 with last_flush := 1 } else blob_info0
  let issued1 := if stage then s1.issued ++ [Request.StageIn task.tag_id blob_info0.name 1]
                 else s1.issued
  -- Read blob from buffers
  let w := walk task.blob_off task.data_size blob_info1.buffers
  let data := doReads s1.dev w.1
  let blob_info2 := blob_info1.UpdateReadStats
  let task1 := { task with data_size := w.2.buf_off, data := data }
  let io_pattern := io_push s1.io_pattern
    ⟨IoType.kRead, task1.blob_id, task1.tag_id, task1.data_size, 0⟩
  ({ s1 with
     tls := { s1.tls with blob_map := s1.tls.blob_map.set task.blob_id blob_info2 },
     issued := issued1, io_pattern := io_pattern },
   task1)

/-- The wrapper `Client::GetBlob` (hermes_core.h lines 212-224), addressed by id with
an empty name; returns `task->data_size_` and the bytes delivered. -/
def ClientGetBlob (env : Env) (s : Server) (tag_id : TagId) (blob_id : BlobId)
    (off data_size : Nat) (flags : Flags) : Server × Nat × List Nat :=
  let r := GetBlob env s ⟨tag_id, [], blob_id, off, data_size, [], flags⟩
  (r.1, r.2.data_size, r.2.data)

/-- The loop of lines 1113-1120 on the free counters: `free_ += buf.size_` per buffer. -/
def creditBuffers (targets : List TargetInfo) : List BufferInfo → List TargetInfo
  | [] => targets
  | buf :: rest => creditBuffers (addFree targets buf.tid buf.size) rest

/-- The method `Server::DestroyBlob` (lines 1103-1132). -/
def DestroyBlob (s : Server) (task : DestroyBlobTask) : Server :=
  match s.tls.blob_map task.blob_id with
  | Option.none => s
  | some blob =>
    -- Free blob buffers
    let targets := creditBuffers s.targets blob.buffers
    let issued1 := s.issued ++ blob.buffers.map Request.Free
    -- Remove blob from the tag
    let issued2 := if !task.flags.keep_in_tag
                   then issued1 ++ [Request.TagRemoveBlob blob.tag_id task.blob_id] else issued1
    -- Remove the blob from the maps
    { s with
      tls := { s.tls with
        blob_id_map := s.tls.blob_id_map.erase (GetBlobNameWithBucket blob.tag_id blob.name),
        blob_map := s.tls.blob_map.erase task.blob_id },
      targets := targets, issued := issued2 }

/-- The methods `Server::_FlushBlob` / `Server::FlushBlob` (lines 1244-1290);
`worker_is_flushing` is `rctx.worker_props_.Any(CHI_WORKER_IS_FLUSHING)`.  The
`GetBlob` of lines 1268-1272 runs on the same lane; `blob_info` is a reference to
the entry stored under `blob_id`, so line 1284 updates that entry as `GetBlob`
left it. -/
def FlushBlob (env : Env) (s : Server) (blob_id : BlobId) (worker_is_flushing : Bool) : Server :=
  match s.tls.blob_map blob_id with
  | Option.none => s
  | some blob_info =>
    let mod_count := blob_info.mod_count
    -- Is the blob already flushed?
    if blob_info.last_flush ≤ 0 ∨ mod_count ≤ blob_info.last_flush then s
    else
      let s1 := if worker_is_flushing then { s with flush_count := s.flush_count + 1 } else s
      let g := ClientGetBlob env s1 blob_info.tag_id blob_info.blob_id 0 blob_info.blob_size
        Flags.none
      let s2 := g.1
      let s3 := { s2 with issued := s2.issued ++
        [Request.StageOut blob_info.tag_id blob_info.name g.2.2 blob_info.blob_size] }
      match s3.tls.blob_map blob_id with
      | Option.none => s3
      | some b => { s3 with tls := { s3.tls with
          blob_map := s3.tls.blob_map.set blob_id { b with last_flush := mod_count } } }

/-! ## Tag operations -/

/-- The method `Server::DestroyTag` (lines 417-445). -/
def DestroyTag (s : Server) (tag_id : TagId) : Server :=
  match s.tls.tag_map tag_id with
  | Option.none => s
  | some tag =>
    let issued1 := if tag.owner
      then s.issued ++ tag.blobs.map (fun blob_id =>
        Request.DestroyBlob tag_id blob_id ⟨false, false, true⟩)
      else s.issued
    let issued2 := if tag.should_stage then issued1 ++ [Request.UnregisterStager tag_id]
                   else issued1
    -- Remove tag from maps
    { s with
      tls := { s.tls with
        tag_id_map := s.tls.tag_id_map.erase tag.name,
        tag_map := s.tls.tag_map.erase tag_id },
      issued := issued2 }

/-- The method `Server::TagAddBlob` (lines 457-467). -/
def TagAddBlob (s : Server) (tag_id : TagId) (blob_id : BlobId) : Server :=
  match s.tls.tag_map tag_id with
  | Option.none => s
  | some tag =>
    { s with tls := { s.tls with
        tag_map := s.tls.tag_map.set tag_id { tag with blobs := tag.blobs ++ [blob_id] } } }

/-- The method `Server::TagRemoveBlob` (lines 479-491): the first occurrence found by
`std::find` is erased.  When the id is not in the list the source calls
`erase(end())`, which is undefined; the list is left unchanged here. -/
def TagRemoveBlob (s : Server) (tag_id : TagId) (blob_id : BlobId) : Server :=
  match s.tls.tag_map tag_id with
  | Option.none => s
  | some tag =>
    { s with tls := { s.tls with
        tag_map := s.tls.tag_map.set tag_id { tag with blobs := tag.blobs.erase blob_id } } }

/-- Delivery of the pending `TagAddBlob` / `TagRemoveBlob` requests, in issue order. -/
def applyTagRequests : List Request → Server → Server
  | [], s => s
  | Request.TagAddBlob t b :: rest, s => applyTagRequests rest (TagAddBlob s t b)
  | Request.TagRemoveBlob t b :: rest, s => applyTagRequests rest (TagRemoveBlob s t b)
  | _ :: rest, s => applyTagRequests rest s

/-- Delivery of the pending `DestroyBlob` requests, in issue order. -/
def applyDestroyRequests : List Request → Server → Server
  | [], s => s
  | Request.DestroyBlob t b f :: rest, s => applyDestroyRequests rest (DestroyBlob s ⟨t, b, f⟩)
  | _ :: rest, s => applyDestroyRequests rest s

/-! ## Vocabulary of the statements and proofs -/

/-- Logical contents of a buffer list: the device bytes of each buffer, concatenated
in order. -/
def content (st : Storage) : List BufferInfo → List Nat
  | [] => []
  | b :: rest => st.read b.tid b.off b.size ++ content st rest

/-- Two buffers overlap when they lie on the same target and their device ranges
intersect. -/
def BufferInfo.overlaps (a b : BufferInfo) : Prop :=
  a.tid = b.tid ∧ a.off < b.off + b.size ∧ b.off < a.off + a.size

instance (a b : BufferInfo) : Decidable (a.overlaps b) := by
  unfold BufferInfo.overlaps; infer_instance

/-- The buffers of a list occupy pairwise-disjoint device ranges. -/
def DisjointBuffers (bufs : List BufferInfo) : Prop :=
  bufs.Pairwise (fun a b => ¬ a.overlaps b)

instance (bufs : List BufferInfo) : Decidable (DisjointBuffers bufs) := by
  unfold DisjointBuffers; infer_instance

/-- Loop invariant of the walk: the cursor is not left of the current buffer, and
once the first buffer was found the cursor sits on a buffer boundary. -/
def WalkState.Inv (ws : WalkState) : Prop :=
  ws.buf_left ≤ ws.blob_off ∧ (ws.found_left = true → ws.blob_off = ws.buf_left)

/-- Length of the transfer issued on buffer `b` (the variable `buf_size`). -/
def segSize (R : Nat) (b : BufferInfo) (ws : WalkState) : Nat :=
  if ws.buf_left + b.size > R then R - (ws.buf_left + (ws.blob_off - ws.buf_left))
  else b.size - (ws.blob_off - ws.buf_left)

/-- The buffer is (or was already) found: the value of `found_left` after line 918. -/
def foundAt (b : BufferInfo) (ws : WalkState) : Prop :=
  ws.found_left = true ∨ (ws.buf_left ≤ ws.blob_off ∧ ws.blob_off < ws.buf_left + b.size)

/-- Device position `(t, o)` lies inside buffer `b`. -/
def BufferInfo.covers (b : BufferInfo) (t : TargetId) (o : Nat) : Prop :=
  t = b.tid ∧ b.off ≤ o ∧ o < b.off + b.size

/-- Number of payload bytes the walk transfers from its current loop variables. -/
def walkLen (R : Nat) (bufs : List BufferInfo) (ws : WalkState) : Nat :=
  min (R - ws.blob_off) (sumSizes bufs - (ws.blob_off - ws.buf_left))

/-! ## Free-capacity accounting -/

/-- Total size of the buffers of a list that lie on target `tid`. -/
def sizeOn (tid : TargetId) (bufs : List BufferInfo) : Nat :=
  sumSizes (bufs.filter (fun b => decide (b.tid = tid)))

/-- Every free counter is a 64-bit value. -/
def FreeOk (targets : List TargetInfo) : Prop := ∀ t ∈ targets, t.free < 2 ^ 64

instance (targets : List TargetInfo) : Decidable (FreeOk targets) := by
  unfold FreeOk; infer_instance

/-- The targets after each free counter was decremented by the bytes of `bufs` on it. -/
def debit (targets : List TargetInfo) (bufs : List BufferInfo) : List TargetInfo :=
  targets.map (fun t => { t with free := (t.free + (2 ^ 64 - sizeOn t.id bufs % 2 ^ 64)) % 2 ^ 64 })

/-- The targets after each free counter was incremented by the bytes of `bufs` on it. -/
def credit (targets : List TargetInfo) (bufs : List BufferInfo) : List TargetInfo :=
  targets.map (fun t => { t with free := (t.free + sizeOn t.id bufs) % 2 ^ 64 })

/-! ## The allocation loop -/

/-- Bytes requested by a schema: the sum of `size_` over its sub-placements. -/
def schemaSize (plc : List SubPlacement) : Nat := (plc.map (fun p => p.size)).sum

/-- Bytes requested by a list of schemas. -/
def schemasSize (schemas : List PlacementSchema) : Nat := (schemas.map schemaSize).sum

/-! ## Sequences of puts on one blob, and destruction -/

/-- The put addresses blob `id` on state `s`: by the id itself, or with a null id and
a blob name whose key maps to `id`. -/
def Addresses (s : Server) (task : PutBlobTask) (id : BlobId) : Prop :=
  (task.blob_id.IsNull = false ∧ task.blob_id = id)
  ∨ (task.blob_id = UniqueId.GetNull
      ∧ s.tls.blob_id_map (GetBlobNameWithBucket task.tag_id task.blob_name) = some id)

instance (s : Server) (task : PutBlobTask) (id : BlobId) : Decidable (Addresses s task id) := by
  unfold Addresses; infer_instance

/-- The buffers, in the state `s`, of the blobs of a list (absent blobs have none). -/
def blobBuffers (s : Server) : List BlobId → List BufferInfo
  | [] => []
  | id :: rest =>
    (match s.tls.blob_map id with
      | some b => b.buffers
      | Option.none => []) ++ blobBuffers s rest

/-- The `DestroyBlob` requests that `DestroyTag` sends for an owner tag. -/
def destroyRequests (tag_id : TagId) (blobs : List BlobId) : List Request :=
  blobs.map (fun blob_id => Request.DestroyBlob tag_id blob_id ⟨false, false, true⟩)

/-- The state once `DestroyTag` has run and the `DestroyBlob` requests it issued have
been applied. -/
def afterDestroyTag (s : Server) (tag_id : TagId) : Server :=
  applyDestroyRequests ((DestroyTag s tag_id).issued.drop s.issued.length) (DestroyTag s tag_id)

/-! ## Concrete states used by the witnesses and counterexamples -/

/-- A tag id used in the examples. -/
def tagA : TagId := ⟨1, 10, 1⟩

/-- Collaborators that place the whole request on target 0 and allocate it there
in two blocks (the first of one byte). -/
def envTwoBlocks : Env :=
  ⟨fun _ _ => 7, fun sizes _ _ => sizes.map (fun n => [⟨n, 0⟩]),
   fun _ _ _ n => [⟨100, 1⟩, ⟨200, n - 1⟩]⟩

/-- An empty lane. -/
def laneEmpty : HermesLane := ⟨Map.empty, Map.empty, Map.empty, Map.empty, Map.empty⟩

/-- A server with two targets (64 and 1000 free bytes), target 1 being the fallback. -/
def srvEmpty : Server := ⟨laneEmpty, 1, [⟨0, 64⟩, ⟨1, 1000⟩], 1, [], 1, fun _ _ => 0, [], 0⟩

/-- A put of three bytes at offset 0 to blob name `[98]` of `tagA`. -/
def putABC : PutBlobTask := ⟨tagA, [98], UniqueId.GetNull, 0, 3, [5, 6, 7], 1, Flags.none⟩

/-- A get of three bytes at offset 0 from blob name `[98]` of `tagA`. -/
def getABC : GetBlobTask := ⟨tagA, [98], UniqueId.GetNull, 0, 3, [], Flags.none⟩

/-- The blob record created for `putABC` on `srvEmpty`. -/
def blobFresh : BlobInfo := ⟨⟨1, 7, 1⟩, tagA, [98], [], [], 0, 0, 1, 0, 0, 0, 0⟩

/-- A put of one byte at offset 1 to blob name `[98]` of `tagA`. -/
def putMid : PutBlobTask := ⟨tagA, [98], UniqueId.GetNull, 1, 1, [9], 1, Flags.none⟩

/-- Collaborators that place the whole request on target 0 and allocate one block
of `n + 1` bytes for a request of `n` bytes. -/
def envRoundUp : Env :=
  ⟨fun _ _ => 7, fun sizes _ _ => sizes.map (fun n => [⟨n, 0⟩]), fun _ _ _ n => [⟨100, n + 1⟩]⟩

/-- A get of four bytes at offset 0 from blob name `[98]` of `tagA`. -/
def getFour : GetBlobTask := ⟨tagA, [98], UniqueId.GetNull, 0, 4, [], Flags.none⟩

/-- Collaborators that place the whole request on target 0 and allocate it there in
one block of exactly the requested size. -/
def envExact : Env :=
  ⟨fun _ _ => 7, fun sizes _ _ => sizes.map (fun n => [⟨n, 0⟩]), fun _ _ _ n => [⟨100, n⟩]⟩

/-- A put of zero bytes at offset 0 to blob name `[98]` of `tagA`. -/
def putZero : PutBlobTask := ⟨tagA, [98], UniqueId.GetNull, 0, 0, [], 1, Flags.none⟩

/-- A put of one byte at offset 0 to blob name `[98]` of `tagA`. -/
def putOne : PutBlobTask := ⟨tagA, [98], UniqueId.GetNull, 0, 1, [9], 1, Flags.none⟩

/-- A put of two bytes at offset 2, addressed by the id of the blob. -/
def putById : PutBlobTask := ⟨tagA, [], ⟨1, 7, 1⟩, 2, 2, [3, 4], 1, Flags.none⟩

/-- Three targets with 4, 100 and 0 free bytes; target 2 is the fallback. -/
def srvThree : Server :=
  ⟨laneEmpty, 1, [⟨0, 4⟩, ⟨1, 100⟩, ⟨2, 0⟩], 2, [], 1, fun _ _ => 0, [], 0⟩

/-- Collaborators that place the whole request on target 0, which can give 4 bytes;
the other targets are not asked or give nothing. -/
def envShort : Env :=
  ⟨fun _ _ => 7, fun sizes _ _ => sizes.map (fun n => [⟨n, 0⟩]),
   fun _ _ tid _ => if tid = 0 then [⟨0, 4⟩] else []⟩

/-- A put of ten bytes at offset 0 to blob name `[98]` of `tagA`. -/
def putTen : PutBlobTask :=
  ⟨tagA, [98], UniqueId.GetNull, 0, 10, [0, 1, 2, 3, 4, 5, 6, 7, 8, 9], 1, Flags.none⟩

/-- Collaborators that place the whole request on target 0, where every `Allocate`
returns no block. -/
def envNone : Env :=
  ⟨fun _ _ => 7, fun sizes _ _ => sizes.map (fun n => [⟨n, 0⟩]), fun _ _ _ _ => []⟩

/-- A put of five bytes at offset 0 to blob name `[98]` of `tagA`. -/
def putFive : PutBlobTask :=
  ⟨tagA, [98], UniqueId.GetNull, 0, 5, [1, 2, 3, 4, 5], 1, Flags.none⟩

/-- Collaborators whose placement engine finds no target for the request (a schema
without sub-placement) and whose targets would return no block. -/
def envEmptySchema : Env :=
  ⟨fun _ _ => 7, fun sizes _ _ => sizes.map (fun _ => []), fun _ _ _ _ => []⟩

/-- Two targets with 4 and 6 free bytes; target 1 is the fallback. -/
def srvSmall : Server := ⟨laneEmpty, 1, [⟨0, 4⟩, ⟨1, 6⟩], 1, [], 1, fun _ _ => 0, [], 0⟩

/-- Collaborators that place the whole request on target 0 and allocate it there in
one block of exactly the requested size at device offset 200. -/
def envExactB : Env :=
  ⟨fun _ _ => 7, fun sizes _ _ => sizes.map (fun n => [⟨n, 0⟩]), fun _ _ _ n => [⟨200, n⟩]⟩

/-- A get of six bytes at offset 0 from blob name `[98]` of `tagA`. -/
def getSix : GetBlobTask := ⟨tagA, [98], UniqueId.GetNull, 0, 6, [], Flags.none⟩

/-- The blob record after `putABC` with `envExact` on `srvEmpty`. -/
def blobABC : BlobInfo := ⟨⟨1, 7, 1⟩, tagA, [98], [⟨0, 100, 3⟩], [], 3, 3, 1, 0, 0, 1, 0⟩

/-- A lane holding the owner tag `tagA` (named `[116]`) with two blobs. -/
def laneOwner : HermesLane :=
  ⟨Map.empty.set [116] tagA,
   Map.empty.set tagA ⟨tagA, [116], [⟨1, 7, 1⟩, ⟨1, 7, 2⟩], 5, false, true⟩,
   (Map.empty.set (GetBlobNameWithBucket tagA [98]) ⟨1, 7, 1⟩).set
     (GetBlobNameWithBucket tagA [99]) ⟨1, 7, 2⟩,
   (Map.empty.set ⟨1, 7, 1⟩ blobABC).set ⟨1, 7, 2⟩
     ⟨⟨1, 7, 2⟩, tagA, [99], [⟨0, 200, 1⟩, ⟨1, 0, 1⟩], [], 2, 2, 1, 0, 0, 1, 0⟩,
   Map.empty⟩

/-- A server whose targets have been debited by the buffers of the two blobs of
`laneOwner`. -/
def srvOwner : Server := ⟨laneOwner, 3, [⟨0, 60⟩, ⟨1, 999⟩], 1, [], 1, fun _ _ => 0, [], 0⟩

/-- A lane holding the owner tag `tagA` (named `[116]`) with no blob. -/
def laneTag : HermesLane :=
  ⟨Map.empty.set [116] tagA, Map.empty.set tagA ⟨tagA, [116], [], 0, false, true⟩,
   Map.empty, Map.empty, Map.empty⟩

/-- A server with the lane `laneTag`. -/
def srvTag : Server := ⟨laneTag, 1, [⟨0, 64⟩, ⟨1, 1000⟩], 1, [], 1, fun _ _ => 0, [], 0⟩

/-- The blob list of `tagA` once the pending `TagAddBlob` / `TagRemoveBlob` requests
of a state have been applied. -/
def blobsOfTagA (s : Server) : Option (List BlobId) :=
  ((applyTagRequests s.issued s).tls.tag_map tagA).map (fun tag => tag.blobs)

/-- The tag recorded in the blob with id `⟨1, 7, 1⟩`, if the blob is in `blob_map`. -/
def tagOfBlob (s : Server) : Option TagId :=
  (s.tls.blob_map ⟨1, 7, 1⟩).map (fun b => b.tag_id)

/-- A lane holding one blob modified since its last flush (`mod_count = 2`,
`last_flush = 1`). -/
def laneStale : HermesLane :=
  ⟨Map.empty, Map.empty, Map.empty.set (GetBlobNameWithBucket tagA [98]) ⟨1, 7, 1⟩,
   Map.empty.set ⟨1, 7, 1⟩ ⟨⟨1, 7, 1⟩, tagA, [98], [⟨0, 100, 3⟩], [], 3, 3, 1, 0, 0, 2, 1⟩,
   Map.empty⟩

/-- A server with the lane `laneStale`; every device byte is 0. -/
def srvStale : Server := ⟨laneStale, 2, [⟨0, 61⟩, ⟨1, 1000⟩], 1, [], 1, fun _ _ => 0, [], 0⟩

/-! ## Staging and sequences of blob operations -/

/-- The method `Server::StageOut` (lines 1528-1540), reduced to its outcome: `true`
when a stager is registered for `bkt_id` and its `StageOut` is called, `false` when
line 1534 logs the missing stager and returns.  Neither path changes the maps. -/
def StageOut (s : Server) (bkt_id : TagId) : Bool :=
  match s.tls.stager_map bkt_id with
  | Option.none => false
  | some _ => true

/-- The get addresses blob `id` on state `s`: by the id itself, or with a null id and
a blob name whose key maps to `id`. -/
def AddressesGet (s : Server) (task : GetBlobTask) (id : BlobId) : Prop :=
  (task.blob_id.IsNull = false ∧ task.blob_id = id)
  ∨ (task.blob_id = UniqueId.GetNull
      ∧ s.tls.blob_id_map (GetBlobNameWithBucket task.tag_id task.blob_name) = some id)

instance (s : Server) (task : GetBlobTask) (id : BlobId) :
    Decidable (AddressesGet s task id) := by
  unfold AddressesGet; infer_instance

/-- One call of `PutBlob`, `GetBlob` or `FlushBlob`, with its collaborators' answers. -/
inductive BlobOp where
  | put (env : Env) (task : PutBlobTask)
  | get (env : Env) (task : GetBlobTask)
  | flush (env : Env) (blob_id : BlobId) (worker_is_flushing : Bool)

/-- The state after one operation. -/
def runOp (s : Server) : BlobOp → Server
  | BlobOp.put env task => (PutBlob env s task).1
  | BlobOp.get env task => (GetBlob env s task).1
  | BlobOp.flush env blob_id w => FlushBlob env s blob_id w

/-- The state after a sequence of operations. -/
def runOps : List BlobOp → Server → Server
  | [], s => s
  | op :: rest, s => runOps rest (runOp s op)

/-- The operation addresses blob `id` on state `s`. -/
def OpAddresses (id : BlobId) (s : Server) : BlobOp → Prop
  | BlobOp.put _ task => Addresses s task id
  | BlobOp.get _ task => AddressesGet s task id
  | BlobOp.flush _ blob_id _ => blob_id = id

instance (id : BlobId) (s : Server) (op : BlobOp) : Decidable (OpAddresses id s op) := by
  cases op <;> unfold OpAddresses <;> infer_instance

/-- Every operation of the sequence addresses blob `id` on the state it runs on. -/
def AllOpsAddress (id : BlobId) : List BlobOp → Server → Prop
  | [], _ => True
  | op :: rest, s => OpAddresses id s op ∧ AllOpsAddress id rest (runOp s op)

/-- The condition of lines 832 and 1021 for the operation on the blob record `b`: a
`PutBlob` or `GetBlob` that carries `HERMES_SHOULD_STAGE` and finds `last_flush_ == 0`. -/
def opStages (op : BlobOp) (b : BlobInfo) : Bool :=
  match op with
  | BlobOp.put _ task => task.flags.should_stage && decide (b.last_flush = 0)
  | BlobOp.get _ task => task.flags.should_stage && decide (b.last_flush = 0)
  | BlobOp.flush _ _ _ => false

/-- The operation is a `GetBlob`. -/
def BlobOp.isGet : BlobOp → Bool
  | BlobOp.get _ _ => true
  | _ => false

/-- Number of `StageIn` requests in a list of requests. -/
def stageIns : List Request → Nat
  | [] => 0
  | Request.StageIn _ _ _ :: rest => stageIns rest + 1
  | _ :: rest => stageIns rest

/-- The `last_flush` recorded for the blob with id `⟨1, 7, 1⟩`. -/
def lastFlushOfBlob (s : Server) : Option Nat :=
  (s.tls.blob_map ⟨1, 7, 1⟩).map (fun b => b.last_flush)

/-- The `mod_count` recorded for the blob with id `⟨1, 7, 1⟩`. -/
def modCountOfBlob (s : Server) : Option Nat :=
  (s.tls.blob_map ⟨1, 7, 1⟩).map (fun b => b.mod_count)

/-- A get of three bytes at offset 0 from blob name `[98]` of `tagA`, carrying
`HERMES_SHOULD_STAGE`. -/
def getStage : GetBlobTask := ⟨tagA, [98], UniqueId.GetNull, 0, 3, [], ⟨true, false, false⟩⟩

/-- A put of three bytes at offset 0 to blob name `[98]` of `tagA`, carrying
`HERMES_SHOULD_STAGE`. -/
def putStage : PutBlobTask :=
  ⟨tagA, [98], UniqueId.GetNull, 0, 3, [5, 6, 7], 1, ⟨true, false, false⟩⟩

/-- A sequence on the blob `⟨1, 7, 1⟩`: a staging get, a put carrying the flag, a
flush, and another staging get. -/
def opsStaged : List BlobOp :=
  [BlobOp.get envExact getStage, BlobOp.put envExact putStage,
   BlobOp.flush envExact ⟨1, 7, 1⟩ false, BlobOp.get envExact getStage]

/-! ## Tag creation, lookup and size -/

/-- The fields of `GetOrCreateTagTask` used by the method (`params_` is only passed
on to `RegisterStager`). -/
structure GetOrCreateTagTask where
  tag_name : ChiString
  tag_id : TagId
  blob_owner : Bool
  backend_size : Nat
  flags : Flags
deriving DecidableEq, Repr

/-- The method `Server::GetOrCreateTag` (lines 316-362).  `HashTagName` is declared
outside src/ and is a parameter.  In the `else` branch `tag_id_map[tag_name]` is
reached only when the name is in the map. -/
def GetOrCreateTag (HashTagName : ChiString → Nat) (s : Server) (task : GetOrCreateTagTask) :
    Server × GetOrCreateTagTask :=
  let tag_name := task.tag_name
  let did_create :=
    if tag_name.length > 0 then decide (s.tls.tag_id_map tag_name = Option.none) else false
  -- Emplace bucket if it does not already exist
  if did_create then
    let tag_id : TagId := ⟨s.node_id, HashTagName tag_name, s.id_alloc⟩
    let tag_id_map := s.tls.tag_id_map.emplace tag_name tag_id
    let tag_map := s.tls.tag_map.emplace tag_id TagInfo.default
    let tag := (tag_map tag_id).getD TagInfo.default
    let tag := { tag with
      name := tag_name, tag_id := tag_id, owner := task.blob_owner,
      internal_size := task.backend_size }
    let tag := if task.flags.should_stage then { tag with should_stage := true } else tag
    let issued := if task.flags.should_stage
      then s.issued ++ [Request.RegisterStager tag_id task.tag_name] else s.issued
    ({ s with
       tls := { s.tls with tag_id_map := tag_id_map, tag_map := tag_map.set tag_id tag },
       id_alloc := (s.id_alloc + 1) % 2 ^ 64, issued := issued },
     { task with tag_id := tag_id })
  else
    let tag_id :=
      if tag_name.length > 0 then (s.tls.tag_id_map tag_name).getD UniqueId.GetNull
      else task.tag_id
    (s, { task with tag_id := tag_id })

/-- The method `Server::GetTagId` (lines 373-384): the value left in `task->tag_id_`. -/
def GetTagId (s : Server) (tag_name : ChiString) : TagId :=
  match s.tls.tag_id_map tag_name with
  | Option.none => UniqueId.GetNull
  | some id => id

/-- The method `Server::GetTagName` (lines 396-405): the value left in
`task->tag_name_`, which is `tag_name` at the call. -/
def GetTagName (s : Server) (tag_id : TagId) (tag_name : ChiString) : ChiString :=
  match s.tls.tag_map tag_id with
  | Option.none => tag_name
  | some tag => tag.name

/-- The method `Server::TagGetSize` (lines 536-547): the value left in `task->size_`. -/
def TagGetSize (s : Server) (tag_id : TagId) : Nat :=
  match s.tls.tag_map tag_id with
  | Option.none => 0
  | some tag => tag.internal_size

/-- The cast `(ssize_t)x` of a `size_t`: the two's complement reading of the 64 bits. -/
def toSsize (x : Nat) : Int :=
  if x % 2 ^ 64 < 2 ^ 63 then ((x % 2 ^ 64 : Nat) : Int) else ((x % 2 ^ 64 : Nat) : Int) - 2 ^ 64

/-- The cast `(size_t)i` of an `ssize_t`: the value modulo `2^64`. -/
def toSize (i : Int) : Nat := (i % 2 ^ 64).toNat

/-- The method `Server::TagUpdateSize` (lines 559-575).  `tag_map[task->tag_id_]`
inserts a value-initialised `TagInfo` when the id is absent; `update` is the
`ssize_t` field `update_`; the signed sum is taken as an integer and reduced
modulo `2^64` by the cast of line 574. -/
def TagUpdateSize (s : Server) (tag_id : TagId) (update : Int) (mode : UpdateSizeMode) :
    Server :=
  let tag := (s.tls.tag_map tag_id).getD TagInfo.default
  let internal_size : Int := toSsize tag.internal_size
  let internal_size : Int :=
    if mode = UpdateSizeMode.kAdd then internal_size + update
    else max update internal_size
  { s with tls := { s.tls with
      tag_map := s.tls.tag_map.set tag_id { tag with internal_size := toSize internal_size } } }

/-- Delivery of the pending `TagAddBlob`, `TagRemoveBlob` and `TagUpdateSize`
requests, in issue order. -/
def applyBucketRequests : List Request → Server → Server
  | [], s => s
  | Request.TagAddBlob t b :: rest, s => applyBucketRequests rest (TagAddBlob s t b)
  | Request.TagRemoveBlob t b :: rest, s => applyBucketRequests rest (TagRemoveBlob s t b)
  | Request.TagUpdateSize t u m :: rest, s => applyBucketRequests rest (TagUpdateSize s t u m)
  | _ :: rest, s => applyBucketRequests rest s

/-- Sum of `blob_size` over the blobs listed in a tag (0 for an absent tag or blob). -/
def sumBlobSizes (s : Server) (tag_id : TagId) : Nat :=
  match s.tls.tag_map tag_id with
  | Option.none => 0
  | some tag =>
    (tag.blobs.map (fun id =>
      match s.tls.blob_map id with
      | Option.none => 0
      | some b => b.blob_size)).sum

/-- The pair `(TagGetSize, sum of blob_size)` of `tagA` once the pending requests of
a state have been delivered. -/
def bucketSizes (s : Server) : Nat × Nat :=
  (TagGetSize (applyBucketRequests s.issued s) tagA,
   sumBlobSizes (applyBucketRequests s.issued s) tagA)

/-- The creation of the tag named `[116]` as owner, with `backend_size` 0 and without
`SHOULD_STAGE`. -/
def createT : GetOrCreateTagTask := ⟨[116], UniqueId.GetNull, true, 0, Flags.none⟩

/-- The server `srvEmpty` after the tag `[116]` was created (its id is `tagA` when
the name hashes to 10). -/
def srvBucket : Server := (GetOrCreateTag (fun _ => 10) srvEmpty createT).1

/-- A tag of `2^63` bytes. -/
def srvHuge : Server :=
  ⟨⟨Map.empty.set [116] tagA,
    Map.empty.set tagA ⟨tagA, [116], [], 9223372036854775808, false, true⟩,
    Map.empty, Map.empty, Map.empty⟩, 2, [⟨0, 64⟩, ⟨1, 1000⟩], 1, [], 1, fun _ _ => 0, [], 0⟩

/-- A tag of `2^64 - 1` bytes. -/
def srvFull : Server :=
  ⟨⟨Map.empty.set [116] tagA,
    Map.empty.set tagA ⟨tagA, [116], [], 18446744073709551615, false, true⟩,
    Map.empty, Map.empty, Map.empty⟩, 2, [⟨0, 64⟩, ⟨1, 1000⟩], 1, [], 1, fun _ _ => 0, [], 0⟩

/-! ## Scheduling-time routing -/

inductive SubDomainId where
  | kGlobalContainers
  | kLocalContainers
deriving DecidableEq, Repr

/-- Modelled from the spec: `chi::DomainQuery` is declared outside src/; a value is
the result of one of its static constructors. -/
inductive DomainQuery where
  | GetDirectHash (sub : SubDomainId) (hash : Nat)
  | GetGlobalBcast
  | GetDynamic
deriving DecidableEq, Repr

/-- The fields of a task that the route functions read or write: `dom_query_`, the
flag read by `IsDirect()` and set by `SetDirect()`, the flag cleared by
`UnsetRouted()`, and the ids and names of the tag and blob the task carries. -/
structure RouteTask where
  dom_query : DomainQuery
  direct : Bool
  routed : Bool
  tag_id : TagId
  tag_name : ChiString
  blob_id : BlobId
  blob_name : ChiString
deriving DecidableEq, Repr

/-- The values, for the task type `TaskT` of an instantiation, of the four tests
`std::is_base_of_v<TaskT, X>` (is `TaskT` a base class of `X`) of lines 217-287. -/
structure TaskTraits where
  base_of_BlobWithId : Bool
  base_of_BlobWithName : Bool
  base_of_TagWithId : Bool
  base_of_TagWithName : Bool
deriving DecidableEq, Repr

/-- The traits of a task type that is not a base class of `BlobWithId`,
`BlobWithName`, `TagWithId` or `TagWithName`: the task classes the `Monitor`
methods instantiate the route functions with carry `blob_id_`, `tag_name_`, … as
members, that is they are derived from these structs, not bases of them. -/
def traitsOfTask : TaskTraits := ⟨false, false, false, false⟩

/-- The traits the tests would have with the task type derived from all four
structs and the arguments of `is_base_of_v` in the order (base, derived). -/
def traitsSwapped : TaskTraits := ⟨true, true, true, true⟩

/-- The hash functions of the routing key, declared outside src/. -/
structure RouteHash where
  HashBlobNameOrId : TagId → ChiString → BlobId → Nat
  HashTagNameOrId : TagId → ChiString → Nat

/-- The helper `Server::GetBlobInfo` (lines 167-187).  The outer `none` stands for
the undefined read `it->second` of line 177, reached with `it == end()`; `some none`
is the null pointer. -/
def GetBlobInfo (s : Server) (blob_name : ChiString) (blob_id : BlobId) :
    Option (Option BlobInfo) :=
  -- Check if blob name is cached on this node
  if blob_name ≠ [] then
    match s.tls.blob_id_map blob_name with
    | some _ => some Option.none
    | Option.none => Option.none
  -- Check if blob ID is cached on this node
  else if !blob_id.IsNull then
    match s.tls.blob_map blob_id with
    | some b => some (some b)
    | Option.none => some Option.none
  else some Option.none

/-- The helper `Server::GetTagInfo` (lines 190-210), with the same conventions. -/
def GetTagInfo (s : Server) (tag_name : ChiString) (tag_id : TagId) :
    Option (Option TagInfo) :=
  -- Check if tag name is cached on this node
  if tag_name ≠ [] then
    match s.tls.tag_id_map tag_name with
    | some _ => some Option.none
    | Option.none => Option.none
  -- Check if tag ID is cached on this node
  else if !tag_id.IsNull then
    match s.tls.tag_map tag_id with
    | some t => some (some t)
    | Option.none => some Option.none
  else some Option.none

/-- The template `Server::BlobCacheWriteRoute<TaskT>` (lines 212-233); `none` when
`GetBlobInfo` is undefined. -/
def BlobCacheWriteRoute (tr : TaskTraits) (h : RouteHash) (s : Server) (task : RouteTask) :
    Option RouteTask :=
  let tag_id := task.tag_id
  let blob_id := if tr.base_of_BlobWithId then task.blob_id else UniqueId.GetNull
  let blob_name := if tr.base_of_BlobWithName then task.blob_name else []
  match GetBlobInfo s blob_name blob_id with
  | Option.none => Option.none
  | some blob_info =>
    if blob_info.isSome || task.direct then some task
    else some { task with
      dom_query := DomainQuery.GetDirectHash SubDomainId.kGlobalContainers
        (h.HashBlobNameOrId tag_id blob_name blob_id),
      direct := true, routed := false }

/-- The template `Server::BlobCacheReadRoute<TaskT>` (lines 235-256). -/
def BlobCacheReadRoute (tr : TaskTraits) (h : RouteHash) (s : Server) (task : RouteTask) :
    Option RouteTask :=
  let tag_id := task.tag_id
  let blob_id := if tr.base_of_BlobWithId then task.blob_id else UniqueId.GetNull
  let blob_name := if tr.base_of_BlobWithName then task.blob_name else []
  match GetBlobInfo s blob_name blob_id with
  | Option.none => Option.none
  | some blob_info =>
    if blob_info.isSome || task.direct then some task
    else some { task with
      dom_query := DomainQuery.GetDirectHash SubDomainId.kGlobalContainers
        (h.HashBlobNameOrId tag_id blob_name blob_id),
      direct := true, routed := false }

/-- The template `Server::TagCacheWriteRoute<TaskT>` (lines 258-277). -/
def TagCacheWriteRoute (tr : TaskTraits) (h : RouteHash) (s : Server) (task : RouteTask) :
    Option RouteTask :=
  let tag_id := if tr.base_of_TagWithId then task.tag_id else UniqueId.GetNull
  let tag_name := if tr.base_of_TagWithName then task.tag_name else []
  match GetTagInfo s tag_name tag_id with
  | Option.none => Option.none
  | some tag_info =>
    if tag_info.isSome || task.direct then some task
    else some { task with
      dom_query := DomainQuery.GetDirectHash SubDomainId.kGlobalContainers
        (h.HashTagNameOrId tag_id tag_name),
      direct := true, routed := false }

/-- The template `Server::TagCacheReadRoute<TaskT>` (lines 279-298). -/
def TagCacheReadRoute (tr : TaskTraits) (h : RouteHash) (s : Server) (task : RouteTask) :
    Option RouteTask :=
  let tag_id := if tr.base_of_TagWithId then task.tag_id else UniqueId.GetNull
  let tag_name := if tr.base_of_TagWithName then task.tag_name else []
  match GetTagInfo s tag_name tag_id with
  | Option.none => Option.none
  | some tag_info =>
    if tag_info.isSome || task.direct then some task
    else some { task with
      dom_query := DomainQuery.GetDirectHash SubDomainId.kGlobalContainers
        (h.HashTagNameOrId tag_id tag_name),
      direct := true, routed := false }

/-- What the claim of idempotence says of one route function `R` at a task: routing
the result again gives the same result; a direct task is not modified; and a
result that differs from the task is marked direct. -/
def RouteIdempotent (R : RouteTask → Option RouteTask) (task : RouteTask) : Prop :=
  (R task).bind R = R task
  ∧ (task.direct = true → ∀ t, R task = some t → t = task)
  ∧ (∀ t, R task = some t → t = task ∨ t.direct = true)

/-- The route function returns at `task`, and returns `task` itself when it is
direct. -/
def RouteReturns (R : RouteTask → Option RouteTask) (task : RouteTask) : Prop :=
  (∃ t, R task = some t) ∧ (task.direct = true → R task = some task)

/-- Hash functions that add up the characters of the name and the `unique` parts of
the ids. -/
def hashSum : RouteHash :=
  ⟨fun t n b => t.unique + n.sum + b.unique, fun t n => t.unique + n.sum⟩

/-- A task on blob `[98]` of `tagA`, with the blob's id, not yet direct. -/
def taskB : RouteTask :=
  ⟨DomainQuery.GetDynamic, false, true, tagA, [116], ⟨1, 7, 1⟩, [98]⟩

/-- A task on blob `[99]` of `tagA`, with the blob's id, not yet direct. -/
def taskC : RouteTask :=
  ⟨DomainQuery.GetDynamic, false, true, tagA, [116], ⟨1, 7, 2⟩, [99]⟩

/-- A task carrying the id of `tagA` and no name, not yet direct. -/
def taskById : RouteTask :=
  ⟨DomainQuery.GetDynamic, false, true, tagA, [], ⟨1, 7, 1⟩, []⟩

/-- A task carrying the name `[117]`, which no tag of `laneOwner` has. -/
def taskOther : RouteTask :=
  ⟨DomainQuery.GetDynamic, false, true, ⟨1, 11, 9⟩, [117], UniqueId.GetNull, []⟩

/-! ## The access log -/

/-- The fields of `PollAccessPatternTask`. -/
structure PollAccessPatternTask where
  last_access : Nat
  io_pattern : List IoStat
deriving DecidableEq, Repr

/-- The depth given to the ring by `io_pattern_.resize(8192)` (line 94). -/
def ioPatternDepth : Nat := 8192

/-- The method `Server::PollAccessPattern` (lines 1428-1448).  The ring is declared
outside src/: `GetDepth()` is `ioPatternDepth`, `GetSize()` the number of records
held, and `peek(stat, i)` yields the `i`-th of them.  `std::sort` by `id_` is
rendered by an insertion sort. -/
def PollAccessPattern (s : Server) (task : PollAccessPatternTask) : PollAccessPatternTask :=
  let depth := ioPatternDepth
  let qsize := s.io_pattern.length
  let iter_size := min depth qsize
  let io_pattern := (s.io_pattern.take iter_size).filter (fun stat =>
    !(decide (task.last_access > 0) && decide (stat.id < task.last_access)))
  let io_pattern := io_pattern.insertionSort (fun a b => a.id ≤ b.id)
  { io_pattern := io_pattern,
    last_access := match io_pattern.getLast? with
      | Option.none => task.last_access
      | some stat => stat.id }

instance : IsTotal IoStat (fun a b => a.id ≤ b.id) := ⟨fun a b => Nat.le_total a.id b.id⟩

instance : IsTrans IoStat (fun a b => a.id ≤ b.id) := ⟨fun _ _ _ h1 h2 => Nat.le_trans h1 h2⟩

/-- The wrapper `Client::PollAccessPattern` (hermes_core.h lines 427-436): the ids of
the records returned, and `last_access_` after the call. -/
def polledIds (s : Server) (last_access : Nat) : List Nat × Nat :=
  ((PollAccessPattern s ⟨last_access, []⟩).io_pattern.map (fun stat => stat.id),
   (PollAccessPattern s ⟨last_access, []⟩).last_access)

/-- The server `srvEmpty` after a put, a get and a put on blob `[98]`: the log holds
the records 0, 1 and 2. -/
def srvLogged : Server :=
  runOps [BlobOp.put envExact putABC, BlobOp.get envExact getABC, BlobOp.put envExact putMid]
    srvEmpty

/-! ## Checks on the buffer walk -/

/-- The unsigned subtractions executed by the walk (lines 921-925 of `PutBlob`,
1055-1059 of `GetBlob`) stay non-negative: `blob_off - buf_left`,
`buf.size_ - rel_off`, and, when `buf_right > blob_right`,
`blob_right - (buf_left + rel_off)`.  The recursion is that of `walkBuffers`. -/
def walkNoUnderflow (blob_right : Nat) : List BufferInfo → WalkState → Prop
  | [], _ => True
  | buf :: rest, ws =>
    let buf_right := ws.buf_left + buf.size
    if ws.blob_off ≥ blob_right then True
    else
      let found_left := ws.found_left || (decide (ws.buf_left ≤ ws.blob_off) && decide (ws.blob_off < buf_right))
      if found_left then
        let rel_off := ws.blob_off - ws.buf_left
        let buf_size := if buf_right > blob_right then blob_right - (ws.buf_left + rel_off)
                        else buf.size - rel_off
        ws.buf_left ≤ ws.blob_off ∧ rel_off ≤ buf.size
          ∧ (buf_right > blob_right → ws.buf_left + rel_off ≤ blob_right)
          ∧ walkNoUnderflow blob_right rest
              ⟨buf_right, ws.buf_off + buf_size, ws.buf_left + buf.size, true⟩
      else
        walkNoUnderflow blob_right rest ⟨ws.blob_off, ws.buf_off, ws.buf_left + buf.size, false⟩

/-- The additions executed by the walk stay below `2^64`, so that none of them wraps
in `size_t`: `buf_left + buf.size_` (lines 912 and 938 of `PutBlob`, 1046 and 1072 of
`GetBlob`), `buf.off_ + rel_off` (lines 922, 1055), `buf_left + rel_off` (lines 925,
1058) and `buf_off + buf_size` (lines 936, 1069).  The recursion is that of
`walkBuffers`. -/
def walkNoWrap (blob_right : Nat) : List BufferInfo → WalkState → Prop
  | [], _ => True
  | buf :: rest, ws =>
    let buf_right := ws.buf_left + buf.size
    buf_right < 2 ^ 64 ∧
    (if ws.blob_off ≥ blob_right then True
     else
      let found_left := ws.found_left || (decide (ws.buf_left ≤ ws.blob_off) && decide (ws.blob_off < buf_right))
      if found_left then
        let rel_off := ws.blob_off - ws.buf_left
        let buf_size := if buf_right > blob_right then blob_right - (ws.buf_left + rel_off)
                        else buf.size - rel_off
        buf.off + rel_off < 2 ^ 64
          ∧ (buf_right > blob_right → ws.buf_left + rel_off < 2 ^ 64)
          ∧ ws.buf_off + buf_size < 2 ^ 64
          ∧ walkNoWrap blob_right rest
              ⟨buf_right, ws.buf_off + buf_size, ws.buf_left + buf.size, true⟩
      else
        walkNoWrap blob_right rest ⟨ws.blob_off, ws.buf_off, ws.buf_left + buf.size, false⟩)

/-- The payload offsets of the segments are contiguous from `o`: each segment
starts where the previous one ended. -/
def Contiguous : Nat → List Segment → Prop
  | _, [] => True
  | o, s :: rest => s.buf_off = o ∧ Contiguous (o + s.buf_size) rest

/-- Total length of the segments. -/
def segsLen (segs : List Segment) : Nat := (segs.map (fun s => s.buf_size)).sum

/-! ## Truncating, tagging and reorganizing a blob; lookups -/

/-- The fields of `TruncateBlobTask` set by `Client::TruncateBlob`. -/
structure TruncateBlobTask where
  tag_id : TagId
  blob_id : BlobId
  new_size : Nat
deriving DecidableEq, Repr

/-- The method `Server::TruncateBlob` (lines 1095-1098), "Truncate a blob (TODO)": its
body only takes the reference to the lane. -/
def TruncateBlob (s : Server) (_task : TruncateBlobTask) : Server := s

/-- The method `Server::TagBlob` (lines 1143-1153). -/
def TagBlob (s : Server) (blob_id : BlobId) (tag : TagId) : Server :=
  match s.tls.blob_map blob_id with
  | Option.none => s
  | some blob =>
    { s with tls := { s.tls with
        blob_map := s.tls.blob_map.set blob_id { blob with tags := blob.tags ++ [tag] } } }

/-- The method `Server::BlobHasTag` (lines 1165-1176): the value left in
`task->has_tag_`, which is `has_tag` at the call. -/
def BlobHasTag (s : Server) (blob_id : BlobId) (tag : TagId) (has_tag : Bool) : Bool :=
  match s.tls.blob_map blob_id with
  | Option.none => has_tag
  | some blob => decide (tag ∈ blob.tags)

/-- The wrapper `Bucket::TagBlob(blob_id, tag_id)` (bucket.h lines 176-179): it calls
`mdm_->TagAddBlob(tag_id, blob_id)` and waits for it. -/
def BucketTagBlob (s : Server) (blob_id : BlobId) (tag_id : TagId) : Server :=
  TagAddBlob s tag_id blob_id

/-- The method `Server::GetBlobName` (lines 714-724): the value left in
`task->blob_name_`, which is `blob_name` at the call. -/
def GetBlobName (s : Server) (blob_id : BlobId) (blob_name : ChiString) : ChiString :=
  match s.tls.blob_map blob_id with
  | Option.none => blob_name
  | some blob => blob.name

/-- The method `Server::GetBlobScore` (lines 766-776): the value left in
`task->score_`, which is `score` at the call. -/
def GetBlobScore (s : Server) (blob_id : BlobId) (score : Score) : Score :=
  match s.tls.blob_map blob_id with
  | Option.none => score
  | some blob => blob.score

/-- The method `Server::GetBlobBuffers` (lines 788-798): the value left in
`task->buffers_`, which is `buffers` at the call. -/
def GetBlobBuffers (s : Server) (blob_id : BlobId) (buffers : List BufferInfo) :
    List BufferInfo :=
  match s.tls.blob_map blob_id with
  | Option.none => buffers
  | some blob => blob.buffers

structure ReorganizeBlobTask where
  tag_id : TagId
  blob_name : ChiString
  blob_id : BlobId
  score : Score
  is_user_score : Bool
deriving DecidableEq, Repr

/-- Lines 1195-1201 of `ReorganizeBlob`: a null `blob_id_` is looked up in
`blob_id_map` under `task->blob_name_` itself; `none` when the method returns. -/
def resolveReorganize (s : Server) (task : ReorganizeBlobTask) : Option ReorganizeBlobTask :=
  if task.blob_id.IsNull then
    match s.tls.blob_id_map task.blob_name with
    | Option.none => Option.none
    | some id => some { task with blob_id := id }
  else some task

/-- The method `Server::ReorganizeBlob` (lines 1188-1232).  Returns the state, the
task, and the `PutBlob` sent by `AsyncPutBlob` (fire and forget), if any.  The
`GetBlob` of lines 1221-1226 runs on the same lane; `blob_info` is a reference to
the entry stored under the id, read again for the arguments of the put. -/
def ReorganizeBlob (env : Env) (s : Server) (task : ReorganizeBlobTask) :
    Server × ReorganizeBlobTask × List PutBlobTask :=
  -- Get blob ID
  match resolveReorganize s task with
  | Option.none => (s, task, [])
  | some task =>
    -- Get blob struct
    match s.tls.blob_map task.blob_id with
    | Option.none => (s, task, [])
    | some blob_info =>
      -- Set the new score
      let blob_info1 :=
        if task.is_user_score then { blob_info with user_score := task.score, score := task.score }
        else { blob_info with score := task.score }
      let s1 := { s with tls := { s.tls with
        blob_map := s.tls.blob_map.set task.blob_id blob_info1 } }
      -- Get the blob
      let g := ClientGetBlob env s1 task.tag_id task.blob_id 0 blob_info1.blob_size Flags.none
      let blob_info2 := (g.1.tls.blob_map task.blob_id).getD blob_info1
      -- Put the blob with the new score
      (g.1, task,
       [⟨task.tag_id, [], task.blob_id, 0, blob_info2.blob_size, g.2.2, blob_info2.score,
         Flags.none⟩])

/-- The wrapper `Bucket::ReorganizeBlob(name, score)` (bucket.h lines 337-342) on the
bucket `tag_id`: the name as given, a null id, and `is_user_score = true`. -/
def BucketReorganizeByName (env : Env) (s : Server) (tag_id : TagId) (name : ChiString)
    (score : Score) : Server :=
  (ReorganizeBlob env s ⟨tag_id, name, UniqueId.GetNull, score, true⟩).1

/-- The wrapper `Bucket::ReorganizeBlob(blob_id, score)` (bucket.h lines 347-351). -/
def BucketReorganizeById (env : Env) (s : Server) (tag_id : TagId) (blob_id : BlobId)
    (score : Score) : Server :=
  (ReorganizeBlob env s ⟨tag_id, [], blob_id, score, true⟩).1

/-- One call of an operation on blobs other than `TruncateBlob` and `DestroyBlob`. -/
inductive BlobCall where
  | put (env : Env) (task : PutBlobTask)
  | get (env : Env) (task : GetBlobTask)
  | flush (env : Env) (blob_id : BlobId) (worker_is_flushing : Bool)
  | reorganize (env : Env) (task : ReorganizeBlobTask)
  | tagBlob (blob_id : BlobId) (tag : TagId)
  | getBlobSize (env : Env) (task : GetBlobSizeTask)
  | getOrCreateBlobId (env : Env) (tag_id : TagId) (blob_name : ChiString)

/-- The state after the call. -/
def runCall (s : Server) : BlobCall → Server
  | BlobCall.put env task => (PutBlob env s task).1
  | BlobCall.get env task => (GetBlob env s task).1
  | BlobCall.flush env blob_id w => FlushBlob env s blob_id w
  | BlobCall.reorganize env task => (ReorganizeBlob env s task).1
  | BlobCall.tagBlob blob_id tag => TagBlob s blob_id tag
  | BlobCall.getBlobSize env task => (GetBlobSize env s task).1
  | BlobCall.getOrCreateBlobId env tag_id blob_name =>
    (GetOrCreateBlobIdTask env s tag_id blob_name).1

/-- The call is a `PutBlob`. -/
def BlobCall.isPut : BlobCall → Bool
  | BlobCall.put _ _ => true
  | _ => false

/-- The id that the next creation of a blob would take is not in `blob_map`,
whatever the hash of the name. -/
def FreshIds (s : Server) : Prop :=
  ∀ h : Nat, s.tls.blob_map ⟨s.node_id, h, s.id_alloc⟩ = Option.none

/-! ## Aggregation of metadata polls -/

/-- The case `kReplicaAgg` of `Server::MonitorPollMetadata` (lines 1331-1347): the
value given to `task->SetStats`, from `task->max_count_` and the `GetStats()` of the
replicas in order.  The call `stats_agg.reserve(task->max_count_)` does not change
the value and is left out. -/
def MonitorPollMetadata {MD : Type} (max_count : Int) (replicas : List (List MD)) : List MD :=
  replicas.foldl (fun stats_agg stats =>
    -- Merge replicas
    let append_count := stats.length
    let append_count :=
      if max_count > 0 ∧ (stats_agg.length : Int) < max_count
      then min append_count (max_count - (stats_agg.length : Int)).toNat
      else append_count
    stats_agg ++ stats.take append_count) []

/-! ## Agreement of the tag maps -/

/-- The two tag maps agree at `id`: an entry of `tag_map` under `id` records `id` as
its `tag_id` and its name maps to `id` in `tag_id_map`. -/
def AgreeAt (s : Server) (id : TagId) : Prop :=
  match s.tls.tag_map id with
  | Option.none => True
  | some info => info.tag_id = id ∧ s.tls.tag_id_map info.name = some id

instance (s : Server) (id : TagId) : Decidable (AgreeAt s id) := by
  unfold AgreeAt
  cases s.tls.tag_map id <;> infer_instance

/-! ## Further concrete states -/

/-- A get of three bytes addressed by the id `⟨1, 7, 9⟩`, with an empty name. -/
def getAbsent : GetBlobTask := ⟨tagA, [], ⟨1, 7, 9⟩, 0, 3, [], Flags.none⟩

/-- A put of two bytes at offset `2^64 - 1`, addressed by the id of the blob. -/
def putWrap : PutBlobTask :=
  ⟨tagA, [], ⟨1, 7, 1⟩, 18446744073709551615, 2, [1, 2], 1, Flags.none⟩

/-- A get of three bytes at offset 0 addressed by the id `⟨1, 7, 1⟩`. -/
def getPhantom : GetBlobTask := ⟨tagA, [], ⟨1, 7, 1⟩, 0, 3, [], Flags.none⟩

/-- A put of three bytes at offset 0 addressed by the id `⟨1, 7, 1⟩`. -/
def putPhantom : PutBlobTask := ⟨tagA, [], ⟨1, 7, 1⟩, 0, 3, [5, 6, 7], 1, Flags.none⟩

/-- A put of five bytes at offset 10 to blob name `[98]` of `tagA`. -/
def putAtTen : PutBlobTask :=
  ⟨tagA, [98], UniqueId.GetNull, 10, 5, [1, 2, 3, 4, 5], 1, Flags.none⟩

/-- A put of eight bytes at offset 0 to blob name `[98]` of `tagA`. -/
def putEight : PutBlobTask :=
  ⟨tagA, [98], UniqueId.GetNull, 0, 8, [1, 2, 3, 4, 5, 6, 7, 8], 1, Flags.none⟩

/-- A put of three bytes at offset 2 to blob name `[98]` of `tagA`. -/
def putInner : PutBlobTask :=
  ⟨tagA, [98], UniqueId.GetNull, 2, 3, [21, 22, 23], 1, Flags.none⟩

/-- A get of eight bytes at offset 0 from blob name `[98]` of `tagA`. -/
def getEight : GetBlobTask := ⟨tagA, [98], UniqueId.GetNull, 0, 8, [], Flags.none⟩

/-! # Theorems -/

/-! ## Lemmas on the walk -/

theorem sumSizes_cons (b : BufferInfo) (bufs : List BufferInfo) :
    sumSizes (b :: bufs) = b.size + sumSizes bufs := by
  simp [sumSizes]

theorem sumSizes_append (xs ys : List BufferInfo) :
    sumSizes (xs ++ ys) = sumSizes xs + sumSizes ys := by
  simp [sumSizes]

theorem Storage.read_length (st : Storage) (tid off len : Nat) :
    (st.read tid off len).length = len := by
  simp [Storage.read]

theorem content_length (st : Storage) (bufs : List BufferInfo) :
    (content st bufs).length = sumSizes bufs := by
  induction bufs with
  | nil => simp [content, sumSizes]
  | cons b rest ih => simp [content, sumSizes_cons, Storage.read_length, ih]

theorem walkBuffers_break (R : Nat) (b : BufferInfo) (rest : List BufferInfo) (ws : WalkState)
    (h : R ≤ ws.blob_off) : walkBuffers R (b :: rest) ws = ([], ws) := by
  simp [walkBuffers, h]

theorem walkBuffers_found (R : Nat) (b : BufferInfo) (rest : List BufferInfo) (ws : WalkState)
    (h : ws.blob_off < R) (hf : foundAt b ws) :
    walkBuffers R (b :: rest) ws
      = (⟨b.tid, b.off + (ws.blob_off - ws.buf_left), segSize R b ws, ws.buf_off⟩ ::
          (walkBuffers R rest ⟨ws.buf_left + b.size, ws.buf_off + segSize R b ws,
            ws.buf_left + b.size, true⟩).1,
         (walkBuffers R rest ⟨ws.buf_left + b.size, ws.buf_off + segSize R b ws,
            ws.buf_left + b.size, true⟩).2) := by
  have h1 : ¬ (ws.blob_off ≥ R) := by omega
  have h2 : (ws.found_left || (decide (ws.buf_left ≤ ws.blob_off) && decide (ws.blob_off < ws.buf_left + b.size))) = true := by
    simpa [foundAt] using hf
  simp only [walkBuffers, h1, if_false, h2, if_true, segSize]

theorem walkBuffers_skip (R : Nat) (b : BufferInfo) (rest : List BufferInfo) (ws : WalkState)
    (h : ws.blob_off < R) (hf : ¬ foundAt b ws) :
    walkBuffers R (b :: rest) ws
      = walkBuffers R rest ⟨ws.blob_off, ws.buf_off, ws.buf_left + b.size, false⟩ := by
  have h1 : ¬ (ws.blob_off ≥ R) := by omega
  have h2 : (ws.found_left || (decide (ws.buf_left ≤ ws.blob_off) && decide (ws.blob_off < ws.buf_left + b.size))) = false := by
    simpa [foundAt] using hf
  simp [walkBuffers, h1, h2]

theorem foundAt_rel (b : BufferInfo) (ws : WalkState) (hinv : ws.Inv) (hf : foundAt b ws) :
    ws.blob_off - ws.buf_left ≤ b.size ∧ ws.buf_left ≤ ws.blob_off := by
  obtain ⟨h1, h2⟩ := hinv
  rcases hf with hf | hf
  · have := h2 hf; omega
  · omega

theorem not_foundAt_skip (b : BufferInfo) (ws : WalkState) (hinv : ws.Inv) (hf : ¬ foundAt b ws) :
    ws.buf_left + b.size ≤ ws.blob_off := by
  obtain ⟨h1, _⟩ := hinv
  unfold foundAt at hf
  push_neg at hf
  have := hf.2 h1
  omega

theorem inv_found (b : BufferInfo) (ws : WalkState) (n : Nat) :
    WalkState.Inv ⟨ws.buf_left + b.size, n, ws.buf_left + b.size, true⟩ :=
  ⟨Nat.le_refl _, fun _ => rfl⟩

theorem inv_skip (b : BufferInfo) (ws : WalkState) (hinv : ws.Inv) (hf : ¬ foundAt b ws) :
    WalkState.Inv ⟨ws.blob_off, ws.buf_off, ws.buf_left + b.size, false⟩ :=
  ⟨not_foundAt_skip b ws hinv hf, fun h => by cases h⟩

theorem walkBuffers_buf_off (R : Nat) (bufs : List BufferInfo) :
    ∀ ws : WalkState, ws.Inv →
      (walkBuffers R bufs ws).2.buf_off
        = ws.buf_off + min (R - ws.blob_off) (sumSizes bufs - (ws.blob_off - ws.buf_left)) := by
  induction bufs with
  | nil => intro ws _; simp [walkBuffers, sumSizes]
  | cons b rest ih =>
    intro ws hinv
    rw [sumSizes_cons]
    by_cases hbr : R ≤ ws.blob_off
    · rw [walkBuffers_break R b rest ws hbr]; simp only; omega
    · by_cases hf : foundAt b ws
      · rw [walkBuffers_found R b rest ws (by omega) hf]
        have hrel := foundAt_rel b ws hinv hf
        simp only [ih _ (inv_found b ws _), segSize]
        split <;> omega
      · rw [walkBuffers_skip R b rest ws (by omega) hf]
        have := not_foundAt_skip b ws hinv hf
        simp only [ih _ (inv_skip b ws hinv hf)]
        omega

/-- The cursor at exit never passes the end of the buffers (or stays where it
started). -/
theorem walkBuffers_blob_off_le (R : Nat) (bufs : List BufferInfo) :
    ∀ ws : WalkState, ws.Inv →
      (walkBuffers R bufs ws).2.blob_off ≤ max ws.blob_off (ws.buf_left + sumSizes bufs) := by
  induction bufs with
  | nil => intro ws _; simp [walkBuffers, sumSizes]
  | cons b rest ih =>
    intro ws hinv
    rw [sumSizes_cons]
    by_cases hbr : R ≤ ws.blob_off
    · rw [walkBuffers_break R b rest ws hbr]; simp only; omega
    · by_cases hf : foundAt b ws
      · rw [walkBuffers_found R b rest ws (by omega) hf]
        have := ih _ (inv_found b ws (ws.buf_off + segSize R b ws))
        simp only at this ⊢
        omega
      · rw [walkBuffers_skip R b rest ws (by omega) hf]
        have := ih _ (inv_skip b ws hinv hf)
        simp only at this ⊢
        omega

/-- When the buffers cover the requested range the cursor ends at or beyond its
right end. -/
theorem walkBuffers_blob_off_ge (R : Nat) (bufs : List BufferInfo) :
    ∀ ws : WalkState, ws.Inv → R ≤ ws.buf_left + sumSizes bufs →
      R ≤ (walkBuffers R bufs ws).2.blob_off := by
  induction bufs with
  | nil => intro ws hinv h; simp [walkBuffers, sumSizes] at *; have := hinv.1; omega
  | cons b rest ih =>
    intro ws hinv h
    rw [sumSizes_cons] at h
    by_cases hbr : R ≤ ws.blob_off
    · rw [walkBuffers_break R b rest ws hbr]; exact hbr
    · by_cases hf : foundAt b ws
      · rw [walkBuffers_found R b rest ws (by omega) hf]
        exact ih _ (inv_found b ws _) (by simp only; omega)
      · rw [walkBuffers_skip R b rest ws (by omega) hf]
        exact ih _ (inv_skip b ws hinv hf) (by simp only; omega)

theorem walkBuffers_blob_off_mono (R : Nat) (bufs : List BufferInfo) :
    ∀ ws : WalkState, ws.Inv → ws.blob_off ≤ (walkBuffers R bufs ws).2.blob_off := by
  induction bufs with
  | nil => intro ws _; simp [walkBuffers]
  | cons b rest ih =>
    intro ws hinv
    by_cases hbr : R ≤ ws.blob_off
    · rw [walkBuffers_break R b rest ws hbr]
    · by_cases hf : foundAt b ws
      · rw [walkBuffers_found R b rest ws (by omega) hf]
        have := ih _ (inv_found b ws (ws.buf_off + segSize R b ws))
        have hrel := foundAt_rel b ws hinv hf
        simp only at this ⊢
        omega
      · rw [walkBuffers_skip R b rest ws (by omega) hf]
        exact ih _ (inv_skip b ws hinv hf)

/-! ## Reads and writes along the walk -/

theorem Storage.read_sub (st : Storage) (tid off size rel len : Nat) (h : rel + len ≤ size) :
    st.read tid (off + rel) len = ((st.read tid off size).drop rel).take len := by
  apply List.ext_getElem
  · simp [Storage.read]; omega
  · intro i h1 h2
    simp [Storage.read, Nat.add_assoc]

theorem doReads_walkBuffers (st : Storage) (R : Nat) (bufs : List BufferInfo) :
    ∀ ws : WalkState, ws.Inv →
      doReads st (walkBuffers R bufs ws).1
        = ((content st bufs).drop (ws.blob_off - ws.buf_left)).take (R - ws.blob_off) := by
  induction bufs with
  | nil => intro ws _; simp [walkBuffers, doReads, content]
  | cons b rest ih =>
    intro ws hinv
    by_cases hbr : R ≤ ws.blob_off
    · rw [walkBuffers_break R b rest ws hbr]
      have : R - ws.blob_off = 0 := by omega
      simp [doReads, this]
    · by_cases hf : foundAt b ws
      · rw [walkBuffers_found R b rest ws (by omega) hf]
        have hrel := foundAt_rel b ws hinv hf
        simp only [doReads, content, ih _ (inv_found b ws _), Nat.sub_self, List.drop_zero]
        have hlen : (st.read b.tid b.off b.size).length = b.size := st.read_length _ _ _
        rw [List.drop_append_of_le_length (by rw [hlen]; exact hrel.1),
          List.take_append_eq_append_take]
        simp only [List.length_drop, hlen]
        by_cases hc : ws.buf_left + b.size > R
        · have e1 : segSize R b ws = R - ws.blob_off := by
            simp only [segSize, hc, if_true]; omega
          have e2 : R - (ws.buf_left + b.size) = 0 := by omega
          have e3 : R - ws.blob_off - (b.size - (ws.blob_off - ws.buf_left)) = 0 := by omega
          rw [e1, e2, e3, st.read_sub b.tid b.off b.size _ _ (by omega)]
        · have e1 : segSize R b ws = b.size - (ws.blob_off - ws.buf_left) := by
            simp only [segSize, hc, if_false]
          have e3 : R - ws.blob_off - (b.size - (ws.blob_off - ws.buf_left))
              = R - (ws.buf_left + b.size) := by omega
          rw [e1, e3, st.read_sub b.tid b.off b.size _ _ (by omega)]
          congr 1
          rw [List.take_of_length_le (by simp [hlen]), List.take_of_length_le (by simp [hlen]; omega)]
      · rw [walkBuffers_skip R b rest ws (by omega) hf]
        have hs := not_foundAt_skip b ws hinv hf
        have hlen : (st.read b.tid b.off b.size).length = b.size := st.read_length _ _ _
        simp only [content, ih _ (inv_skip b ws hinv hf)]
        have e : List.drop (ws.blob_off - ws.buf_left) (st.read b.tid b.off b.size) = [] :=
          List.drop_of_length_le (by rw [hlen]; omega)
        rw [List.drop_append_eq_append_drop, e, hlen]
        simp only [List.nil_append]
        congr 2
        omega

/-- Every transfer of the walk stays inside the block of a buffer of the list. -/
theorem walkBuffers_within (R : Nat) (bufs : List BufferInfo) :
    ∀ ws : WalkState, ws.Inv → ∀ s ∈ (walkBuffers R bufs ws).1,
      ∃ b ∈ bufs, s.tid = b.tid ∧ b.off ≤ s.tgt_off ∧ s.tgt_off + s.buf_size ≤ b.off + b.size := by
  induction bufs with
  | nil => intro ws _ s hs; simp [walkBuffers] at hs
  | cons b rest ih =>
    intro ws hinv s hs
    by_cases hbr : R ≤ ws.blob_off
    · rw [walkBuffers_break R b rest ws hbr] at hs; simp at hs
    · by_cases hf : foundAt b ws
      · rw [walkBuffers_found R b rest ws (by omega) hf] at hs
        have hrel := foundAt_rel b ws hinv hf
        rcases List.mem_cons.1 hs with h | h
        · refine ⟨b, List.mem_cons_self _ _, ?_⟩
          subst h
          refine ⟨rfl, Nat.le_add_right _ _, ?_⟩
          simp only [segSize]
          split <;> omega
        · obtain ⟨b', hb', h'⟩ := ih _ (inv_found b ws _) s h
          exact ⟨b', List.mem_cons_of_mem _ hb', h'⟩
      · rw [walkBuffers_skip R b rest ws (by omega) hf] at hs
        obtain ⟨b', hb', h'⟩ := ih _ (inv_skip b ws hinv hf) s hs
        exact ⟨b', List.mem_cons_of_mem _ hb', h'⟩

theorem applyWrites_frame (data : List Nat) (t : TargetId) (o : Nat) (segs : List Segment) :
    ∀ st : Storage,
      (∀ s ∈ segs, ¬ (t = s.tid ∧ s.tgt_off ≤ o ∧ o < s.tgt_off + s.buf_size)) →
      applyWrites data segs st t o = st t o := by
  induction segs with
  | nil => intro st _; rfl
  | cons s rest ih =>
    intro st h
    simp only [applyWrites]
    rw [ih _ (fun s' hs' => h s' (List.mem_cons_of_mem _ hs'))]
    have h0 := h s (List.mem_cons_self _ _)
    have hl : ((data.drop s.buf_off).take s.buf_size).length ≤ s.buf_size := by
      simp only [List.length_take]; omega
    simp only [Storage.write]
    rw [if_neg]
    intro hc
    exact h0 ⟨hc.1, hc.2.1, by omega⟩

/-- The writes of a walk leave every device byte outside the buffers untouched. -/
theorem applyWrites_walk_outside (data : List Nat) (R : Nat) (bufs : List BufferInfo)
    (ws : WalkState) (hinv : ws.Inv) (st : Storage) (t : TargetId) (o : Nat)
    (h : ∀ b ∈ bufs, ¬ b.covers t o) :
    applyWrites data (walkBuffers R bufs ws).1 st t o = st t o := by
  apply applyWrites_frame
  intro s hs hc
  obtain ⟨b, hb, h1, h2, h3⟩ := walkBuffers_within R bufs ws hinv s hs
  exact h b hb ⟨hc.1.trans h1, by omega, by omega⟩

theorem Storage.read_congr (st1 st2 : Storage) (tid off len : Nat)
    (h : ∀ i, i < len → st1 tid (off + i) = st2 tid (off + i)) :
    st1.read tid off len = st2.read tid off len := by
  simp only [Storage.read]
  apply List.map_congr_left
  intro i hi
  exact h i (List.mem_range.1 hi)

theorem content_congr (st1 st2 : Storage) (bufs : List BufferInfo)
    (h : ∀ b ∈ bufs, ∀ o, b.covers b.tid o → st1 b.tid o = st2 b.tid o) :
    content st1 bufs = content st2 bufs := by
  induction bufs with
  | nil => rfl
  | cons b rest ih =>
    simp only [content]
    rw [ih (fun b' hb' => h b' (List.mem_cons_of_mem _ hb'))]
    congr 1
    apply Storage.read_congr
    intro i hi
    exact h b (List.mem_cons_self _ _) _ ⟨rfl, Nat.le_add_right _ _, by omega⟩

theorem Storage.read_write (st : Storage) (tid off size rel : Nat) (piece : List Nat)
    (h : rel + piece.length ≤ size) :
    (st.write tid (off + rel) piece).read tid off size
      = (st.read tid off size).take rel ++ piece
          ++ (st.read tid off size).drop (rel + piece.length) := by
  apply List.ext_getElem
  · simp [Storage.read]; omega
  · intro i h1 h2
    simp only [Storage.read, List.getElem_map, List.getElem_range, Storage.write]
    by_cases ha : i < rel
    · rw [if_neg (by omega), List.getElem_append_left (by simp; omega),
        List.getElem_append_left (by simp [Storage.read]; omega)]
      simp
    · by_cases hb : i < rel + piece.length
      · rw [if_pos ⟨trivial, by omega, by omega⟩, List.getElem_append_left (by simp [Storage.read]; omega),
          List.getElem_append_right (by simp [Storage.read]; omega)]
        have hl : (List.take rel (List.map (fun i => st tid (off + i)) (List.range size))).length = rel := by
          simp; omega
        have e : off + i - (off + rel) = i - rel := by omega
        simp only [hl, e]
        rw [List.getD_eq_getElem _ _ (by omega)]
      · rw [if_neg (by omega), List.getElem_append_right (by simp [Storage.read]; omega)]
        simp only [List.length_append, List.length_take, List.length_map, List.length_range,
          List.getElem_drop, List.getElem_map, List.getElem_range]
        congr 1
        omega

theorem disjoint_head_not_covers (b : BufferInfo) (rest : List BufferInfo)
    (hd : DisjointBuffers (b :: rest)) (o : Nat) (ho : b.covers b.tid o) :
    ∀ b' ∈ rest, ¬ b'.covers b.tid o := by
  intro b' hb' hc
  have hp := (List.pairwise_cons.1 hd).1 b' hb'
  apply hp
  obtain ⟨_, h1, h2⟩ := ho
  obtain ⟨h3, h4, h5⟩ := hc
  exact ⟨h3, by omega, by omega⟩

/-- Effect of the write walk on the logical contents of pairwise-disjoint buffers:
the payload replaces the bytes from the cursor on and nothing else changes. -/
theorem content_applyWrites_walk (data : List Nat) (R : Nat) (bufs : List BufferInfo) :
    ∀ (ws : WalkState) (st : Storage), ws.Inv → DisjointBuffers bufs →
      ws.buf_off + walkLen R bufs ws ≤ data.length →
      content (applyWrites data (walkBuffers R bufs ws).1 st) bufs
        = (content st bufs).take (ws.blob_off - ws.buf_left)
          ++ (data.drop ws.buf_off).take (walkLen R bufs ws)
          ++ (content st bufs).drop (ws.blob_off - ws.buf_left + walkLen R bufs ws) := by
  induction bufs with
  | nil => intro ws st _ _ _; simp [walkBuffers, applyWrites, content, walkLen, sumSizes]
  | cons b rest ih =>
    intro ws st hinv hd hdata
    have hd' : DisjointBuffers rest := (List.pairwise_cons.1 hd).2
    have hlen : (st.read b.tid b.off b.size).length = b.size := st.read_length _ _ _
    have hclen : (content st rest).length = sumSizes rest := content_length st rest
    simp only [walkLen, sumSizes_cons] at hdata ⊢
    by_cases hbr : R ≤ ws.blob_off
    · rw [walkBuffers_break R b rest ws hbr]
      have e : min (R - ws.blob_off) (b.size + sumSizes rest - (ws.blob_off - ws.buf_left)) = 0 := by
        omega
      simp [applyWrites, e]
    · by_cases hf : foundAt b ws
      · rw [walkBuffers_found R b rest ws (by omega) hf]
        have hrel := foundAt_rel b ws hinv hf
        have hinv' := inv_found b ws (ws.buf_off + segSize R b ws)
        simp only [applyWrites]
        generalize hst1 : st.write b.tid (b.off + (ws.blob_off - ws.buf_left))
          ((data.drop ws.buf_off).take (segSize R b ws)) = st1
        have hseg : segSize R b ws ≤ b.size - (ws.blob_off - ws.buf_left) := by
          simp only [segSize]; split <;> omega
        have hseg2 : segSize R b ws ≤ R - ws.blob_off := by
          simp only [segSize]; split <;> omega
        have hpl : ((data.drop ws.buf_off).take (segSize R b ws)).length = segSize R b ws := by
          simp only [List.length_take, List.length_drop]; omega
        have hrest : content st1 rest = content st rest := by
          apply content_congr
          intro b' hb' o ho
          rw [← hst1]
          simp only [Storage.write]
          rw [if_neg]
          rintro ⟨h1, h2, h3⟩
          rw [hpl] at h3
          have hp := (List.pairwise_cons.1 hd).1 b' hb'
          apply hp
          obtain ⟨_, h4, h5⟩ := ho
          exact ⟨h1.symm, by omega, by omega⟩
        have hb1 : (applyWrites data (walkBuffers R rest ⟨ws.buf_left + b.size,
            ws.buf_off + segSize R b ws, ws.buf_left + b.size, true⟩).1 st1).read b.tid b.off b.size
            = st1.read b.tid b.off b.size := by
          apply Storage.read_congr
          intro i hi
          apply applyWrites_walk_outside data R rest _ hinv'
          exact disjoint_head_not_covers b rest hd _ ⟨rfl, Nat.le_add_right _ _, by omega⟩
        have hb2 : st1.read b.tid b.off b.size
            = (st.read b.tid b.off b.size).take (ws.blob_off - ws.buf_left)
              ++ (data.drop ws.buf_off).take (segSize R b ws)
              ++ (st.read b.tid b.off b.size).drop (ws.blob_off - ws.buf_left + segSize R b ws) := by
          rw [← hst1, Storage.read_write st b.tid b.off b.size _ _ (by rw [hpl]; omega), hpl]
        simp only [content]
        rw [hb1, hb2, ih _ st1 hinv' hd' (by simp only [walkLen]; omega), hrest]
        simp only [walkLen, Nat.sub_self, List.take_zero, List.nil_append, Nat.zero_add,
          Nat.sub_zero]
        by_cases hc : ws.buf_left + b.size > R
        · have e1 : segSize R b ws = R - ws.blob_off := by
            simp only [segSize, hc, if_true]; omega
          have e2 : min (R - (ws.buf_left + b.size)) (sumSizes rest) = 0 := by omega
          have e3 : min (R - ws.blob_off) (b.size + sumSizes rest - (ws.blob_off - ws.buf_left))
              = R - ws.blob_off := by omega
          rw [e1, e2, e3, List.take_append_of_le_length (by rw [hlen]; omega),
            List.drop_append_of_le_length (by rw [hlen]; omega)]
          simp
        · have e1 : segSize R b ws = b.size - (ws.blob_off - ws.buf_left) := by
            simp only [segSize, hc, if_false]
          have e3 : min (R - ws.blob_off) (b.size + sumSizes rest - (ws.blob_off - ws.buf_left))
              = (b.size - (ws.blob_off - ws.buf_left))
                + min (R - (ws.buf_left + b.size)) (sumSizes rest) := by omega
          have e4 : List.drop (ws.blob_off - ws.buf_left + (b.size - (ws.blob_off - ws.buf_left)))
              (st.read b.tid b.off b.size) = [] :=
            List.drop_of_length_le (by rw [hlen]; omega)
          have e5 : ws.blob_off - ws.buf_left
                + ((b.size - (ws.blob_off - ws.buf_left))
                  + min (R - (ws.buf_left + b.size)) (sumSizes rest))
              = b.size + min (R - (ws.buf_left + b.size)) (sumSizes rest) := by omega
          rw [e1, e3, e4, e5]
          generalize min (R - (ws.buf_left + b.size)) (sumSizes rest) = k'
          have e6 : List.take (ws.blob_off - ws.buf_left)
              (st.read b.tid b.off b.size ++ content st rest)
              = List.take (ws.blob_off - ws.buf_left) (st.read b.tid b.off b.size) :=
            List.take_append_of_le_length (by rw [hlen]; omega)
          have e7 : List.drop (b.size + k') (st.read b.tid b.off b.size ++ content st rest)
              = List.drop k' (content st rest) := by
            have e8 : List.drop (b.size + k') (st.read b.tid b.off b.size) = [] :=
              List.drop_of_length_le (by rw [hlen]; omega)
            rw [List.drop_append_eq_append_drop, e8, hlen]
            simp
          rw [e6, e7, List.take_add, List.drop_drop]
          simp only [List.append_nil, List.append_assoc, Nat.add_comm]
      · rw [walkBuffers_skip R b rest ws (by omega) hf]
        have hs := not_foundAt_skip b ws hinv hf
        have hinv' := inv_skip b ws hinv hf
        have hb1 : (applyWrites data (walkBuffers R rest ⟨ws.blob_off, ws.buf_off,
            ws.buf_left + b.size, false⟩).1 st).read b.tid b.off b.size
            = st.read b.tid b.off b.size := by
          apply Storage.read_congr
          intro i hi
          apply applyWrites_walk_outside data R rest _ hinv'
          exact disjoint_head_not_covers b rest hd _ ⟨rfl, Nat.le_add_right _ _, by omega⟩
        simp only [content]
        rw [hb1, ih _ st hinv' hd' (by simp only [walkLen]; omega)]
        simp only [walkLen]
        have e1 : sumSizes rest - (ws.blob_off - (ws.buf_left + b.size))
            = b.size + sumSizes rest - (ws.blob_off - ws.buf_left) := by omega
        rw [e1]
        generalize min (R - ws.blob_off) (b.size + sumSizes rest - (ws.blob_off - ws.buf_left)) = k
        have e2 : List.take (ws.blob_off - ws.buf_left) (st.read b.tid b.off b.size ++ content st rest)
            = st.read b.tid b.off b.size
              ++ List.take (ws.blob_off - (ws.buf_left + b.size)) (content st rest) := by
          rw [List.take_append_eq_append_take, List.take_of_length_le (by rw [hlen]; omega), hlen]
          congr 2
          omega
        have e3 : List.drop (ws.blob_off - ws.buf_left + k) (st.read b.tid b.off b.size ++ content st rest)
            = List.drop (ws.blob_off - (ws.buf_left + b.size) + k) (content st rest) := by
          rw [List.drop_append_eq_append_drop, List.drop_of_length_le (by rw [hlen]; omega), hlen]
          simp only [List.nil_append]
          congr 1
          omega
        rw [e2, e3]
        simp [List.append_assoc]

/-! ## Lemmas on the blob operations -/

theorem Map.set_same {K V : Type} [DecidableEq K] (m : Map K V) (k : K) (v : V) :
    m.set k v k = some v := by
  simp [Map.set]

theorem Map.set_other {K V : Type} [DecidableEq K] (m : Map K V) (k k' : K) (v : V)
    (h : k' ≠ k) : m.set k v k' = m k' := by
  simp [Map.set, h]

theorem Map.erase_same {K V : Type} [DecidableEq K] (m : Map K V) (k : K) :
    m.erase k k = Option.none := by
  simp [Map.erase]

theorem Map.erase_other {K V : Type} [DecidableEq K] (m : Map K V) (k k' : K)
    (h : k' ≠ k) : m.erase k k' = m k' := by
  simp [Map.erase, h]

theorem IsNull_GetNull : UniqueId.GetNull.IsNull = true := by
  simp [UniqueId.IsNull]

/-- After `GetOrCreateBlobId` the name key maps to the returned id. -/
theorem GetOrCreateBlobId_key (s : Server) (tag_id : TagId) (h : Nat) (name : ChiString)
    (f : Flags) :
    (GetOrCreateBlobId s tag_id h name f).2.1.tls.blob_id_map (GetBlobNameWithBucket tag_id name)
      = some (GetOrCreateBlobId s tag_id h name f).1 := by
  unfold GetOrCreateBlobId
  cases hk : s.tls.blob_id_map (GetBlobNameWithBucket tag_id name) with
  | none => simp [Map.emplace, hk, Map.set]
  | some id => simp [hk]

/-- An existing name key is returned without any change of state. -/
theorem GetOrCreateBlobId_found (s : Server) (tag_id : TagId) (h : Nat) (name : ChiString)
    (f : Flags) (id : BlobId)
    (hk : s.tls.blob_id_map (GetBlobNameWithBucket tag_id name) = some id) :
    GetOrCreateBlobId s tag_id h name f = (id, s, f) := by
  simp [GetOrCreateBlobId, hk]

/-- A blob obtained through `GetOrCreateBlobId` is present in `blob_map` when the
name key was absent (it has just been created). -/
theorem GetOrCreateBlobId_created (s : Server) (tag_id : TagId) (h : Nat) (name : ChiString)
    (f : Flags) (hk : s.tls.blob_id_map (GetBlobNameWithBucket tag_id name) = Option.none) :
    ∃ b, (GetOrCreateBlobId s tag_id h name f).2.1.tls.blob_map
        (GetOrCreateBlobId s tag_id h name f).1 = some b
      ∧ b.max_blob_size = 0 ∧ b.blob_size = 0 ∧ b.last_flush = 0 ∧ b.mod_count = 0
      ∧ b.tag_id = tag_id ∧ b.name = name
      ∧ b.buffers = ((s.tls.blob_map ⟨s.node_id, h, s.id_alloc⟩).getD BlobInfo.default).buffers := by
  simp only [GetOrCreateBlobId, hk]
  refine ⟨_, Map.set_same _ _ _, rfl, rfl, rfl, rfl, rfl, rfl, ?_⟩
  simp only [Map.emplace]
  cases hb : s.tls.blob_map ⟨s.node_id, h, s.id_alloc⟩ with
  | none => simp [Map.set]
  | some b => simp [hb]

theorem resolvePut_fields (env : Env) (s : Server) (task : PutBlobTask) :
    (resolvePut env s task).2.tag_id = task.tag_id
    ∧ (resolvePut env s task).2.blob_name = task.blob_name
    ∧ (resolvePut env s task).2.blob_off = task.blob_off
    ∧ (resolvePut env s task).2.data_size = task.data_size
    ∧ (resolvePut env s task).2.data = task.data
    ∧ (resolvePut env s task).2.score = task.score := by
  unfold resolvePut
  split <;> simp

theorem resolvePut_key (env : Env) (s : Server) (task : PutBlobTask)
    (hnull : task.blob_id = UniqueId.GetNull) :
    (resolvePut env s task).1.tls.blob_id_map (GetBlobNameWithBucket task.tag_id task.blob_name)
      = some (resolvePut env s task).2.blob_id := by
  simp only [resolvePut, hnull, IsNull_GetNull, if_true]
  exact GetOrCreateBlobId_key _ _ _ _ _

/-- The state after a `PutBlob` that found its blob. -/
theorem PutBlob_found (env : Env) (s : Server) (task : PutBlobTask) (b0 : BlobInfo)
    (h0 : (resolvePut env s task).1.tls.blob_map (resolvePut env s task).2.blob_id = some b0) :
    (PutBlob env s task).2 = (resolvePut env s task).2
    ∧ (PutBlob env s task).1.tls.blob_id_map = (resolvePut env s task).1.tls.blob_id_map
    ∧ (PutBlob env s task).1.targets
        = (putAllocate env (resolvePut env s task).1 (resolvePut env s task).2 b0).targets
    ∧ (PutBlob env s task).1.dev
        = applyWrites task.data
            (walk task.blob_off task.data_size
              (putAllocate env (resolvePut env s task).1 (resolvePut env s task).2 b0).buffers).1
            (resolvePut env s task).1.dev
    ∧ (PutBlob env s task).1.tls.blob_map
        = (resolvePut env s task).1.tls.blob_map.set (resolvePut env s task).2.blob_id
            (putBlobInfo (resolvePut env s task).2 b0
              (putAllocate env (resolvePut env s task).1 (resolvePut env s task).2 b0)) := by
  obtain ⟨_, _, e3, e4, e5, _⟩ := resolvePut_fields env s task
  simp only [PutBlob, h0, e3, e4, e5, and_self]

theorem putBlobInfo_fields (task : PutBlobTask) (b0 : BlobInfo) (a : AllocState) :
    (putBlobInfo task b0 a).buffers = a.buffers
    ∧ (putBlobInfo task b0 a).max_blob_size
        = (walk task.blob_off task.data_size a.buffers).2.blob_off
    ∧ (putBlobInfo task b0 a).blob_size
        = max b0.blob_size ((task.blob_off + task.data_size) % 2 ^ 64)
    ∧ (putBlobInfo task b0 a).mod_count = b0.mod_count + 1
    ∧ (putBlobInfo task b0 a).tag_id = b0.tag_id
    ∧ (putBlobInfo task b0 a).name = b0.name
    ∧ (putBlobInfo task b0 a).blob_id = b0.blob_id := by
  unfold putBlobInfo BlobInfo.UpdateWriteStats
  generalize (task.blob_off + task.data_size) % 2 ^ 64 = r
  refine ⟨rfl, rfl, ?_, ?_, ?_, ?_, ?_⟩
  · by_cases hs : (task.flags.should_stage && decide (b0.last_flush = 0)) = true <;>
      by_cases hn : r > b0.blob_size <;>
      simp [hs, hn] <;> omega
  all_goals
    by_cases hs : (task.flags.should_stage && decide (b0.last_flush = 0)) = true <;>
      by_cases hn : r > b0.blob_size <;>
      simp [hs, hn]

theorem walk_inv (off : Nat) : WalkState.Inv ⟨off, 0, 0, false⟩ :=
  ⟨Nat.zero_le _, fun h => by cases h⟩

/-- Bytes and count delivered by `GetBlob`, in terms of the blob found after the id
has been resolved. -/
theorem GetBlob_result (env : Env) (s : Server) (gt : GetBlobTask) :
    (GetBlob env s gt).2.data_size
      = (walk gt.blob_off gt.data_size
          ((resolveGet env s gt).1.tls.blob_map (resolveGet env s gt).2.blob_id
            |>.getD BlobInfo.default).buffers).2.buf_off
    ∧ (GetBlob env s gt).2.data
      = doReads (resolveGet env s gt).1.dev
          (walk gt.blob_off gt.data_size
            ((resolveGet env s gt).1.tls.blob_map (resolveGet env s gt).2.blob_id
              |>.getD BlobInfo.default).buffers).1
    ∧ (GetBlob env s gt).2.blob_id = (resolveGet env s gt).2.blob_id := by
  have e : (resolveGet env s gt).2.blob_off = gt.blob_off
      ∧ (resolveGet env s gt).2.data_size = gt.data_size := by
    unfold resolveGet; split <;> simp
  simp only [GetBlob, BlobInfo.UpdateReadStats, e.1, e.2]
  refine ⟨?_, ?_, trivial⟩ <;> split <;> rfl

theorem resolveGet_by_name (env : Env) (s : Server) (gt : GetBlobTask) (id : BlobId)
    (hnull : gt.blob_id = UniqueId.GetNull)
    (hk : s.tls.blob_id_map (GetBlobNameWithBucket gt.tag_id gt.blob_name) = some id) :
    (resolveGet env s gt).1 = s ∧ (resolveGet env s gt).2.blob_id = id := by
  simp [resolveGet, hnull, IsNull_GetNull, GetOrCreateBlobId_found _ _ _ _ _ id hk]

theorem resolveGet_by_id (env : Env) (s : Server) (gt : GetBlobTask)
    (hid : gt.blob_id.IsNull = false) :
    resolveGet env s gt = (s, gt) := by
  simp [resolveGet, hid]

/-- The walk with a right end that does not wrap. -/
theorem walk_eq (off size : Nat) (bufs : List BufferInfo) (h : off + size < 2 ^ 64) :
    walk off size bufs = walkBuffers (off + size) bufs ⟨off, 0, 0, false⟩ := by
  simp only [walk, Nat.mod_eq_of_lt h]

/-- A read at `off` returns the slice of the logical contents of the buffers between
`off` and the 64-bit right end `(off + size) mod 2^64`. -/
theorem walk_read (st : Storage) (off size : Nat) (bufs : List BufferInfo) :
    doReads st (walk off size bufs).1
      = ((content st bufs).drop off).take ((off + size) % 2 ^ 64 - off)
    ∧ (walk off size bufs).2.buf_off
      = min ((off + size) % 2 ^ 64 - off) (sumSizes bufs - off) := by
  constructor
  · have := doReads_walkBuffers st ((off + size) % 2 ^ 64) bufs _ (walk_inv off)
    simpa [walk] using this
  · have := walkBuffers_buf_off ((off + size) % 2 ^ 64) bufs _ (walk_inv off)
    simpa [walk] using this

/-- A read of `size` bytes at `off` whose right end does not wrap returns the
corresponding slice of the logical contents of the buffers. -/
theorem walk_read_lt (st : Storage) (off size : Nat) (bufs : List BufferInfo)
    (h : off + size < 2 ^ 64) :
    doReads st (walk off size bufs).1 = ((content st bufs).drop off).take size
    ∧ (walk off size bufs).2.buf_off = min size (sumSizes bufs - off) := by
  have e : (off + size) % 2 ^ 64 - off = size := by rw [Nat.mod_eq_of_lt h]; omega
  have := walk_read st off size bufs
  rwa [e] at this

/-- A write of `data` at `off` on pairwise-disjoint buffers that cover
`[off, off + data.length)` replaces exactly that range of the logical contents. -/
theorem walk_write (st : Storage) (off : Nat) (data : List Nat) (bufs : List BufferInfo)
    (hd : DisjointBuffers bufs) (hcov : off + data.length ≤ sumSizes bufs)
    (hlt : off + data.length < 2 ^ 64) :
    content (applyWrites data (walk off data.length bufs).1 st) bufs
      = (content st bufs).take off ++ data ++ (content st bufs).drop (off + data.length) := by
  have hl : walkLen (off + data.length) bufs ⟨off, 0, 0, false⟩ = data.length := by
    simp only [walkLen]; omega
  have := content_applyWrites_walk data (off + data.length) bufs ⟨off, 0, 0, false⟩ st
    (walk_inv off) hd (by rw [hl]; simp)
  rw [hl] at this
  rw [walk_eq off data.length bufs hlt]
  simpa using this

/-- The cursor of a walk ends within the buffers when they cover the range. -/
theorem walk_blob_off_le (off size : Nat) (bufs : List BufferInfo)
    (h : off + size ≤ sumSizes bufs) : (walk off size bufs).2.blob_off ≤ sumSizes bufs := by
  have := walkBuffers_blob_off_le ((off + size) % 2 ^ 64) bufs ⟨off, 0, 0, false⟩ (walk_inv off)
  simp only [walk]
  simp only [Nat.zero_add] at this
  omega

/-- A put whose buffers cover its range leaves `max_blob_size` within the buffers. -/
theorem put_keeps_cover (task : PutBlobTask) (b0 : BlobInfo) (a : AllocState)
    (hcov : task.blob_off + task.data_size ≤ sumSizes a.buffers) :
    (putBlobInfo task b0 a).max_blob_size ≤ sumSizes (putBlobInfo task b0 a).buffers := by
  obtain ⟨f1, f2, _⟩ := putBlobInfo_fields task b0 a
  rw [f1, f2]
  exact walk_blob_off_le _ _ _ hcov

theorem putSizeDiff_resolve (env : Env) (s : Server) (task : PutBlobTask) (b0 : BlobInfo) :
    putSizeDiff (resolvePut env s task).2 b0 = putSizeDiff task b0 := by
  obtain ⟨_, _, e3, e4, _, _⟩ := resolvePut_fields env s task
  simp only [putSizeDiff, e3, e4]

/-- When the allocation is satisfied in full, the buffers after it cover the
requested range. -/
theorem covered_after_alloc (task : PutBlobTask) (b0 : BlobInfo) (bufs : List BufferInfo)
    (hlt : task.blob_off + task.data_size < 2 ^ 64)
    (hinv : b0.max_blob_size ≤ sumSizes b0.buffers)
    (hfull : sumSizes b0.buffers + putSizeDiff task b0 ≤ sumSizes bufs) :
    task.blob_off + task.data_size ≤ sumSizes bufs := by
  simp only [putSizeDiff, Nat.mod_eq_of_lt hlt] at hfull
  split at hfull <;> omega

/-- The blob and device state seen by a `GetBlob` by name that follows a `PutBlob`
by name on the same tag and blob name. -/
theorem get_after_put (env env2 : Env) (s : Server) (task : PutBlobTask) (gt : GetBlobTask)
    (b0 : BlobInfo)
    (hnull : task.blob_id = UniqueId.GetNull)
    (hgt : gt.tag_id = task.tag_id ∧ gt.blob_name = task.blob_name
      ∧ gt.blob_id = UniqueId.GetNull)
    (h0 : (resolvePut env s task).1.tls.blob_map (resolvePut env s task).2.blob_id = some b0) :
    (GetBlob env2 (PutBlob env s task).1 gt).2.data_size
      = (walk gt.blob_off gt.data_size
          (putAllocate env (resolvePut env s task).1 (resolvePut env s task).2 b0).buffers).2.buf_off
    ∧ (GetBlob env2 (PutBlob env s task).1 gt).2.data
      = doReads (PutBlob env s task).1.dev
          (walk gt.blob_off gt.data_size
            (putAllocate env (resolvePut env s task).1 (resolvePut env s task).2 b0).buffers).1 := by
  obtain ⟨_, hmap, _, _, hbm⟩ := PutBlob_found env s task b0 h0
  have hk := resolvePut_key env s task hnull
  rw [← hmap, ← hgt.1, ← hgt.2.1] at hk
  obtain ⟨r1, r2⟩ := resolveGet_by_name env2 _ gt _ hgt.2.2 hk
  obtain ⟨g1, g2, _⟩ := GetBlob_result env2 (PutBlob env s task).1 gt
  rw [g1, g2, r1, r2, hbm, Map.set_same]
  simp only [Option.getD_some, (putBlobInfo_fields _ _ _).1, and_self]

theorem resolvePut_by_name_found (env : Env) (s : Server) (task : PutBlobTask) (id : BlobId)
    (hnull : task.blob_id = UniqueId.GetNull)
    (hk : s.tls.blob_id_map (GetBlobNameWithBucket task.tag_id task.blob_name) = some id) :
    (resolvePut env s task).1 = s ∧ (resolvePut env s task).2.blob_id = id := by
  simp [resolvePut, hnull, IsNull_GetNull, GetOrCreateBlobId_found _ _ _ _ _ id hk]

theorem putAllocate_no_diff (env : Env) (s : Server) (task : PutBlobTask) (b : BlobInfo)
    (h : putSizeDiff task b = 0) :
    putAllocate env s task b = ⟨b.buffers, s.targets, false⟩ := by
  simp [putAllocate, h, allocAll]

/-- After a put whose buffers cover its range, `max_blob_size` is at least the right
end of the range. -/
theorem walk_blob_off_ge (off size : Nat) (bufs : List BufferInfo)
    (hlt : off + size < 2 ^ 64)
    (h : off + size ≤ sumSizes bufs) : off + size ≤ (walk off size bufs).2.blob_off := by
  have := walkBuffers_blob_off_ge (off + size) bufs ⟨off, 0, 0, false⟩ (walk_inv off)
    (by simpa using h)
  rw [walk_eq off size bufs hlt]
  exact this

theorem take_overlay (A B X : List Nat) (k : Nat) (h : k + B.length ≤ A.length) :
    ((A ++ X).take k ++ B ++ (A ++ X).drop (k + B.length)).take A.length
      = A.take k ++ B ++ A.drop (k + B.length) := by
  have h1 : (A ++ X).take k = A.take k := List.take_append_of_le_length (by omega)
  have h2 : (A ++ X).drop (k + B.length) = A.drop (k + B.length) ++ X :=
    List.drop_append_of_le_length (by omega)
  rw [h1, h2, ← List.append_assoc]
  apply List.take_left'
  simp
  omega

/-! ## Arithmetic modulo `2^64` -/

theorem mod64_sub_sub (f a b : Nat) :
    ((f + (2 ^ 64 - a % 2 ^ 64)) % 2 ^ 64 + (2 ^ 64 - b % 2 ^ 64)) % 2 ^ 64
      = (f + (2 ^ 64 - (a + b) % 2 ^ 64)) % 2 ^ 64 := by
  have h : (2 : Nat) ^ 64 = 18446744073709551616 := by norm_num
  rw [h]; omega

theorem mod64_add_add (f a b : Nat) :
    ((f + a) % 2 ^ 64 + b) % 2 ^ 64 = (f + (a + b)) % 2 ^ 64 := by
  have h : (2 : Nat) ^ 64 = 18446744073709551616 := by norm_num
  rw [h]; omega

theorem sizeOn_nil (tid : TargetId) : sizeOn tid [] = 0 := by
  simp [sizeOn, sumSizes]

theorem sizeOn_cons (tid : TargetId) (b : BufferInfo) (bufs : List BufferInfo) :
    sizeOn tid (b :: bufs) = (if b.tid = tid then b.size else 0) + sizeOn tid bufs := by
  by_cases h : b.tid = tid <;> simp [sizeOn, List.filter_cons, h, sumSizes_cons]

theorem sizeOn_append (tid : TargetId) (xs ys : List BufferInfo) :
    sizeOn tid (xs ++ ys) = sizeOn tid xs + sizeOn tid ys := by
  simp [sizeOn, List.filter_append, sumSizes_append]

theorem sizeOn_of_tid (tid tid' : TargetId) (bufs : List BufferInfo)
    (h : ∀ b ∈ bufs, b.tid = tid) :
    sizeOn tid' bufs = if tid = tid' then sumSizes bufs else 0 := by
  induction bufs with
  | nil => simp [sizeOn_nil, sumSizes]
  | cons b rest ih =>
    have hb := h b (List.mem_cons_self _ _)
    have ih' := ih (fun b' hb' => h b' (List.mem_cons_of_mem _ hb'))
    rw [sizeOn_cons, sumSizes_cons, ih', hb]
    by_cases ht : tid = tid' <;> simp [ht]

theorem blocksToBuffers_tid (tid : TargetId) (blocks : List Block) :
    ∀ b ∈ blocksToBuffers tid blocks, b.tid = tid := by
  intro b hb
  simp only [blocksToBuffers, List.mem_map] at hb
  obtain ⟨_, _, rfl⟩ := hb
  rfl

theorem sizeOn_blocksToBuffers (tid tid' : TargetId) (blocks : List Block) :
    sizeOn tid' (blocksToBuffers tid blocks)
      = if tid = tid' then sumSizes (blocksToBuffers tid blocks) else 0 :=
  sizeOn_of_tid tid tid' _ (blocksToBuffers_tid tid blocks)

theorem FreeOk_subFree (ts : List TargetInfo) (tid : TargetId) (n : Nat) (h : FreeOk ts) :
    FreeOk (subFree ts tid n) := by
  intro t ht
  simp only [subFree, List.mem_map] at ht
  obtain ⟨t0, h0, rfl⟩ := ht
  split
  · exact Nat.mod_lt _ (by norm_num)
  · exact h t0 h0

theorem FreeOk_addFree (ts : List TargetInfo) (tid : TargetId) (n : Nat) (h : FreeOk ts) :
    FreeOk (addFree ts tid n) := by
  intro t ht
  simp only [addFree, List.mem_map] at ht
  obtain ⟨t0, h0, rfl⟩ := ht
  split
  · exact Nat.mod_lt _ (by norm_num)
  · exact h t0 h0

/-- One `free_ -= t_alloc` for blocks allocated on `tid` extends the debit by those
buffers. -/
theorem subFree_debit (ts : List TargetInfo) (acc : List BufferInfo) (tid : TargetId)
    (blocks : List Block) :
    subFree (debit ts acc) tid (sumSizes (blocksToBuffers tid blocks))
      = debit ts (acc ++ blocksToBuffers tid blocks) := by
  simp only [subFree, debit, List.map_map]
  apply List.map_congr_left
  intro t _
  simp only [Function.comp, sizeOn_append, sizeOn_blocksToBuffers]
  by_cases ht : t.id = tid
  · simp only [ht, if_true]
    rw [mod64_sub_sub]
  · have ht' : ¬ tid = t.id := fun h => ht h.symm
    simp only [ht, ht', if_false, Nat.add_zero]

theorem schemaSize_cons (p : SubPlacement) (plc : List SubPlacement) :
    schemaSize (p :: plc) = p.size + schemaSize plc := by
  simp [schemaSize]

theorem schemaSize_fallback (plc : List SubPlacement) (fb : TargetId) :
    schemaSize (plc ++ [⟨0, fb⟩]) = schemaSize plc := by
  simp [schemaSize]

/-- The loop over the sub-placements appends buffers, debits exactly their bytes from
the targets, never clears `oob`, and unless it ends with `oob` set it allocates at
least the bytes requested (including the amount spilled into it). -/
theorem allocSchema_spec (alloc : Nat → TargetId → Nat → List Block) :
    ∀ (plc : List SubPlacement) (sub_idx spill : Nat) (st : AllocState),
      ∃ new, (allocSchema alloc sub_idx spill plc st).buffers = st.buffers ++ new
        ∧ (∀ ts0 acc, st.targets = debit ts0 acc →
            (allocSchema alloc sub_idx spill plc st).targets = debit ts0 (acc ++ new))
        ∧ ((allocSchema alloc sub_idx spill plc st).oob = false →
            st.oob = false ∧ spill + schemaSize plc ≤ sumSizes new) := by
  intro plc
  induction plc with
  | nil =>
    intro sub_idx spill st
    refine ⟨[], by simp [allocSchema], fun ts0 acc h => by simpa [allocSchema] using h, ?_⟩
    simp only [allocSchema, Bool.or_eq_false_iff, decide_eq_false_iff_not]
    intro ⟨h1, h2⟩
    exact ⟨h1, by simp [schemaSize, sumSizes]; omega⟩
  | cons p rest ih =>
    intro sub_idx spill st
    simp only [allocSchema]
    by_cases hz : p.size + spill = 0
    · simp only [hz, if_true]
      obtain ⟨new, h1, h2, h3⟩ := ih (sub_idx + 1) 0 st
      refine ⟨new, h1, h2, fun ho => ?_⟩
      obtain ⟨h4, h5⟩ := h3 ho
      exact ⟨h4, by rw [schemaSize_cons]; omega⟩
    · simp only [hz, if_false]
      generalize hb : blocksToBuffers p.tid (alloc sub_idx p.tid (p.size + spill)) = nb
      have hnb : nb = blocksToBuffers p.tid (alloc sub_idx p.tid (p.size + spill)) := hb.symm
      obtain ⟨new, h1, h2, h3⟩ := ih (sub_idx + 1)
        (if sumSizes nb < p.size + spill then p.size + spill - sumSizes nb else 0)
        ⟨st.buffers ++ nb, subFree st.targets p.tid (sumSizes nb), st.oob⟩
      refine ⟨nb ++ new, by rw [h1, List.append_assoc], fun ts0 acc h => ?_, fun ho => ?_⟩
      · rw [h2 ts0 (acc ++ nb) (by simp only [h, hnb]; exact subFree_debit ts0 acc p.tid _),
          List.append_assoc]
      · obtain ⟨h4, h5⟩ := h3 ho
        refine ⟨h4, ?_⟩
        rw [schemaSize_cons, sumSizes_append]
        split at h5 <;> omega

theorem allocAll_spec (alloc : Nat → Nat → TargetId → Nat → List Block) (fb : TargetId) :
    ∀ (schemas : List PlacementSchema) (i : Nat) (st : AllocState),
      ∃ new, (allocAll alloc fb i schemas st).buffers = st.buffers ++ new
        ∧ (∀ ts0 acc, st.targets = debit ts0 acc →
            (allocAll alloc fb i schemas st).targets = debit ts0 (acc ++ new))
        ∧ ((allocAll alloc fb i schemas st).oob = false →
            st.oob = false ∧ schemasSize schemas ≤ sumSizes new) := by
  intro schemas
  induction schemas with
  | nil =>
    intro i st
    exact ⟨[], by simp [allocAll], fun ts0 acc h => by simpa [allocAll] using h,
      fun ho => ⟨by simpa [allocAll] using ho, by simp [schemasSize]⟩⟩
  | cons schema rest ih =>
    intro i st
    simp only [allocAll]
    obtain ⟨n1, a1, a2, a3⟩ := allocSchema_spec (alloc i) (schema ++ [⟨0, fb⟩]) 0 0 st
    obtain ⟨n2, b1, b2, b3⟩ := ih (i + 1) (allocSchema (alloc i) 0 0 (schema ++ [⟨0, fb⟩]) st)
    refine ⟨n1 ++ n2, by rw [b1, a1, List.append_assoc], fun ts0 acc h => ?_, fun ho => ?_⟩
    · rw [b2 ts0 (acc ++ n1) (a2 ts0 acc h), List.append_assoc]
    · obtain ⟨c1, c2⟩ := b3 ho
      obtain ⟨d1, d2⟩ := a3 c1
      refine ⟨d1, ?_⟩
      rw [schemaSize_fallback] at d2
      simp only [schemasSize, List.map_cons, List.sum_cons, sumSizes_append] at c2 ⊢
      omega

/-- When no `Allocate` call returns a block of non-zero size, the loop appends no
buffer. -/
theorem allocSchema_none (alloc : Nat → TargetId → Nat → List Block)
    (hz : ∀ i tid n, blocksToBuffers tid (alloc i tid n) = []) :
    ∀ (plc : List SubPlacement) (sub_idx spill : Nat) (st : AllocState),
      (allocSchema alloc sub_idx spill plc st).buffers = st.buffers := by
  intro plc
  induction plc with
  | nil => intro _ _ _; simp [allocSchema]
  | cons p rest ih =>
    intro sub_idx spill st
    simp only [allocSchema]
    split
    · exact ih _ _ _
    · rw [ih, hz]; simp

theorem allocAll_none (alloc : Nat → Nat → TargetId → Nat → List Block) (fb : TargetId)
    (hz : ∀ i j tid n, blocksToBuffers tid (alloc i j tid n) = []) :
    ∀ (schemas : List PlacementSchema) (i : Nat) (st : AllocState),
      (allocAll alloc fb i schemas st).buffers = st.buffers := by
  intro schemas
  induction schemas with
  | nil => intro _ _; simp [allocAll]
  | cons schema rest ih =>
    intro i st
    simp only [allocAll]
    rw [ih, allocSchema_none (alloc i) (hz i)]

theorem allocSchema_oob_mono (alloc : Nat → TargetId → Nat → List Block) :
    ∀ (plc : List SubPlacement) (sub_idx spill : Nat) (st : AllocState), st.oob = true →
      (allocSchema alloc sub_idx spill plc st).oob = true := by
  intro plc
  induction plc with
  | nil => intro _ _ st h; simp [allocSchema, h]
  | cons p rest ih =>
    intro sub_idx spill st h
    simp only [allocSchema]
    split
    · exact ih _ _ _ h
    · exact ih _ _ _ h

theorem allocSchema_none_spill (alloc : Nat → TargetId → Nat → List Block)
    (hz : ∀ i tid n, blocksToBuffers tid (alloc i tid n) = []) :
    ∀ (plc : List SubPlacement) (sub_idx spill : Nat) (st : AllocState), 0 < spill →
      (allocSchema alloc sub_idx spill plc st).oob = true := by
  intro plc
  induction plc with
  | nil => intro _ spill st h; simp [allocSchema, h]
  | cons p rest ih =>
    intro sub_idx spill st h
    simp only [allocSchema]
    split
    · omega
    · apply ih
      rw [hz]
      simp only [sumSizes, List.map_nil, List.sum_nil]
      split <;> omega

/-- When no `Allocate` call returns a block of non-zero size, a run of the loop over
one schema that ends without a spill past the last sub-placement has met only
sub-placements of size 0, and has changed nothing. -/
theorem allocSchema_none_eq (alloc : Nat → TargetId → Nat → List Block)
    (hz : ∀ i tid n, blocksToBuffers tid (alloc i tid n) = []) :
    ∀ (plc : List SubPlacement) (sub_idx : Nat) (st : AllocState),
      (allocSchema alloc sub_idx 0 plc st).oob = false →
      allocSchema alloc sub_idx 0 plc st = st := by
  intro plc
  induction plc with
  | nil => intro _ st h; cases st; simp [allocSchema]
  | cons p rest ih =>
    intro sub_idx st h
    simp only [allocSchema] at h ⊢
    split
    · rename_i hs
      rw [if_pos hs] at h
      exact ih _ _ h
    · rename_i hs
      rw [if_neg hs] at h
      rw [allocSchema_none_spill alloc hz rest _ _ _ (by
        rw [hz]
        simp only [sumSizes, List.map_nil, List.sum_nil]
        split <;> omega)] at h
      cases h

theorem allocAll_oob_mono (alloc : Nat → Nat → TargetId → Nat → List Block) (fb : TargetId) :
    ∀ (schemas : List PlacementSchema) (i : Nat) (st : AllocState), st.oob = true →
      (allocAll alloc fb i schemas st).oob = true := by
  intro schemas
  induction schemas with
  | nil => intro _ st h; simpa [allocAll] using h
  | cons schema rest ih =>
    intro i st h
    simp only [allocAll]
    exact ih _ _ (allocSchema_oob_mono (alloc i) _ _ _ _ h)

/-- When no `Allocate` call returns a block of non-zero size, an allocation loop that
never carries a spill past the last sub-placement of a schema changes nothing. -/
theorem allocAll_none_eq (alloc : Nat → Nat → TargetId → Nat → List Block) (fb : TargetId)
    (hz : ∀ i j tid n, blocksToBuffers tid (alloc i j tid n) = []) :
    ∀ (schemas : List PlacementSchema) (i : Nat) (st : AllocState),
      (allocAll alloc fb i schemas st).oob = false → allocAll alloc fb i schemas st = st := by
  intro schemas
  induction schemas with
  | nil => intro _ _ _; simp [allocAll]
  | cons schema rest ih =>
    intro i st h
    simp only [allocAll] at h ⊢
    have h1 : (allocSchema (alloc i) 0 0 (schema ++ [⟨0, fb⟩]) st).oob = false := by
      cases ho : (allocSchema (alloc i) 0 0 (schema ++ [⟨0, fb⟩]) st).oob with
      | false => rfl
      | true =>
        rw [allocAll_oob_mono alloc fb rest _ _ ho] at h
        cases h
    rw [ih _ _ h]
    exact allocSchema_none_eq (alloc i) (hz i) _ _ _ h1

theorem creditBuffers_eq (bufs : List BufferInfo) :
    ∀ ts : List TargetInfo, FreeOk ts → creditBuffers ts bufs = credit ts bufs := by
  induction bufs with
  | nil =>
    intro ts h
    simp only [creditBuffers, credit]
    conv => lhs; rw [← List.map_id ts]
    apply List.map_congr_left
    intro t ht
    have := h t ht
    cases t with
    | mk tid free =>
      simp only [sizeOn_nil, id, TargetInfo.mk.injEq, true_and, Nat.add_zero] at this ⊢
      exact (Nat.mod_eq_of_lt this).symm
  | cons b rest ih =>
    intro ts h
    simp only [creditBuffers]
    rw [ih _ (FreeOk_addFree ts b.tid b.size h)]
    simp only [credit, addFree, List.map_map]
    apply List.map_congr_left
    intro t _
    simp only [Function.comp, sizeOn_cons]
    by_cases ht : t.id = b.tid
    · simp only [ht, if_true]
      rw [mod64_add_add]
    · have ht' : ¬ b.tid = t.id := fun h => ht h.symm
      simp only [ht, ht', if_false, Nat.zero_add]

theorem resolvePut_addresses (env : Env) (s : Server) (task : PutBlobTask) (id : BlobId)
    (h : Addresses s task id) :
    (resolvePut env s task).1 = s ∧ (resolvePut env s task).2.blob_id = id := by
  rcases h with ⟨h1, h2⟩ | ⟨h1, h2⟩
  · subst h2
    simp [resolvePut, h1]
  · exact resolvePut_by_name_found env s task id h1 h2

theorem creditBuffers_append (xs ys : List BufferInfo) :
    ∀ ts : List TargetInfo,
      creditBuffers ts (xs ++ ys) = creditBuffers (creditBuffers ts xs) ys := by
  induction xs with
  | nil => intro ts; rfl
  | cons x rest ih => intro ts; exact ih _

theorem blobBuffers_congr (s s' : Server) (ids : List BlobId)
    (h : ∀ id ∈ ids, s'.tls.blob_map id = s.tls.blob_map id) :
    blobBuffers s' ids = blobBuffers s ids := by
  induction ids with
  | nil => rfl
  | cons id rest ih =>
    simp only [blobBuffers, h id (List.mem_cons_self _ _),
      ih (fun i hi => h i (List.mem_cons_of_mem _ hi))]

/-- Effect of applying the `DestroyBlob` requests for a duplicate-free list of blob
ids. -/
theorem applyDestroy_spec (tag_id : TagId) :
    ∀ (blobs : List BlobId) (s : Server), blobs.Nodup →
      (applyDestroyRequests (destroyRequests tag_id blobs) s).tls.tag_map = s.tls.tag_map
      ∧ (applyDestroyRequests (destroyRequests tag_id blobs) s).tls.tag_id_map = s.tls.tag_id_map
      ∧ (∀ id ∈ blobs, (applyDestroyRequests (destroyRequests tag_id blobs) s).tls.blob_map id
            = Option.none)
      ∧ (∀ id, id ∉ blobs → (applyDestroyRequests (destroyRequests tag_id blobs) s).tls.blob_map id
            = s.tls.blob_map id)
      ∧ (∀ k, s.tls.blob_id_map k = Option.none →
            (applyDestroyRequests (destroyRequests tag_id blobs) s).tls.blob_id_map k = Option.none)
      ∧ (∀ id ∈ blobs, ∀ bi, s.tls.blob_map id = some bi →
            (applyDestroyRequests (destroyRequests tag_id blobs) s).tls.blob_id_map
              (GetBlobNameWithBucket bi.tag_id bi.name) = Option.none)
      ∧ (applyDestroyRequests (destroyRequests tag_id blobs) s).targets
          = creditBuffers s.targets (blobBuffers s blobs) := by
  intro blobs
  induction blobs with
  | nil =>
    intro s _
    simp [destroyRequests, applyDestroyRequests, blobBuffers, creditBuffers]
  | cons b rest ih =>
    intro s hnd
    obtain ⟨hnotin, hnd'⟩ := List.nodup_cons.1 hnd
    simp only [destroyRequests, List.map_cons, applyDestroyRequests]
    generalize hs1 : DestroyBlob s ⟨tag_id, b, ⟨false, false, true⟩⟩ = s1
    obtain ⟨i1, i2, i3, i4, i5, i6, i7⟩ := ih s1 hnd'
    simp only [destroyRequests] at i1 i2 i3 i4 i5 i6 i7
    cases hb : s.tls.blob_map b with
    | none =>
      have e : s1 = s := by rw [← hs1]; simp [DestroyBlob, hb]
      subst e
      refine ⟨i1, i2, ?_, ?_, i5, ?_, ?_⟩
      · intro id hid
        rcases List.mem_cons.1 hid with h | h
        · subst h; rw [i4 _ hnotin, hb]
        · exact i3 id h
      · intro id hid
        exact i4 id (fun h => hid (List.mem_cons_of_mem _ h))
      · intro id hid bi hbi
        rcases List.mem_cons.1 hid with h | h
        · subst h; rw [hb] at hbi; cases hbi
        · exact i6 id h bi hbi
      · rw [i7]; simp only [blobBuffers, hb, List.nil_append]
    | some blob =>
      have e1 : s1.tls.tag_map = s.tls.tag_map := by rw [← hs1]; simp [DestroyBlob, hb]
      have e2 : s1.tls.tag_id_map = s.tls.tag_id_map := by rw [← hs1]; simp [DestroyBlob, hb]
      have e3 : s1.tls.blob_map = s.tls.blob_map.erase b := by rw [← hs1]; simp [DestroyBlob, hb]
      have e4 : s1.tls.blob_id_map
          = s.tls.blob_id_map.erase (GetBlobNameWithBucket blob.tag_id blob.name) := by
        rw [← hs1]; simp [DestroyBlob, hb]
      have e5 : s1.targets = creditBuffers s.targets blob.buffers := by
        rw [← hs1]; simp [DestroyBlob, hb]
      have hmono : ∀ k, s.tls.blob_id_map k = Option.none → s1.tls.blob_id_map k = Option.none := by
        intro k hk
        rw [e4]
        simp only [Map.erase]
        split
        · rfl
        · exact hk
      refine ⟨i1.trans e1, i2.trans e2, ?_, ?_, ?_, ?_, ?_⟩
      · intro id hid
        rcases List.mem_cons.1 hid with h | h
        · subst h; rw [i4 _ hnotin, e3, Map.erase_same]
        · exact i3 id h
      · intro id hid
        have h1 : id ≠ b := fun h => hid (h ▸ List.mem_cons_self _ _)
        rw [i4 id (fun h => hid (List.mem_cons_of_mem _ h)), e3, Map.erase_other _ _ _ h1]
      · intro k hk
        exact i5 k (hmono k hk)
      · intro id hid bi hbi
        rcases List.mem_cons.1 hid with h | h
        · subst h
          rw [hb] at hbi
          cases hbi
          exact i5 _ (by rw [e4, Map.erase_same])
        · have h1 : id ≠ b := fun h' => hnotin (h' ▸ h)
          exact i6 id h bi (by rw [e3, Map.erase_other _ _ _ h1]; exact hbi)
      · rw [i7, e5]
        simp only [blobBuffers, hb]
        rw [creditBuffers_append]
        congr 1
        apply blobBuffers_congr
        intro id hid
        have h1 : id ≠ b := fun h' => hnotin (h' ▸ hid)
        rw [e3, Map.erase_other _ _ _ h1]

theorem applyDestroyRequests_append_other (reqs : List Request) (t : TagId) :
    ∀ s : Server, applyDestroyRequests (reqs ++ [Request.UnregisterStager t]) s
      = applyDestroyRequests reqs s := by
  induction reqs with
  | nil => intro s; rfl
  | cons r rest ih =>
    intro s
    cases r <;> exact ih _

theorem FreeOk_creditBuffers (bufs : List BufferInfo) :
    ∀ ts : List TargetInfo, FreeOk ts → FreeOk (creditBuffers ts bufs) := by
  induction bufs with
  | nil => intro ts h; exact h
  | cons b rest ih => intro ts h; exact ih _ (FreeOk_addFree ts b.tid b.size h)

theorem DestroyTag_issued (s : Server) (t : TagId) (tag : TagInfo)
    (htag : s.tls.tag_map t = some tag) :
    (DestroyTag s t).issued.drop s.issued.length
      = (if tag.owner then destroyRequests t tag.blobs else [])
          ++ (if tag.should_stage then [Request.UnregisterStager t] else []) := by
  simp only [DestroyTag, htag, destroyRequests]
  by_cases ho : tag.owner = true <;> by_cases hs : tag.should_stage = true <;>
    simp [ho, hs, List.drop_append]

theorem DestroyTag_fields (s : Server) (t : TagId) (tag : TagInfo)
    (htag : s.tls.tag_map t = some tag) :
    (DestroyTag s t).tls.tag_map = s.tls.tag_map.erase t
    ∧ (DestroyTag s t).tls.tag_id_map = s.tls.tag_id_map.erase tag.name
    ∧ (DestroyTag s t).tls.blob_map = s.tls.blob_map
    ∧ (DestroyTag s t).tls.blob_id_map = s.tls.blob_id_map
    ∧ (DestroyTag s t).targets = s.targets := by
  simp [DestroyTag, htag]

/-- A `GetBlob` addressed by a non-null id that is absent from `blob_map` delivers no
byte. -/
theorem GetBlob_absent (env : Env) (s : Server) (gt : GetBlobTask)
    (hid : gt.blob_id.IsNull = false) (hb : s.tls.blob_map gt.blob_id = Option.none) :
    (GetBlob env s gt).2.data_size = 0 := by
  obtain ⟨g1, _, _⟩ := GetBlob_result env s gt
  rw [g1, resolveGet_by_id env s gt hid, hb]
  simp only [Option.getD_none, BlobInfo.default]
  rw [(walk_read s.dev gt.blob_off gt.data_size []).2]
  simp [sumSizes]

/-- A `GetBlob` without `SHOULD_STAGE`, addressed by the non-null id of an existing
blob, leaves the blob record as it is and issues no request. -/
theorem GetBlob_by_id_plain (env : Env) (s : Server) (gt : GetBlobTask) (b : BlobInfo)
    (hid : gt.blob_id.IsNull = false) (hf : gt.flags.should_stage = false)
    (hb : s.tls.blob_map gt.blob_id = some b) :
    (GetBlob env s gt).1.tls.blob_map gt.blob_id = some b
    ∧ (GetBlob env s gt).1.issued = s.issued := by
  have hr := resolveGet_by_id env s gt hid
  simp only [GetBlob, hr, hb, hf, Option.getD_some, Bool.false_and, BlobInfo.UpdateReadStats,
    Map.set_same]
  simp

/-- On a blob that is not stale (`last_flush ≤ 0` or `mod_count ≤ last_flush`)
`FlushBlob` returns the state unchanged. -/
theorem FlushBlob_skip (env : Env) (s : Server) (id : BlobId) (b : BlobInfo) (w : Bool)
    (hb : s.tls.blob_map id = some b)
    (hc : b.last_flush ≤ 0 ∨ b.mod_count ≤ b.last_flush) :
    FlushBlob env s id w = s := by
  simp only [FlushBlob, hb, hc, if_true]

/-! ## Claims -/

/-- Round trip on a blob whose buffers hold at least `max_blob_size` bytes.  A
`PutBlob` by name at offset 0 of `n < 2^64` bytes followed by a `GetBlob` by name of
`n` bytes at offset 0 returns `bytes_read = n` and the bytes written, when the blob
found after id resolution is `b0` with `max_blob_size ≤` the bytes of its buffers,
the allocation of the put is satisfied in full (the buffers grow by at least
`size_diff`) and the buffers after it are pairwise disjoint; the put leaves
`max_blob_size` within the buffers again. -/
theorem put_get_round_trip (env env2 : Env) (s : Server) (task : PutBlobTask)
    (gt : GetBlobTask) (b0 : BlobInfo)
    (hnull : task.blob_id = UniqueId.GetNull) (hoff : task.blob_off = 0)
    (hlen : task.data.length = task.data_size) (hlt : task.data_size < 2 ^ 64)
    (hgt : gt.tag_id = task.tag_id ∧ gt.blob_name = task.blob_name
      ∧ gt.blob_id = UniqueId.GetNull ∧ gt.blob_off = 0 ∧ gt.data_size = task.data_size)
    (h0 : (resolvePut env s task).1.tls.blob_map (resolvePut env s task).2.blob_id = some b0)
    (hinv : b0.max_blob_size ≤ sumSizes b0.buffers)
    (hfull : sumSizes b0.buffers + putSizeDiff task b0
      ≤ sumSizes (putAllocate env (resolvePut env s task).1 (resolvePut env s task).2 b0).buffers)
    (hdisj : DisjointBuffers
      (putAllocate env (resolvePut env s task).1 (resolvePut env s task).2 b0).buffers) :
    (GetBlob env2 (PutBlob env s task).1 gt).2.data_size = task.data_size
    ∧ (GetBlob env2 (PutBlob env s task).1 gt).2.data = task.data
    ∧ ∃ b1, (PutBlob env s task).1.tls.blob_map (resolvePut env s task).2.blob_id = some b1
        ∧ b1.max_blob_size ≤ sumSizes b1.buffers := by
  obtain ⟨g1, g2⟩ := get_after_put env env2 s task gt b0 hnull ⟨hgt.1, hgt.2.1, hgt.2.2.1⟩ h0
  obtain ⟨_, _, _, hdev, hbm⟩ := PutBlob_found env s task b0 h0
  have hlt0 : 0 + task.data_size < 2 ^ 64 := by omega
  have hcov := covered_after_alloc task b0 _ (by rw [hoff]; exact hlt0) hinv hfull
  have hkeep := put_keeps_cover (resolvePut env s task).2 b0
    (putAllocate env (resolvePut env s task).1 (resolvePut env s task).2 b0)
    (by rw [(resolvePut_fields env s task).2.2.1, (resolvePut_fields env s task).2.2.2.1]
        exact hcov)
  refine ⟨?_, ?_, _, by rw [hbm, Map.set_same], hkeep⟩
  · rw [g1, hgt.2.2.2.1, hgt.2.2.2.2, (walk_read_lt s.dev 0 task.data_size _ hlt0).2]
    rw [hoff] at hcov
    omega
  · rw [g2, hdev, hgt.2.2.2.1, hgt.2.2.2.2, hoff,
      (walk_read_lt _ 0 task.data_size _ hlt0).1]
    rw [hoff] at hcov
    have hw := walk_write (resolvePut env s task).1.dev 0 task.data _ hdisj
      (by rw [hlen]; omega) (by rw [hlen]; exact hlt0)
    rw [hlen] at hw
    rw [hw]
    simp [← hlen]

/-- C1 (code at the failing input).  On the empty lane a put of 5 bytes at offset 10,
for which the placement engine names no target, leaves the new blob with
`blob_size = 15`, `max_blob_size = 10` and no buffer; no sub-placement index past
the end is accessed.  On that blob `PutBlob(tag, name, 0, 8, buf)` has
`size_diff = 0`, so it asks for no allocation, and reports 8 bytes written; the
`GetBlob(tag, name, 0, 8)` that follows returns `bytes_read = 0` and no byte of
`buf`. -/
theorem C1_round_trip_fails :
    ((PutBlob envEmptySchema srvEmpty putAtTen).1.tls.blob_map ⟨1, 7, 1⟩).map
        (fun b => (b.blob_size, b.max_blob_size, b.buffers)) = some (15, 10, [])
    ∧ (resolvePut envEmptySchema srvEmpty putAtTen).1.tls.blob_map
        (resolvePut envEmptySchema srvEmpty putAtTen).2.blob_id = some blobFresh
    ∧ (putAllocate envEmptySchema (resolvePut envEmptySchema srvEmpty putAtTen).1
        (resolvePut envEmptySchema srvEmpty putAtTen).2 blobFresh).oob = false
    ∧ (∀ b, (PutBlob envEmptySchema srvEmpty putAtTen).1.tls.blob_map ⟨1, 7, 1⟩ = some b →
        putSizeDiff putEight b = 0)
    ∧ (ClientPutBlob envExact (PutBlob envEmptySchema srvEmpty putAtTen).1 putEight).2 = 8
    ∧ (GetBlob envExact
        (PutBlob envExact (PutBlob envEmptySchema srvEmpty putAtTen).1 putEight).1
        getEight).2.data_size = 0
    ∧ (GetBlob envExact
        (PutBlob envExact (PutBlob envEmptySchema srvEmpty putAtTen).1 putEight).1
        getEight).2.data = []
    ∧ putEight.data ≠ [] := by
  refine ⟨by decide, by decide, by decide, ?_, by decide, by decide, by decide, by decide⟩
  intro b hb
  have h : (PutBlob envEmptySchema srvEmpty putAtTen).1.tls.blob_map ⟨1, 7, 1⟩
      = some ⟨⟨1, 7, 1⟩, tagA, [98], [], [], 15, 10, 1, 0, 0, 1, 0⟩ := by decide
  rw [h] at hb
  cases hb
  decide

/-- Partial put on a blob whose buffers hold at least `max_blob_size` bytes.  After
`PutBlob(tag, name, 0, n, A)` with `n < 2^64` and then `PutBlob(tag, name, k, m, B)`
with `k + m ≤ n`, a `GetBlob(tag, name, 0, n)` returns `n` bytes, namely
`A[0..k) ++ B ++ A[k+m..n)`, when the first put found a blob with
`max_blob_size ≤` the bytes of its buffers and its allocation is satisfied in full
with pairwise-disjoint buffers (the second put then needs none). -/
theorem partial_put_overlay (env1 env2 env3 : Env) (s : Server) (t1 t2 : PutBlobTask)
    (gt : GetBlobTask) (b0 : BlobInfo)
    (hn1 : t1.blob_id = UniqueId.GetNull) (ho1 : t1.blob_off = 0)
    (hl1 : t1.data.length = t1.data_size) (hlt : t1.data_size < 2 ^ 64)
    (ht2 : t2.tag_id = t1.tag_id ∧ t2.blob_name = t1.blob_name
      ∧ t2.blob_id = UniqueId.GetNull ∧ t2.data.length = t2.data_size)
    (hkm : t2.blob_off + t2.data_size ≤ t1.data_size)
    (hgt : gt.tag_id = t1.tag_id ∧ gt.blob_name = t1.blob_name
      ∧ gt.blob_id = UniqueId.GetNull ∧ gt.blob_off = 0 ∧ gt.data_size = t1.data_size)
    (h0 : (resolvePut env1 s t1).1.tls.blob_map (resolvePut env1 s t1).2.blob_id = some b0)
    (hinv : b0.max_blob_size ≤ sumSizes b0.buffers)
    (hfull : sumSizes b0.buffers + putSizeDiff t1 b0
      ≤ sumSizes (putAllocate env1 (resolvePut env1 s t1).1 (resolvePut env1 s t1).2 b0).buffers)
    (hdisj : DisjointBuffers
      (putAllocate env1 (resolvePut env1 s t1).1 (resolvePut env1 s t1).2 b0).buffers) :
    (GetBlob env3 (PutBlob env2 (PutBlob env1 s t1).1 t2).1 gt).2.data_size = t1.data_size
    ∧ (GetBlob env3 (PutBlob env2 (PutBlob env1 s t1).1 t2).1 gt).2.data
        = t1.data.take t2.blob_off ++ t2.data ++ t1.data.drop (t2.blob_off + t2.data_size) := by
  obtain ⟨_, hmap, _, hdev, hbm⟩ := PutBlob_found env1 s t1 b0 h0
  generalize hs1 : (PutBlob env1 s t1).1 = s1 at hmap hdev hbm ⊢
  generalize ha : (putAllocate env1 (resolvePut env1 s t1).1 (resolvePut env1 s t1).2 b0).buffers
    = bufs at hfull hdisj hdev hbm
  have hlt0 : 0 + t1.data_size < 2 ^ 64 := by omega
  have hlt2 : t2.blob_off + t2.data_size < 2 ^ 64 := by omega
  have hcov := covered_after_alloc t1 b0 bufs (by rw [ho1]; exact hlt0) hinv hfull
  rw [ho1] at hcov hdev
  have hfields := putBlobInfo_fields (resolvePut env1 s t1).2 b0
    (putAllocate env1 (resolvePut env1 s t1).1 (resolvePut env1 s t1).2 b0)
  obtain ⟨_, _, e3, e4, _, _⟩ := resolvePut_fields env1 s t1
  rw [ha, e3, e4, ho1] at hfields
  generalize hb1 : putBlobInfo (resolvePut env1 s t1).2 b0
    (putAllocate env1 (resolvePut env1 s t1).1 (resolvePut env1 s t1).2 b0) = b1 at hbm hfields
  -- the second put resolves to the same blob
  have hk := resolvePut_key env1 s t1 hn1
  rw [← hmap, ← ht2.1, ← ht2.2.1] at hk
  obtain ⟨q1, q2⟩ := resolvePut_by_name_found env2 s1 t2 _ ht2.2.2.1 hk
  have h0' : (resolvePut env2 s1 t2).1.tls.blob_map (resolvePut env2 s1 t2).2.blob_id = some b1 := by
    rw [q1, q2, hbm, Map.set_same]
  have hmax : t1.data_size ≤ b1.max_blob_size := by
    rw [hfields.2.1]
    have := walk_blob_off_ge 0 t1.data_size bufs hlt0 (by omega)
    omega
  have hsd : putSizeDiff (resolvePut env2 s1 t2).2 b1 = 0 := by
    rw [putSizeDiff_resolve]
    simp only [putSizeDiff, Nat.mod_eq_of_lt hlt2]
    rw [if_neg (by omega)]
  have hal : (putAllocate env2 (resolvePut env2 s1 t2).1 (resolvePut env2 s1 t2).2 b1).buffers
      = bufs := by
    rw [putAllocate_no_diff _ _ _ _ hsd, hfields.1]
  obtain ⟨g1, g2⟩ := get_after_put env2 env3 s1 t2 gt b1 ht2.2.2.1
    ⟨hgt.1.trans ht2.1.symm, hgt.2.1.trans ht2.2.1.symm, hgt.2.2.1⟩ h0'
  obtain ⟨_, _, _, hdev2, _⟩ := PutBlob_found env2 s1 t2 b1 h0'
  rw [hal, q1, hdev] at hdev2
  rw [hal] at g1 g2
  rw [g1, g2, hdev2, hgt.2.2.2.1, hgt.2.2.2.2]
  obtain ⟨r1, r2⟩ := walk_read_lt
    (applyWrites t2.data (walk t2.blob_off t2.data_size bufs).1
      (applyWrites t1.data (walk 0 t1.data_size bufs).1 (resolvePut env1 s t1).1.dev))
    0 t1.data_size bufs hlt0
  rw [r1, r2]
  constructor
  · omega
  · have hw1 := walk_write (resolvePut env1 s t1).1.dev 0 t1.data bufs hdisj
      (by rw [hl1]; omega) (by rw [hl1]; exact hlt0)
    rw [hl1] at hw1
    have hw2 := walk_write
      (applyWrites t1.data (walk 0 t1.data_size bufs).1 (resolvePut env1 s t1).1.dev)
      t2.blob_off t2.data bufs hdisj (by rw [ht2.2.2.2]; omega)
      (by rw [ht2.2.2.2]; exact hlt2)
    rw [ht2.2.2.2] at hw2
    rw [hw2, hw1]
    simp only [List.take_zero, List.nil_append, Nat.zero_add, List.drop_zero]
    have := take_overlay t1.data t2.data
      (List.drop t1.data_size (content (resolvePut env1 s t1).1.dev bufs)) t2.blob_off
      (by rw [ht2.2.2.2, hl1]; exact hkm)
    rw [ht2.2.2.2, hl1] at this
    exact this

/-- C2 (code at the failing input).  The blob left by a put of 5 bytes at offset 10
for which the placement engine named no target has `blob_size = 15`,
`max_blob_size = 10` and no buffer.  On it `PutBlob(tag, name, 0, 8, A)` has
`size_diff = 0`, asks for no allocation, reports 8 bytes written and leaves
`max_blob_size = 0`; `PutBlob(tag, name, 2, 3, B)` then has `size_diff = 5`, is
allocated one block of exactly 5 bytes and reports 3 bytes written.  The
`GetBlob(tag, name, 0, 8)` that follows returns `bytes_read = 5` and the bytes
`[0, 0] ++ B`, where the overlay `A[0..2) ++ B ++ A[5..8)` has 8 bytes. -/
theorem C2_partial_put_fails :
    ((PutBlob envEmptySchema srvEmpty putAtTen).1.tls.blob_map ⟨1, 7, 1⟩).map
        (fun b => (b.blob_size, b.max_blob_size, b.buffers)) = some (15, 10, [])
    ∧ (ClientPutBlob envExact (PutBlob envEmptySchema srvEmpty putAtTen).1 putEight).2 = 8
    ∧ ((PutBlob envExact (PutBlob envEmptySchema srvEmpty putAtTen).1 putEight).1.tls.blob_map
        ⟨1, 7, 1⟩).map (fun b => (b.blob_size, b.max_blob_size, b.buffers)) = some (15, 0, [])
    ∧ (ClientPutBlob envExact
        (PutBlob envExact (PutBlob envEmptySchema srvEmpty putAtTen).1 putEight).1 putInner).2 = 3
    ∧ ((PutBlob envExact
        (PutBlob envExact (PutBlob envEmptySchema srvEmpty putAtTen).1 putEight).1
        putInner).1.tls.blob_map ⟨1, 7, 1⟩).map
          (fun b => (b.blob_size, b.max_blob_size, b.buffers))
        = some (15, 5, [⟨0, 100, 5⟩])
    ∧ (GetBlob envExact (PutBlob envExact
        (PutBlob envExact (PutBlob envEmptySchema srvEmpty putAtTen).1 putEight).1
        putInner).1 getEight).2.data_size = 5
    ∧ (GetBlob envExact (PutBlob envExact
        (PutBlob envExact (PutBlob envEmptySchema srvEmpty putAtTen).1 putEight).1
        putInner).1 getEight).2.data = [0, 0, 21, 22, 23]
    ∧ putEight.data.take 2 ++ putInner.data ++ putEight.data.drop 5
        = [1, 2, 21, 22, 23, 6, 7, 8] := by
  decide

/-- C3 (amended): the byte count returned by `GetBlob(offset, size)` is at most `size`
and at most the capacity of the blob's buffers beyond `offset` (zero when `offset`
is at or past the end of the buffers); `blob_size` plays no part in it. -/
theorem C3_get_bounded_by_buffers (env : Env) (s : Server) (gt : GetBlobTask) :
    (GetBlob env s gt).2.data_size ≤ gt.data_size
    ∧ (GetBlob env s gt).2.data_size
        ≤ sumSizes ((resolveGet env s gt).1.tls.blob_map (resolveGet env s gt).2.blob_id
            |>.getD BlobInfo.default).buffers - gt.blob_off := by
  obtain ⟨g1, _, _⟩ := GetBlob_result env s gt
  rw [g1, (walk_read s.dev gt.blob_off gt.data_size _).2]
  constructor <;> omega

/-- C3 (counterexample): after a put of 3 bytes whose allocation returned a block of
4 bytes, the blob has `blob_size = 3`, and a get of 4 bytes at offset 0 returns
`bytes_read = 4`, more than `blob_size - offset`.  The same happens with allocations
of exactly the requested size: after `PutBlob(0, 3)`, `PutBlob(0, 0)` and
`PutBlob(0, 3)` the blob has `blob_size = 3` and two buffers of 3 bytes, and a get
of 6 bytes returns `bytes_read = 6`. -/
theorem C3_counterexample :
    (((PutBlob envRoundUp srvEmpty putABC).1.tls.blob_map ⟨1, 7, 1⟩).map (fun b => b.blob_size)
        = some 3
      ∧ (GetBlob envRoundUp (PutBlob envRoundUp srvEmpty putABC).1 getFour).2.data_size = 4
      ∧ ¬ ((GetBlob envRoundUp (PutBlob envRoundUp srvEmpty putABC).1 getFour).2.data_size
            ≤ 3 - getFour.blob_off))
    ∧ (((PutBlob envExactB (PutBlob envExact (PutBlob envExact srvEmpty putABC).1 putZero).1
          putABC).1.tls.blob_map ⟨1, 7, 1⟩).map (fun b => (b.blob_size, b.buffers))
        = some (3, [⟨0, 100, 3⟩, ⟨0, 200, 3⟩])
      ∧ (GetBlob envExact (PutBlob envExactB (PutBlob envExact (PutBlob envExact srvEmpty
          putABC).1 putZero).1 putABC).1 getSix).2.data_size = 6) := by
  decide

/-- C4 (code at the failing inputs): after `PutBlob(0, 3)` the blob has
`blob_size = max_blob_size = 3`; a following `PutBlob(0, 0)` leaves `blob_size = 3`
and sets `max_blob_size = 0`, and on a blob with buffers of 1 and 2 bytes a
following `PutBlob(0, 1)` leaves `blob_size = 3` and sets `max_blob_size = 1`. -/
theorem C4_size_invariant_broken :
    ((PutBlob envExact srvEmpty putABC).1.tls.blob_map ⟨1, 7, 1⟩).map
        (fun b => (b.blob_size, b.max_blob_size, sumSizes b.buffers)) = some (3, 3, 3)
    ∧ ((PutBlob envExact (PutBlob envExact srvEmpty putABC).1 putZero).1.tls.blob_map ⟨1, 7, 1⟩).map
        (fun b => (b.blob_size, b.max_blob_size, sumSizes b.buffers)) = some (3, 0, 3)
    ∧ ((PutBlob envTwoBlocks (PutBlob envTwoBlocks srvEmpty putABC).1 putOne).1.tls.blob_map
        ⟨1, 7, 1⟩).map
        (fun b => (b.blob_size, b.max_blob_size, sumSizes b.buffers)) = some (3, 1, 3) := by
  decide

/-- C6 (amended): when the schemas returned by the placement engine request at least
`size_diff` bytes in total, the allocation loop appends buffers whose sizes sum to at
least `size_diff`, unless the last sub-placement of a schema (the appended fallback)
received fewer bytes than were asked of it (recorded in `oob`). -/
theorem C6_placement_coverage (env : Env) (s1 : Server) (task : PutBlobTask) (b0 : BlobInfo)
    (hdpe : putSizeDiff task b0
      ≤ schemasSize (env.Placement [putSizeDiff task b0] s1.targets task.score)) :
    ∃ new, (putAllocate env s1 task b0).buffers = b0.buffers ++ new
      ∧ ((putAllocate env s1 task b0).oob = true ∨ putSizeDiff task b0 ≤ sumSizes new) := by
  obtain ⟨new, a1, _, a3⟩ := allocAll_spec env.Allocate s1.fallback_target
    (if putSizeDiff task b0 > 0 then env.Placement [putSizeDiff task b0] s1.targets task.score
      else [])
    0 ⟨b0.buffers, s1.targets, false⟩
  refine ⟨new, a1, ?_⟩
  cases ho : (putAllocate env s1 task b0).oob with
  | true => exact Or.inl rfl
  | false =>
    right
    have h := (a3 ho).2
    by_cases hp : putSizeDiff task b0 > 0
    · simp only [hp, if_true] at h
      omega
    · omega

/-- C6 (witness): a schema asking target 0 for the ten bytes of the request. -/
theorem C6_placement_coverage_witness :
    ∃ new, (putAllocate envExact srvEmpty putTen blobFresh).buffers = blobFresh.buffers ++ new
      ∧ ((putAllocate envExact srvEmpty putTen blobFresh).oob = true
          ∨ putSizeDiff putTen blobFresh ≤ sumSizes new) :=
  C6_placement_coverage envExact srvEmpty putTen blobFresh (by decide)

/-- C6 (counterexample): a put with `size_diff = 10`.  First, the placement engine
returns a schema without sub-placement: nothing is allocated (new buffers sum to 0)
although the targets have 4 and 6 bytes free.  Second, the schema asks target 0 for
all 10 bytes; target 0 gives its 4 free bytes and the fallback (free 0) gives none:
the new buffers sum to 4 < 10 while target 1, never asked, still has 100 bytes
free. -/
theorem C6_counterexample :
    putSizeDiff putTen blobFresh = 10
    ∧ (((PutBlob envEmptySchema srvSmall putTen).1.tls.blob_map ⟨1, 7, 1⟩).map
          (fun b => sumSizes b.buffers) = some 0
      ∧ (PutBlob envEmptySchema srvSmall putTen).1.targets = [⟨0, 4⟩, ⟨1, 6⟩]
      ∧ (putAllocate envEmptySchema srvSmall putTen blobFresh).oob = false
      ∧ ¬ (∀ t ∈ (PutBlob envEmptySchema srvSmall putTen).1.targets, t.free = 0))
    ∧ (((PutBlob envShort srvThree putTen).1.tls.blob_map ⟨1, 7, 1⟩).map
          (fun b => sumSizes b.buffers) = some 4
      ∧ (PutBlob envShort srvThree putTen).1.targets = [⟨0, 0⟩, ⟨1, 100⟩, ⟨2, 0⟩]
      ∧ ¬ (∀ t ∈ (PutBlob envShort srvThree putTen).1.targets, t.free = 0)) := by
  decide

/-- C7 (amended): a put that obtains no buffer, in a run of the allocation loop that
stays within the sub-placements of its schemas (no `Allocate` call returns a block of
non-zero size, and no spill is carried past the last sub-placement), leaves the free
counters of the targets as they were and appends no buffer to the blob; it still
reports `bytes_written` equal to the requested size and raises `blob_size` to
`max(blob_size, (offset + size) mod 2^64)`. -/
theorem C7_allocation_failure (env : Env) (s : Server) (task : PutBlobTask) (b0 : BlobInfo)
    (h0 : (resolvePut env s task).1.tls.blob_map (resolvePut env s task).2.blob_id = some b0)
    (hz : ∀ i j tid n, blocksToBuffers tid (env.Allocate i j tid n) = [])
    (hoob : (putAllocate env (resolvePut env s task).1 (resolvePut env s task).2 b0).oob
      = false) :
    (PutBlob env s task).1.targets = (resolvePut env s task).1.targets
    ∧ (ClientPutBlob env s task).2 = task.data_size
    ∧ ∃ b1, (PutBlob env s task).1.tls.blob_map (resolvePut env s task).2.blob_id = some b1
        ∧ b1.buffers = b0.buffers
        ∧ b1.blob_size = max b0.blob_size ((task.blob_off + task.data_size) % 2 ^ 64) := by
  obtain ⟨h1, _, htg, _, hbm⟩ := PutBlob_found env s task b0 h0
  obtain ⟨_, _, e3, e4, _, _⟩ := resolvePut_fields env s task
  have ha : putAllocate env (resolvePut env s task).1 (resolvePut env s task).2 b0
      = ⟨b0.buffers, (resolvePut env s task).1.targets, false⟩ := by
    simp only [putAllocate] at hoob ⊢
    exact allocAll_none_eq env.Allocate _ hz _ _ _ hoob
  refine ⟨by rw [htg, ha], ?_, ?_⟩
  · simp only [ClientPutBlob, h1, e4]
  · have hf := putBlobInfo_fields (resolvePut env s task).2 b0
      (putAllocate env (resolvePut env s task).1 (resolvePut env s task).2 b0)
    refine ⟨_, by rw [hbm, Map.set_same], ?_, by rw [hf.2.2.1, e3, e4]⟩
    rw [hf.1, ha]

/-- C7 (witness): a put of five bytes on a blob of three bytes; the placement engine
names no target, so no block is returned. -/
theorem C7_allocation_failure_witness :
    (ClientPutBlob envEmptySchema (PutBlob envExact srvEmpty putABC).1 putFive).2 = 5 :=
  (C7_allocation_failure envEmptySchema (PutBlob envExact srvEmpty putABC).1 putFive blobABC
    (by decide) (fun _ _ _ _ => rfl) (by decide)).2.1

/-- C7 (counterexample): a blob holds 3 bytes `[5, 6, 7]` (`blob_size = 3`).  A put of
5 bytes needs `size_diff = 2`; the placement engine returns a schema without
sub-placement, so no target gives a byte and no index past the sub-placements is
accessed.  The put reports `bytes_written = 5`, `blob_size` becomes 5, the buffers
are the same, and the first three bytes of the blob have been overwritten.  (When
the schema asks target 0 for the 2 bytes and `Allocate` returns no block, the loop
carries the spill past the appended fallback: that run is not one of those the
amended statement covers.) -/
theorem C7_counterexample :
    ((PutBlob envExact srvEmpty putABC).1.tls.blob_map ⟨1, 7, 1⟩).map
        (fun b => (b.blob_size, b.buffers)) = some (3, [⟨0, 100, 3⟩])
    ∧ (GetBlob envExact (PutBlob envExact srvEmpty putABC).1 getABC).2.data = [5, 6, 7]
    ∧ putSizeDiff putFive blobABC = 2
    ∧ (resolvePut envEmptySchema (PutBlob envExact srvEmpty putABC).1 putFive).1.tls.blob_map
        (resolvePut envEmptySchema (PutBlob envExact srvEmpty putABC).1 putFive).2.blob_id
      = some blobABC
    ∧ (putAllocate envEmptySchema
        (resolvePut envEmptySchema (PutBlob envExact srvEmpty putABC).1 putFive).1
        (resolvePut envEmptySchema (PutBlob envExact srvEmpty putABC).1 putFive).2
        blobABC).oob = false
    ∧ (ClientPutBlob envEmptySchema (PutBlob envExact srvEmpty putABC).1 putFive).2 = 5
    ∧ ((ClientPutBlob envEmptySchema (PutBlob envExact srvEmpty putABC).1 putFive).1.tls.blob_map
        ⟨1, 7, 1⟩).map (fun b => (b.blob_size, b.buffers)) = some (5, [⟨0, 100, 3⟩])
    ∧ (GetBlob envExact (ClientPutBlob envEmptySchema (PutBlob envExact srvEmpty putABC).1
        putFive).1 getABC).2.data = [1, 2, 3]
    ∧ (putAllocate envNone
        (resolvePut envNone (PutBlob envExact srvEmpty putABC).1 putFive).1
        (resolvePut envNone (PutBlob envExact srvEmpty putABC).1 putFive).2
        blobABC).oob = true := by
  decide

/-- C8 (tag ownership).  For an owner tag `t` with duplicate-free blob list, once
`DestroyTag(t)` has run and the `DestroyBlob` requests it issued have been applied:
`t` is absent from `tag_map` and no name of `tag_id_map` maps to it; every blob of
the list is absent from `blob_map`, its name key is absent from `blob_id_map`, and a
`GetBlob` by its id returns zero bytes; and every target's free counter has been
credited (modulo `2^64`) the bytes of those blobs' buffers on it.  For a non-owner
tag `DestroyTag` issues no `DestroyBlob`. -/
theorem C8_tag_ownership (env : Env) (s : Server) (t : TagId) (tag : TagInfo)
    (htag : s.tls.tag_map t = some tag)
    (hname : ∀ n, s.tls.tag_id_map n = some t → n = tag.name)
    (hnodup : tag.blobs.Nodup) (hfree : FreeOk s.targets) :
    (tag.owner = true →
      (afterDestroyTag s t).tls.tag_map t = Option.none
      ∧ (∀ n, (afterDestroyTag s t).tls.tag_id_map n ≠ some t)
      ∧ (∀ b ∈ tag.blobs,
          (afterDestroyTag s t).tls.blob_map b = Option.none
          ∧ (∀ bi, s.tls.blob_map b = some bi →
              (afterDestroyTag s t).tls.blob_id_map (GetBlobNameWithBucket bi.tag_id bi.name)
                = Option.none)
          ∧ (b.IsNull = false → ∀ off size flags,
              (ClientGetBlob env (afterDestroyTag s t) t b off size flags).2.1 = 0))
      ∧ (afterDestroyTag s t).targets = credit s.targets (blobBuffers s tag.blobs))
    ∧ (tag.owner = false →
        ∀ r ∈ (DestroyTag s t).issued.drop s.issued.length,
          ∀ t' b f, r ≠ Request.DestroyBlob t' b f) := by
  have hiss := DestroyTag_issued s t tag htag
  obtain ⟨f1, f2, f3, f4, f5⟩ := DestroyTag_fields s t tag htag
  constructor
  · intro ho
    have hafter : afterDestroyTag s t
        = applyDestroyRequests (destroyRequests t tag.blobs) (DestroyTag s t) := by
      simp only [afterDestroyTag, hiss, ho, if_true]
      by_cases hs : tag.should_stage = true
      · simp only [hs, if_true]
        exact applyDestroyRequests_append_other _ _ _
      · simp [hs]
    obtain ⟨i1, i2, i3, _, _, i6, i7⟩ := applyDestroy_spec t tag.blobs (DestroyTag s t) hnodup
    rw [← hafter] at i1 i2 i3 i6 i7
    refine ⟨by rw [i1, f1, Map.erase_same], ?_, ?_, ?_⟩
    · intro n hn
      rw [i2, f2] at hn
      simp only [Map.erase] at hn
      split at hn
      · cases hn
      · rename_i hne
        exact hne (hname n hn)
    · intro b hb
      refine ⟨i3 b hb, fun bi hbi => i6 b hb bi (by rw [f3]; exact hbi), ?_⟩
      intro hnn off size flags
      exact GetBlob_absent env _ ⟨t, [], b, off, size, [], flags⟩ hnn (i3 b hb)
    · rw [i7, f5, blobBuffers_congr s (DestroyTag s t) tag.blobs (fun id _ => by rw [f3]),
        creditBuffers_eq _ _ hfree]
  · intro ho r hr t' b f he
    rw [hiss] at hr
    simp only [ho, Bool.false_eq_true, if_false, List.nil_append] at hr
    split at hr
    · simp only [List.mem_singleton] at hr
      rw [hr] at he
      cases he
    · simp at hr

/-- C8 (witness): an owner tag with two blobs holding 3 + 1 bytes on target 0 and
1 byte on target 1. -/
theorem C8_tag_ownership_witness :
    (afterDestroyTag srvOwner tagA).tls.tag_map tagA = Option.none
    ∧ (afterDestroyTag srvOwner tagA).targets = [⟨0, 64⟩, ⟨1, 1000⟩] :=
  have h := (C8_tag_ownership envExact srvOwner tagA
    ⟨tagA, [116], [⟨1, 7, 1⟩, ⟨1, 7, 2⟩], 5, false, true⟩ (by decide)
    (fun n hn => by
      simp only [srvOwner, laneOwner, Map.set, Map.empty] at hn
      split at hn
      · assumption
      · cases hn)
    (by decide) (by decide)).1 rfl
  ⟨h.1, h.2.2.2.trans (by decide)⟩

/-- C9 (code at the failing inputs): on a lane holding tag `tagA`, a blob created by
the `GetOrCreateBlobId` task, by `GetBlob` addressed by name, or by `GetBlobSize`
addressed by name is in `blob_map` with `tag_id = tagA`, no `TagAddBlob` is issued,
and the blob list of `tagA` stays empty; only a blob created by `PutBlob` is added
to the list. -/
theorem C9_created_blob_not_in_tag :
    (tagOfBlob (GetOrCreateBlobIdTask envExact srvTag tagA [98]).1 = some tagA
      ∧ (GetOrCreateBlobIdTask envExact srvTag tagA [98]).1.issued = []
      ∧ blobsOfTagA (GetOrCreateBlobIdTask envExact srvTag tagA [98]).1 = some [])
    ∧ (tagOfBlob (GetBlob envExact srvTag getABC).1 = some tagA
      ∧ (GetBlob envExact srvTag getABC).1.issued = []
      ∧ blobsOfTagA (GetBlob envExact srvTag getABC).1 = some [])
    ∧ (tagOfBlob (GetBlobSize envExact srvTag ⟨tagA, [98], UniqueId.GetNull, 0⟩).1 = some tagA
      ∧ (GetBlobSize envExact srvTag ⟨tagA, [98], UniqueId.GetNull, 0⟩).1.issued = []
      ∧ blobsOfTagA (GetBlobSize envExact srvTag ⟨tagA, [98], UniqueId.GetNull, 0⟩).1 = some [])
    ∧ (tagOfBlob (PutBlob envExact srvTag putABC).1 = some tagA
      ∧ blobsOfTagA (PutBlob envExact srvTag putABC).1 = some [⟨1, 7, 1⟩])
    ∧ blobsOfTagA (PutBlob envExact (GetBlob envExact srvTag getABC).1 putABC).1 = some [] := by
  decide

theorem stageIns_append (xs ys : List Request) :
    stageIns (xs ++ ys) = stageIns xs + stageIns ys := by
  induction xs with
  | nil => simp [stageIns]
  | cons r rest ih =>
    cases r <;> simp [stageIns, ih]
    omega

theorem resolvePut_eq (env : Env) (s : Server) (task : PutBlobTask) (id : BlobId)
    (h : Addresses s task id) :
    resolvePut env s task = (s, { task with blob_id := id }) := by
  rcases h with ⟨h1, h2⟩ | ⟨h1, h2⟩
  · subst h2
    simp [resolvePut, h1]
  · simp [resolvePut, h1, IsNull_GetNull, GetOrCreateBlobId_found _ _ _ _ _ id h2]

theorem resolveGet_eq (env : Env) (s : Server) (task : GetBlobTask) (id : BlobId)
    (h : AddressesGet s task id) :
    resolveGet env s task = (s, { task with blob_id := id }) := by
  rcases h with ⟨h1, h2⟩ | ⟨h1, h2⟩
  · subst h2
    simp [resolveGet, h1]
  · simp [resolveGet, h1, IsNull_GetNull, GetOrCreateBlobId_found _ _ _ _ _ id h2]

/-- The `StageIn` requests sent by a put: one when it stages, none otherwise. -/
theorem stageIns_putIssued (s1 : Server) (task : PutBlobTask) (b0 : BlobInfo) :
    stageIns (putIssued s1 task b0)
      = stageIns s1.issued
        + (if (task.flags.should_stage && decide (b0.last_flush = 0)) = true then 1 else 0) := by
  unfold putIssued
  cases hf : task.flags.should_stage <;> by_cases hl : b0.last_flush = 0 <;>
    cases hd : task.flags.did_create <;> cases hm : s1.tls.stager_map task.tag_id <;>
    simp [hl, stageIns_append, stageIns]

/-- Effect of a `PutBlob` that addresses an existing blob on its counters. -/
theorem PutBlob_counters (env : Env) (s : Server) (task : PutBlobTask) (id : BlobId)
    (b : BlobInfo) (hb : s.tls.blob_map id = some b) (ha : Addresses s task id) :
    ∃ b', (PutBlob env s task).1.tls.blob_map id = some b'
      ∧ b'.blob_id = b.blob_id
      ∧ b'.mod_count = b.mod_count + 1
      ∧ b'.last_flush
          = (if (task.flags.should_stage && decide (b.last_flush = 0)) = true then 1
             else b.last_flush)
      ∧ stageIns (PutBlob env s task).1.issued
          = stageIns s.issued
            + (if (task.flags.should_stage && decide (b.last_flush = 0)) = true then 1 else 0)
      ∧ (PutBlob env s task).1.tls.stager_map = s.tls.stager_map := by
  have hr := resolvePut_eq env s task id ha
  simp only [PutBlob, hr, hb]
  refine ⟨_, Map.set_same _ _ _, ?_, ?_, ?_, ?_, trivial⟩
  · exact (putBlobInfo_fields _ _ _).2.2.2.2.2.2
  · exact (putBlobInfo_fields _ _ _).2.2.2.1
  · unfold putBlobInfo BlobInfo.UpdateWriteStats
    simp only []
    generalize (task.blob_off + task.data_size) % 2 ^ 64 = r
    by_cases hs : (task.flags.should_stage && decide (b.last_flush = 0)) = true <;>
      by_cases hn : r > b.blob_size <;>
      simp [hs, hn]
  · exact stageIns_putIssued s _ b

/-- Effect of a `GetBlob` that addresses an existing blob on its counters. -/
theorem GetBlob_counters (env : Env) (s : Server) (task : GetBlobTask) (id : BlobId)
    (b : BlobInfo) (hb : s.tls.blob_map id = some b) (ha : AddressesGet s task id) :
    ∃ b', (GetBlob env s task).1.tls.blob_map id = some b'
      ∧ b'.blob_id = b.blob_id
      ∧ b'.mod_count = b.mod_count
      ∧ b'.last_flush
          = (if (task.flags.should_stage && decide (b.last_flush = 0)) = true then 1
             else b.last_flush)
      ∧ stageIns (GetBlob env s task).1.issued
          = stageIns s.issued
            + (if (task.flags.should_stage && decide (b.last_flush = 0)) = true then 1 else 0)
      ∧ (GetBlob env s task).1.tls.stager_map = s.tls.stager_map := by
  have hr := resolveGet_eq env s task id ha
  simp only [GetBlob, hr, hb, Option.getD_some, BlobInfo.UpdateReadStats]
  refine ⟨_, Map.set_same _ _ _, ?_, ?_, ?_, ?_, trivial⟩ <;>
    by_cases hs : (task.flags.should_stage && decide (b.last_flush = 0)) = true <;>
    simp [hs, stageIns_append, stageIns]

/-- Effect of a `FlushBlob` on a stale blob stored under its own non-null id. -/
theorem FlushBlob_stale (env : Env) (s : Server) (id : BlobId) (b : BlobInfo) (w : Bool)
    (hb : s.tls.blob_map id = some b) (hid : b.blob_id = id) (hnn : id.IsNull = false)
    (hc : ¬ (b.last_flush ≤ 0 ∨ b.mod_count ≤ b.last_flush)) :
    (∃ data, (FlushBlob env s id w).issued
        = s.issued ++ [Request.StageOut b.tag_id b.name data b.blob_size])
    ∧ (FlushBlob env s id w).tls.blob_map id = some { b with last_flush := b.mod_count }
    ∧ (FlushBlob env s id w).tls.stager_map = s.tls.stager_map := by
  subst hid
  simp only [FlushBlob, hb, hc, if_false, ClientGetBlob]
  cases w
  · obtain ⟨k1, k2⟩ := GetBlob_by_id_plain env s
      ⟨b.tag_id, [], b.blob_id, 0, b.blob_size, [], Flags.none⟩ b hnn rfl hb
    obtain ⟨_, _, _, _, _, _, k3⟩ := GetBlob_counters env s
      ⟨b.tag_id, [], b.blob_id, 0, b.blob_size, [], Flags.none⟩ b.blob_id b hb
      (Or.inl ⟨hnn, rfl⟩)
    simp only [Bool.false_eq_true, if_false, k1, k2, k3, Map.set_same]
    exact ⟨⟨_, rfl⟩, trivial, trivial⟩
  · obtain ⟨k1, k2⟩ := GetBlob_by_id_plain env { s with flush_count := s.flush_count + 1 }
      ⟨b.tag_id, [], b.blob_id, 0, b.blob_size, [], Flags.none⟩ b hnn rfl hb
    obtain ⟨_, _, _, _, _, _, k3⟩ := GetBlob_counters env
      { s with flush_count := s.flush_count + 1 }
      ⟨b.tag_id, [], b.blob_id, 0, b.blob_size, [], Flags.none⟩ b.blob_id b hb
      (Or.inl ⟨hnn, rfl⟩)
    simp only [if_true, k1, k2, k3, Map.set_same]
    exact ⟨⟨_, rfl⟩, trivial, trivial⟩

/-- Effect of one operation that addresses an existing blob stored under its own
non-null id: the blob stays, under the same id; a `StageIn` is sent exactly when
the operation stages, and then `last_flush` becomes 1; `mod_count` and `last_flush`
do not decrease; `last_flush ≤ max mod_count 1` is kept, and `last_flush ≤ mod_count`
is kept unless the operation is a `GetBlob` that stages. -/
theorem runOp_step (s : Server) (id : BlobId) (b : BlobInfo) (op : BlobOp)
    (hb : s.tls.blob_map id = some b) (hid : b.blob_id = id) (hnn : id.IsNull = false)
    (ha : OpAddresses id s op) :
    ∃ b', (runOp s op).tls.blob_map id = some b'
      ∧ b'.blob_id = id
      ∧ stageIns (runOp s op).issued
          = stageIns s.issued + (if opStages op b = true then 1 else 0)
      ∧ (opStages op b = true → b'.last_flush = 1)
      ∧ b.last_flush ≤ b'.last_flush
      ∧ b.mod_count ≤ b'.mod_count
      ∧ (b.last_flush ≤ max b.mod_count 1 → b'.last_flush ≤ max b'.mod_count 1)
      ∧ ((op.isGet && opStages op b) = false → b.last_flush ≤ b.mod_count
          → b'.last_flush ≤ b'.mod_count) := by
  cases op with
  | put env task =>
    obtain ⟨b', h1, h2, h3, h4, h5, _⟩ := PutBlob_counters env s task id b hb ha
    refine ⟨b', h1, h2.trans hid, h5, ?_, ?_, ?_, ?_, ?_⟩
    · intro hs; simp only [opStages] at hs; rw [h4, if_pos hs]
    · rw [h4]; split
      · rename_i hs; simp at hs; omega
      · exact Nat.le_refl _
    · omega
    · intro h; rw [h4, h3]; split <;> omega
    · intro _ h; rw [h4, h3]; split <;> omega
  | get env task =>
    obtain ⟨b', h1, h2, h3, h4, h5, _⟩ := GetBlob_counters env s task id b hb ha
    refine ⟨b', h1, h2.trans hid, h5, ?_, ?_, ?_, ?_, ?_⟩
    · intro hs; simp only [opStages] at hs; rw [h4, if_pos hs]
    · rw [h4]; split
      · rename_i hs; simp at hs; omega
      · exact Nat.le_refl _
    · omega
    · intro h; rw [h4, h3]; split <;> omega
    · intro hg h
      simp only [BlobOp.isGet, opStages, Bool.true_and] at hg
      rw [h4, h3, hg]; simpa using h
  | flush env bid w =>
    have hbid : bid = id := ha
    subst hbid
    by_cases hc : b.last_flush ≤ 0 ∨ b.mod_count ≤ b.last_flush
    · have e : runOp s (BlobOp.flush env bid w) = s := FlushBlob_skip env s bid b w hb hc
      rw [e]
      refine ⟨b, hb, hid, by simp [opStages], by simp [opStages], Nat.le_refl _,
        Nat.le_refl _, fun h => h, fun _ h => h⟩
    · obtain ⟨⟨data, k1⟩, k2, _⟩ := FlushBlob_stale env s bid b w hb hid hnn hc
      refine ⟨_, k2, hid, ?_, by simp [opStages], ?_, Nat.le_refl _, ?_, ?_⟩
      · show stageIns (FlushBlob env s bid w).issued = _
        rw [k1, stageIns_append]; simp [opStages, stageIns]
      · show b.last_flush ≤ b.mod_count; omega
      · intro _; show b.mod_count ≤ max b.mod_count 1; omega
      · intro _ _; exact Nat.le_refl _

/-- Effect of a sequence of operations that address an existing blob stored under
its own non-null id. -/
theorem runOps_counters (id : BlobId) (hnn : id.IsNull = false) :
    ∀ (ops : List BlobOp) (s : Server) (b : BlobInfo),
      s.tls.blob_map id = some b → b.blob_id = id → AllOpsAddress id ops s →
      ∃ b', (runOps ops s).tls.blob_map id = some b'
        ∧ b'.blob_id = id
        ∧ b.last_flush ≤ b'.last_flush
        ∧ b.mod_count ≤ b'.mod_count
        ∧ (b.last_flush ≤ max b.mod_count 1 → b'.last_flush ≤ max b'.mod_count 1)
        ∧ stageIns s.issued ≤ stageIns (runOps ops s).issued
        ∧ stageIns (runOps ops s).issued
            ≤ stageIns s.issued + (if b.last_flush = 0 then 1 else 0) := by
  intro ops
  induction ops with
  | nil =>
    intro s b hb hid _
    exact ⟨b, hb, hid, Nat.le_refl _, Nat.le_refl _, fun h => h, Nat.le_refl _,
      Nat.le_add_right _ _⟩
  | cons op rest ih =>
    intro s b hb hid ha
    obtain ⟨ha1, ha2⟩ := ha
    obtain ⟨b1, h1, h2, h3, h4, h5, h6, h7, _⟩ := runOp_step s id b op hb hid hnn ha1
    obtain ⟨b2, k1, k2, k3, k4, k5, k7, k6⟩ := ih (runOp s op) b1 h1 h2 ha2
    refine ⟨b2, k1, k2, Nat.le_trans h5 k3, Nat.le_trans h6 k4, fun h => k5 (h7 h), ?_, ?_⟩
    · show stageIns s.issued ≤ stageIns (runOps rest (runOp s op)).issued
      rw [h3] at k7
      omega
    show stageIns (runOps rest (runOp s op)).issued ≤ _
    rw [h3] at k6
    by_cases hst : opStages op b = true
    · have e1 := h4 hst
      have e0 : b.last_flush = 0 := by
        cases op <;> simp [opStages] at hst <;> exact hst.2
      rw [if_pos hst, if_neg (by omega)] at k6
      rw [if_pos e0]
      exact k6
    · rw [if_neg hst] at k6
      by_cases e0 : b.last_flush = 0
      · rw [if_pos e0]
        split at k6 <;> omega
      · rw [if_neg e0]
        rw [if_neg (by omega)] at k6
        exact k6

/-! ## Claims on staging and the flush counters -/

/-- C11 (amended: a failed `StageOut` is not noticed by `FlushBlob`).  For a stale blob
stored under its own non-null id whose tag has no registered stager, `FlushBlob`
issues the `StageOut`, which finds no stager and fails, and still sets `last_flush`
to the `mod_count` found at its start; the next `FlushBlob` returns the state
unchanged, so it issues no `StageOut` again. -/
theorem C11_flush_ignores_stage_out_failure (env env2 : Env) (s : Server) (id : BlobId)
    (b : BlobInfo) (w1 w2 : Bool)
    (hb : s.tls.blob_map id = some b) (hid : b.blob_id = id) (hnn : id.IsNull = false)
    (hlf : 0 < b.last_flush) (hmc : b.last_flush < b.mod_count)
    (hno : s.tls.stager_map b.tag_id = Option.none) :
    (∃ data, (FlushBlob env s id w1).issued
        = s.issued ++ [Request.StageOut b.tag_id b.name data b.blob_size])
    ∧ StageOut (FlushBlob env s id w1) b.tag_id = false
    ∧ (FlushBlob env s id w1).tls.blob_map id = some { b with last_flush := b.mod_count }
    ∧ FlushBlob env2 (FlushBlob env s id w1) id w2 = FlushBlob env s id w1 := by
  have hc : ¬ (b.last_flush ≤ 0 ∨ b.mod_count ≤ b.last_flush) := by omega
  obtain ⟨k1, k2, k3⟩ := FlushBlob_stale env s id b w1 hb hid hnn hc
  refine ⟨k1, ?_, k2, FlushBlob_skip env2 _ id _ w2 k2 (Or.inr (Nat.le_refl _))⟩
  simp only [StageOut, k3, hno]

/-- C11 (witness): a blob with `mod_count = 2` and `last_flush = 1` on a lane without
any stager. -/
theorem C11_flush_ignores_stage_out_failure_witness :
    StageOut (FlushBlob envExact srvStale ⟨1, 7, 1⟩ false) tagA = false
    ∧ lastFlushOfBlob (FlushBlob envExact srvStale ⟨1, 7, 1⟩ false) = some 2 :=
  have h := C11_flush_ignores_stage_out_failure envExact envExact srvStale ⟨1, 7, 1⟩
    ⟨⟨1, 7, 1⟩, tagA, [98], [⟨0, 100, 3⟩], [], 3, 3, 1, 0, 0, 2, 1⟩ false false
    (by decide) rfl (by decide) (by decide) (by decide) (by decide)
  ⟨h.2.1, by simp only [lastFlushOfBlob, h.2.2.1, Option.map_some']⟩

/-- C11 (counterexample): on a lane without any stager the `StageOut` of a flush
fails, yet the flush moves `last_flush` from 1 to 2 and a second flush issues
nothing more. -/
theorem C11_counterexample :
    StageOut srvStale tagA = false
    ∧ lastFlushOfBlob srvStale = some 1
    ∧ lastFlushOfBlob (FlushBlob envExact srvStale ⟨1, 7, 1⟩ false) = some 2
    ∧ (FlushBlob envExact (FlushBlob envExact srvStale ⟨1, 7, 1⟩ false) ⟨1, 7, 1⟩ false).issued
        = (FlushBlob envExact srvStale ⟨1, 7, 1⟩ false).issued := by
  decide

/-- C12 (stage-in at most once).  On a blob stored under its own non-null id, one
operation addressing it sends a `StageIn` exactly when it is a `PutBlob` or `GetBlob`
that carries `SHOULD_STAGE` and finds `last_flush = 0`, and then leaves `last_flush = 1`;
a positive `last_flush` stays positive.  Hence over any sequence of `PutBlob`,
`GetBlob` and `FlushBlob` calls addressing the blob at most one `StageIn` is sent,
and none when `last_flush` is positive at the start. -/
theorem C12_stage_in_once (ops : List BlobOp) (s : Server) (id : BlobId) (b : BlobInfo)
    (hb : s.tls.blob_map id = some b) (hid : b.blob_id = id) (hnn : id.IsNull = false)
    (hops : AllOpsAddress id ops s) :
    (∀ op, OpAddresses id s op →
      ∃ b', (runOp s op).tls.blob_map id = some b'
        ∧ stageIns (runOp s op).issued
            = stageIns s.issued + (if opStages op b = true then 1 else 0)
        ∧ (opStages op b = true → b'.last_flush = 1)
        ∧ (0 < b.last_flush → 0 < b'.last_flush))
    ∧ (∃ b', (runOps ops s).tls.blob_map id = some b'
        ∧ (0 < b.last_flush → 0 < b'.last_flush))
    ∧ (0 < b.last_flush → stageIns (runOps ops s).issued = stageIns s.issued)
    ∧ stageIns s.issued ≤ stageIns (runOps ops s).issued
    ∧ stageIns (runOps ops s).issued ≤ stageIns s.issued + 1 := by
  obtain ⟨b', k1, _, k3, _, _, k7, k6⟩ := runOps_counters id hnn ops s b hb hid hops
  refine ⟨?_, ⟨b', k1, fun h => by omega⟩, ?_, k7, ?_⟩
  · intro op ha
    obtain ⟨b1, h1, _, h3, h4, h5, _⟩ := runOp_step s id b op hb hid hnn ha
    exact ⟨b1, h1, h3, h4, fun h => by omega⟩
  · intro h
    rw [if_neg (by omega)] at k6
    omega
  · split at k6 <;> omega

/-- C12 (witness): on a blob never staged, a staging get, a put carrying the flag, a
flush and another staging get send one `StageIn` in all. -/
theorem C12_stage_in_once_witness :
    stageIns srvOwner.issued ≤ stageIns (runOps opsStaged srvOwner).issued
    ∧ stageIns (runOps opsStaged srvOwner).issued ≤ stageIns srvOwner.issued + 1 :=
  (C12_stage_in_once opsStaged srvOwner ⟨1, 7, 1⟩ blobABC (by decide) rfl (by decide)
    ⟨by decide, by decide, by decide, by decide, trivial⟩).2.2.2

/-- C14 (stable get-or-create of a tag).  For a non-empty name absent from
`tag_id_map`, `GetOrCreateTag` returns the id `{node_id, HashTagName name, id_alloc}`,
advances `id_alloc` by one, and stores a tag with that id, the name,
`owner = blob_owner` and `internal_size = backend_size`; afterwards `GetTagId name`
returns the id and `GetTagName id` returns the name; and on every state in which the
name maps to an id, `GetOrCreateTag` with that name returns this id and leaves the
whole state (tag maps and `id_alloc` included) unchanged. -/
theorem C14_get_or_create_tag (H H2 : ChiString → Nat) (s : Server)
    (task task2 : GetOrCreateTagTask) (init : ChiString)
    (hne : task.tag_name ≠ []) (hnew : s.tls.tag_id_map task.tag_name = Option.none)
    (hsame : task2.tag_name = task.tag_name) :
    (GetOrCreateTag H s task).2.tag_id = ⟨s.node_id, H task.tag_name, s.id_alloc⟩
    ∧ (GetOrCreateTag H s task).1.id_alloc = (s.id_alloc + 1) % 2 ^ 64
    ∧ (∃ tag, (GetOrCreateTag H s task).1.tls.tag_map (GetOrCreateTag H s task).2.tag_id
          = some tag
        ∧ tag.tag_id = (GetOrCreateTag H s task).2.tag_id ∧ tag.name = task.tag_name
        ∧ tag.owner = task.blob_owner ∧ tag.internal_size = task.backend_size)
    ∧ GetTagId (GetOrCreateTag H s task).1 task.tag_name = (GetOrCreateTag H s task).2.tag_id
    ∧ GetTagName (GetOrCreateTag H s task).1 (GetOrCreateTag H s task).2.tag_id init
        = task.tag_name
    ∧ GetOrCreateTag H2 (GetOrCreateTag H s task).1 task2
        = ((GetOrCreateTag H s task).1,
           { task2 with tag_id := (GetOrCreateTag H s task).2.tag_id })
    ∧ (∀ (s2 : Server) (id : TagId), s2.tls.tag_id_map task.tag_name = some id →
        GetOrCreateTag H2 s2 task2 = (s2, { task2 with tag_id := id })) := by
  have hlen : task.tag_name.length > 0 := List.length_pos.mpr hne
  have hlater : ∀ (s2 : Server) (id : TagId), s2.tls.tag_id_map task.tag_name = some id →
      GetOrCreateTag H2 s2 task2 = (s2, { task2 with tag_id := id }) := by
    intro s2 id hk
    simp [GetOrCreateTag, hsame, hlen, hk]
  have hkey : (GetOrCreateTag H s task).1.tls.tag_id_map task.tag_name
      = some (GetOrCreateTag H s task).2.tag_id := by
    simp [GetOrCreateTag, hlen, hnew, Map.emplace, Map.set]
  have htag : ∃ tag, (GetOrCreateTag H s task).1.tls.tag_map (GetOrCreateTag H s task).2.tag_id
        = some tag
      ∧ tag.tag_id = (GetOrCreateTag H s task).2.tag_id ∧ tag.name = task.tag_name
      ∧ tag.owner = task.blob_owner ∧ tag.internal_size = task.backend_size := by
    simp only [GetOrCreateTag, hlen, hnew, if_true, decide_True]
    refine ⟨_, Map.set_same _ _ _, ?_, ?_, ?_, ?_⟩ <;>
      cases task.flags.should_stage <;> simp
  refine ⟨?_, ?_, htag, ?_, ?_, hlater _ _ hkey, hlater⟩
  · simp [GetOrCreateTag, hlen, hnew]
  · simp [GetOrCreateTag, hlen, hnew]
  · simp only [GetTagId, hkey]
  · obtain ⟨tag, h1, _, h3, _⟩ := htag
    simp only [GetTagName, h1, h3]

/-- C14 (witness): the tag `[116]` created on an empty lane, then asked for again as
a non-owner. -/
theorem C14_get_or_create_tag_witness :
    (GetOrCreateTag (fun _ => 10) srvEmpty createT).2.tag_id = ⟨1, 10, 1⟩
    ∧ GetOrCreateTag (fun _ => 11) (GetOrCreateTag (fun _ => 10) srvEmpty createT).1
        ⟨[116], UniqueId.GetNull, false, 9, Flags.none⟩
      = ((GetOrCreateTag (fun _ => 10) srvEmpty createT).1,
         { ( ⟨[116], UniqueId.GetNull, false, 9, Flags.none⟩ : GetOrCreateTagTask) with
           tag_id := (GetOrCreateTag (fun _ => 10) srvEmpty createT).2.tag_id }) :=
  have h := C14_get_or_create_tag (fun _ => 10) (fun _ => 11) srvEmpty createT
    ⟨[116], UniqueId.GetNull, false, 9, Flags.none⟩ [] (by decide) (by decide) rfl
  ⟨h.1, h.2.2.2.2.2.1⟩

/-- C15 (code at the failing input): on the tag `[116]` created with `backend_size` 0
and without `SHOULD_STAGE`, with exact allocations and every issued request
delivered, a put of 3 bytes at offset 0 to a fresh blob gives `TagGetSize = 3`, and
a one-byte overwrite at offset 1 leaves it 3; but the puts of 3, 0 and 3 bytes at
offset 0 give `TagGetSize = 6` while the tag's only blob has `blob_size = 3`. -/
theorem C15_tag_size_overcounts :
    srvBucket.tls.tag_map tagA = some ⟨tagA, [116], [], 0, false, true⟩
    ∧ bucketSizes (PutBlob envExact srvBucket putABC).1 = (3, 3)
    ∧ bucketSizes (PutBlob envExact (PutBlob envExact srvBucket putABC).1 putMid).1 = (3, 3)
    ∧ bucketSizes (PutBlob envExactB
        (PutBlob envExact (PutBlob envExact srvBucket putABC).1 putZero).1 putABC).1 = (6, 3) := by
  decide

theorem toSsize_small (x : Nat) (h : x < 2 ^ 63) : toSsize x = (x : Int) := by
  have e63 : (2 : Nat) ^ 63 = 9223372036854775808 := by norm_num
  have e64 : (2 : Nat) ^ 64 = 18446744073709551616 := by norm_num
  rw [e63] at h
  have hm : x % 2 ^ 64 = x := Nat.mod_eq_of_lt (by rw [e64]; omega)
  unfold toSsize
  rw [hm, if_pos (by rw [e63]; exact h)]

theorem toSsize_large (x : Nat) (h1 : 2 ^ 63 ≤ x) (h2 : x < 2 ^ 64) :
    toSsize x = (x : Int) - 2 ^ 64 := by
  have hm : x % 2 ^ 64 = x := Nat.mod_eq_of_lt h2
  unfold toSsize
  rw [hm, if_neg (by omega)]

theorem toSize_cast (i : Int) : ((toSize i : Nat) : Int) = i % 2 ^ 64 := by
  unfold toSize
  exact Int.toNat_of_nonneg (Int.emod_nonneg _ (by norm_num))

/-- The record stored by `TagUpdateSize` on an existing tag. -/
theorem TagUpdateSize_found (s : Server) (tag_id : TagId) (tag : TagInfo) (d : Int)
    (mode : UpdateSizeMode) (htag : s.tls.tag_map tag_id = some tag) :
    (TagUpdateSize s tag_id d mode).tls.tag_map tag_id
        = some { tag with
            internal_size := toSize (if mode = UpdateSizeMode.kAdd
              then toSsize tag.internal_size + d else max d (toSsize tag.internal_size)) }
    ∧ (∀ t, t ≠ tag_id → (TagUpdateSize s tag_id d mode).tls.tag_map t = s.tls.tag_map t) := by
  simp only [TagUpdateSize, htag, Option.getD_some]
  exact ⟨Map.set_same _ _ _, fun t ht => Map.set_other _ _ _ _ ht⟩

/-- C16 (amended: exact inside the 64-bit ranges).  On an existing tag with
`internal_size = s < 2^64` and a signed 64-bit `d`, `TagUpdateSize` changes no field
of the tag but `internal_size` and no other tag.  In mode `kAdd` the new
`internal_size` is `(s + d) mod 2^64`, which is `s + d` whenever `0 ≤ s + d < 2^64`.
In mode `kCap` the new `internal_size` is `max s d` whenever `s < 2^63`. -/
theorem C16_tag_update_size (s : Server) (tag_id : TagId) (tag : TagInfo) (d : Int)
    (htag : s.tls.tag_map tag_id = some tag) (hs : tag.internal_size < 2 ^ 64)
    (hd : -2 ^ 63 ≤ d ∧ d < 2 ^ 63) :
    (∃ n : Nat, (TagUpdateSize s tag_id d UpdateSizeMode.kAdd).tls.tag_map tag_id
          = some { tag with internal_size := n }
        ∧ (n : Int) = ((tag.internal_size : Int) + d) % 2 ^ 64
        ∧ (0 ≤ (tag.internal_size : Int) + d → (tag.internal_size : Int) + d < 2 ^ 64 →
            (n : Int) = (tag.internal_size : Int) + d))
    ∧ (∃ m : Nat, (TagUpdateSize s tag_id d UpdateSizeMode.kCap).tls.tag_map tag_id
          = some { tag with internal_size := m }
        ∧ (tag.internal_size < 2 ^ 63 → (m : Int) = max (tag.internal_size : Int) d))
    ∧ (∀ mode t, t ≠ tag_id →
        (TagUpdateSize s tag_id d mode).tls.tag_map t = s.tls.tag_map t) := by
  have e63 : (2 : Int) ^ 63 = 9223372036854775808 := by norm_num
  have e64 : (2 : Int) ^ 64 = 18446744073709551616 := by norm_num
  have n63 : (2 : Nat) ^ 63 = 9223372036854775808 := by norm_num
  have n64 : (2 : Nat) ^ 64 = 18446744073709551616 := by norm_num
  refine ⟨⟨_, (TagUpdateSize_found s tag_id tag d _ htag).1, ?_, ?_⟩,
    ⟨_, (TagUpdateSize_found s tag_id tag d _ htag).1, ?_⟩,
    fun mode t ht => (TagUpdateSize_found s tag_id tag d mode htag).2 t ht⟩
  · rw [toSize_cast, if_pos rfl]
    by_cases h : tag.internal_size < 2 ^ 63
    · rw [toSsize_small _ h]
    · rw [toSsize_large _ (by omega) hs, e64]
      omega
  · intro h0 h1
    rw [toSize_cast, if_pos rfl]
    by_cases h : tag.internal_size < 2 ^ 63
    · rw [toSsize_small _ h]
      exact Int.emod_eq_of_lt h0 h1
    · rw [toSsize_large _ (by omega) hs]
      rw [e64] at h1 ⊢
      omega
  · intro h
    rw [toSize_cast, if_neg (by decide), toSsize_small _ h]
    rw [n63] at h
    rw [e63] at hd
    have hmax : 0 ≤ max d (tag.internal_size : Int) := le_max_of_le_right (by omega)
    have hlt : max d (tag.internal_size : Int) < 2 ^ 64 := by
      rw [e64]; exact max_lt (by omega) (by omega)
    rw [Int.emod_eq_of_lt hmax hlt, max_comm]

/-- C16 (witness): the tag of size 0 receives `+5` and then a cap at 7. -/
theorem C16_tag_update_size_witness :
    ∃ n : Nat, (TagUpdateSize srvBucket tagA 5 UpdateSizeMode.kAdd).tls.tag_map tagA
        = some { ( ⟨tagA, [116], [], 0, false, true⟩ : TagInfo) with internal_size := n }
      ∧ (n : Int) = ((0 : Nat) + 5 : Int) % 2 ^ 64
      ∧ (0 ≤ ((0 : Nat) : Int) + 5 → ((0 : Nat) : Int) + 5 < 2 ^ 64 →
          (n : Int) = ((0 : Nat) : Int) + 5) :=
  (C16_tag_update_size srvBucket tagA ⟨tagA, [116], [], 0, false, true⟩ 5 (by decide)
    (by decide) (by decide)).1

/-- C16 (counterexample): a cap at 5 of a tag of `2^63` bytes leaves 5, not `2^63`; and
`+1` on a tag of `2^64 - 1` bytes leaves 0. -/
theorem C16_counterexample :
    TagGetSize srvHuge tagA = 9223372036854775808
    ∧ TagGetSize (TagUpdateSize srvHuge tagA 5 UpdateSizeMode.kCap) tagA = 5
    ∧ TagGetSize srvFull tagA = 18446744073709551615
    ∧ TagGetSize (TagUpdateSize srvFull tagA 1 UpdateSizeMode.kAdd) tagA = 0 := by
  decide

/-! ## Claims on routing -/

/-- C17 (code at the failing inputs).  With the traits of the task classes every
task that is not direct is rewritten to the globally hashed shard and marked
direct, whatever the lane holds: so are the tasks on blob `⟨1, 7, 1⟩` and on tag
`tagA`, which the lane of `srvOwner` holds by id and by name.  With the traits
swapped, a task whose tag name is in `tag_id_map` is rewritten as well, a task
whose tag name is absent makes `GetTagInfo` undefined, and only a task without
name whose id is in the map is left unchanged. -/
theorem C17_router_never_hits :
    (∀ (h : RouteHash) (s : Server) (task : RouteTask),
      BlobCacheWriteRoute traitsOfTask h s { task with direct := false }
        = some { task with
            dom_query := DomainQuery.GetDirectHash SubDomainId.kGlobalContainers
              (h.HashBlobNameOrId task.tag_id [] UniqueId.GetNull),
            direct := true, routed := false }
      ∧ BlobCacheReadRoute traitsOfTask h s { task with direct := false }
        = some { task with
            dom_query := DomainQuery.GetDirectHash SubDomainId.kGlobalContainers
              (h.HashBlobNameOrId task.tag_id [] UniqueId.GetNull),
            direct := true, routed := false }
      ∧ TagCacheWriteRoute traitsOfTask h s { task with direct := false }
        = some { task with
            dom_query := DomainQuery.GetDirectHash SubDomainId.kGlobalContainers
              (h.HashTagNameOrId UniqueId.GetNull []),
            direct := true, routed := false }
      ∧ TagCacheReadRoute traitsOfTask h s { task with direct := false }
        = some { task with
            dom_query := DomainQuery.GetDirectHash SubDomainId.kGlobalContainers
              (h.HashTagNameOrId UniqueId.GetNull []),
            direct := true, routed := false })
    ∧ (srvOwner.tls.blob_map taskB.blob_id).isSome = true
    ∧ (srvOwner.tls.blob_id_map (GetBlobNameWithBucket taskB.tag_id taskB.blob_name)).isSome
        = true
    ∧ BlobCacheWriteRoute traitsOfTask hashSum srvOwner taskB
        = some { taskB with
            dom_query := DomainQuery.GetDirectHash SubDomainId.kGlobalContainers 1,
            direct := true, routed := false }
    ∧ (srvOwner.tls.tag_map taskB.tag_id).isSome = true
    ∧ (srvOwner.tls.tag_id_map taskB.tag_name).isSome = true
    ∧ TagCacheReadRoute traitsOfTask hashSum srvOwner taskB
        = some { taskB with
            dom_query := DomainQuery.GetDirectHash SubDomainId.kGlobalContainers 0,
            direct := true, routed := false }
    ∧ TagCacheWriteRoute traitsSwapped hashSum srvOwner taskB
        = some { taskB with
            dom_query := DomainQuery.GetDirectHash SubDomainId.kGlobalContainers 117,
            direct := true, routed := false }
    ∧ TagCacheWriteRoute traitsSwapped hashSum srvOwner taskOther = Option.none
    ∧ TagCacheWriteRoute traitsSwapped hashSum srvOwner taskById = some taskById :=
  ⟨fun _ _ _ => ⟨rfl, rfl, rfl, rfl⟩, by decide⟩

/-- C18 (code at the failing inputs).  With the traits of the task classes the key
of a rewritten blob task is `HashBlobNameOrId tag_id "" null` and the key of a
rewritten tag task is `HashTagNameOrId null ""`, whatever name and id the task
carries: the tasks on the blobs `[98]` and `[99]` of `tagA` get the same domain
query although the hashes of their own names and ids differ, and so do the tasks
on the tags `[116]` and `[117]`. -/
theorem C18_routing_key_ignores_task :
    (∀ (h : RouteHash) (s : Server) (task : RouteTask),
      (BlobCacheWriteRoute traitsOfTask h s { task with direct := false }).map
          (fun t => t.dom_query)
        = some (DomainQuery.GetDirectHash SubDomainId.kGlobalContainers
            (h.HashBlobNameOrId task.tag_id [] UniqueId.GetNull))
      ∧ (TagCacheWriteRoute traitsOfTask h s { task with direct := false }).map
          (fun t => t.dom_query)
        = some (DomainQuery.GetDirectHash SubDomainId.kGlobalContainers
            (h.HashTagNameOrId UniqueId.GetNull [])))
    ∧ taskB.blob_name ≠ taskC.blob_name ∧ taskB.blob_id ≠ taskC.blob_id
    ∧ hashSum.HashBlobNameOrId taskB.tag_id taskB.blob_name taskB.blob_id
        ≠ hashSum.HashBlobNameOrId taskC.tag_id taskC.blob_name taskC.blob_id
    ∧ (BlobCacheWriteRoute traitsOfTask hashSum srvOwner taskB).map (fun t => t.dom_query)
        = (BlobCacheWriteRoute traitsOfTask hashSum srvOwner taskC).map (fun t => t.dom_query)
    ∧ hashSum.HashTagNameOrId taskB.tag_id taskB.tag_name
        ≠ hashSum.HashTagNameOrId taskOther.tag_id taskOther.tag_name
    ∧ (TagCacheWriteRoute traitsOfTask hashSum srvOwner taskB).map (fun t => t.dom_query)
        = (TagCacheWriteRoute traitsOfTask hashSum srvOwner taskOther).map
            (fun t => t.dom_query) :=
  ⟨fun _ _ _ => ⟨rfl, rfl⟩, by decide⟩

theorem BlobCacheWriteRoute_idem (tr : TaskTraits) (h : RouteHash) (s : Server)
    (task : RouteTask) : RouteIdempotent (BlobCacheWriteRoute tr h s) task := by
  unfold RouteIdempotent BlobCacheWriteRoute
  cases hg : GetBlobInfo s (if tr.base_of_BlobWithName = true then task.blob_name else [])
      (if tr.base_of_BlobWithId = true then task.blob_id else UniqueId.GetNull) with
  | none => simp [hg]
  | some info =>
    by_cases hc : (info.isSome || task.direct) = true
    · simp only [hg, hc, if_true, Option.some_bind]
      refine ⟨trivial, fun _ t ht => ?_, fun t ht => Or.inl ?_⟩ <;>
        exact (Option.some.inj ht).symm
    · have hd : task.direct = false := by
        cases hdd : task.direct
        · rfl
        · simp [hdd] at hc
      have hc2 : (info.isSome || task.direct) = false := by simpa using hc
      simp only [hg, hc2, Bool.false_eq_true, if_false, Option.some_bind, Bool.or_true, if_true]
      refine ⟨trivial, fun hd2 => ?_, fun t ht => Or.inr ?_⟩
      · rw [hd] at hd2; cases hd2
      · rw [← Option.some.inj ht]

theorem BlobCacheReadRoute_idem (tr : TaskTraits) (h : RouteHash) (s : Server)
    (task : RouteTask) : RouteIdempotent (BlobCacheReadRoute tr h s) task := by
  unfold RouteIdempotent BlobCacheReadRoute
  cases hg : GetBlobInfo s (if tr.base_of_BlobWithName = true then task.blob_name else [])
      (if tr.base_of_BlobWithId = true then task.blob_id else UniqueId.GetNull) with
  | none => simp [hg]
  | some info =>
    by_cases hc : (info.isSome || task.direct) = true
    · simp only [hg, hc, if_true, Option.some_bind]
      refine ⟨trivial, fun _ t ht => ?_, fun t ht => Or.inl ?_⟩ <;>
        exact (Option.some.inj ht).symm
    · have hd : task.direct = false := by
        cases hdd : task.direct
        · rfl
        · simp [hdd] at hc
      have hc2 : (info.isSome || task.direct) = false := by simpa using hc
      simp only [hg, hc2, Bool.false_eq_true, if_false, Option.some_bind, Bool.or_true, if_true]
      refine ⟨trivial, fun hd2 => ?_, fun t ht => Or.inr ?_⟩
      · rw [hd] at hd2; cases hd2
      · rw [← Option.some.inj ht]

theorem TagCacheWriteRoute_idem (tr : TaskTraits) (h : RouteHash) (s : Server)
    (task : RouteTask) : RouteIdempotent (TagCacheWriteRoute tr h s) task := by
  unfold RouteIdempotent TagCacheWriteRoute
  cases hg : GetTagInfo s (if tr.base_of_TagWithName = true then task.tag_name else [])
      (if tr.base_of_TagWithId = true then task.tag_id else UniqueId.GetNull) with
  | none => simp [hg]
  | some info =>
    by_cases hc : (info.isSome || task.direct) = true
    · simp only [hg, hc, if_true, Option.some_bind]
      refine ⟨trivial, fun _ t ht => ?_, fun t ht => Or.inl ?_⟩ <;>
        exact (Option.some.inj ht).symm
    · have hd : task.direct = false := by
        cases hdd : task.direct
        · rfl
        · simp [hdd] at hc
      have hc2 : (info.isSome || task.direct) = false := by simpa using hc
      simp only [hg, hc2, Bool.false_eq_true, if_false, Option.some_bind, Bool.or_true, if_true]
      refine ⟨trivial, fun hd2 => ?_, fun t ht => Or.inr ?_⟩
      · rw [hd] at hd2; cases hd2
      · rw [← Option.some.inj ht]

theorem TagCacheReadRoute_idem (tr : TaskTraits) (h : RouteHash) (s : Server)
    (task : RouteTask) : RouteIdempotent (TagCacheReadRoute tr h s) task := by
  unfold RouteIdempotent TagCacheReadRoute
  cases hg : GetTagInfo s (if tr.base_of_TagWithName = true then task.tag_name else [])
      (if tr.base_of_TagWithId = true then task.tag_id else UniqueId.GetNull) with
  | none => simp [hg]
  | some info =>
    by_cases hc : (info.isSome || task.direct) = true
    · simp only [hg, hc, if_true, Option.some_bind]
      refine ⟨trivial, fun _ t ht => ?_, fun t ht => Or.inl ?_⟩ <;>
        exact (Option.some.inj ht).symm
    · have hd : task.direct = false := by
        cases hdd : task.direct
        · rfl
        · simp [hdd] at hc
      have hc2 : (info.isSome || task.direct) = false := by simpa using hc
      simp only [hg, hc2, Bool.false_eq_true, if_false, Option.some_bind, Bool.or_true, if_true]
      refine ⟨trivial, fun hd2 => ?_, fun t ht => Or.inr ?_⟩
      · rw [hd] at hd2; cases hd2
      · rw [← Option.some.inj ht]

theorem routes_return (h : RouteHash) (s : Server) (task : RouteTask) :
    RouteReturns (BlobCacheWriteRoute traitsOfTask h s) task
    ∧ RouteReturns (BlobCacheReadRoute traitsOfTask h s) task
    ∧ RouteReturns (TagCacheWriteRoute traitsOfTask h s) task
    ∧ RouteReturns (TagCacheReadRoute traitsOfTask h s) task := by
  unfold RouteReturns
  cases hd : task.direct <;>
    simp [BlobCacheWriteRoute, BlobCacheReadRoute, TagCacheWriteRoute, TagCacheReadRoute,
      traitsOfTask, GetBlobInfo, GetTagInfo, IsNull_GetNull, hd]

/-- C19 (routing is idempotent).  For every task, lane state and values of the
traits, each of the four route functions gives, when applied to its own result,
that result again; it does not modify a task that is direct; and a result that
differs from the task is marked direct.  With the traits of the task classes the
four functions return on every task, and return a direct task as it is. -/
theorem C19_routing_idempotent (tr : TaskTraits) (h : RouteHash) (s : Server)
    (task : RouteTask) :
    (RouteIdempotent (BlobCacheWriteRoute tr h s) task
      ∧ RouteIdempotent (BlobCacheReadRoute tr h s) task
      ∧ RouteIdempotent (TagCacheWriteRoute tr h s) task
      ∧ RouteIdempotent (TagCacheReadRoute tr h s) task)
    ∧ (RouteReturns (BlobCacheWriteRoute traitsOfTask h s) task
      ∧ RouteReturns (BlobCacheReadRoute traitsOfTask h s) task
      ∧ RouteReturns (TagCacheWriteRoute traitsOfTask h s) task
      ∧ RouteReturns (TagCacheReadRoute traitsOfTask h s) task) :=
  ⟨⟨BlobCacheWriteRoute_idem tr h s task, BlobCacheReadRoute_idem tr h s task,
    TagCacheWriteRoute_idem tr h s task, TagCacheReadRoute_idem tr h s task⟩,
   routes_return h s task⟩

/-! ## Claims on the access log -/

/-- What `PollAccessPattern` returns: the records among the first `ioPatternDepth` of
the log whose id is at least `last_access` (all of them when `last_access = 0`), in
ascending order of id. -/
theorem PollAccessPattern_spec (s : Server) (task : PollAccessPatternTask) :
    List.Sorted (fun a b : IoStat => a.id ≤ b.id) (PollAccessPattern s task).io_pattern
    ∧ List.Perm (PollAccessPattern s task).io_pattern
        ((s.io_pattern.take (min ioPatternDepth s.io_pattern.length)).filter
          (fun stat => decide (task.last_access = 0 ∨ task.last_access ≤ stat.id))) := by
  unfold PollAccessPattern
  refine ⟨List.sorted_insertionSort _ _, ?_⟩
  refine (List.perm_insertionSort _ _).trans (List.Perm.of_eq ?_)
  apply List.filter_congr
  intro x _
  by_cases h0 : task.last_access = 0
  · simp [h0]
  · by_cases h1 : x.id < task.last_access
    · have : ¬ task.last_access ≤ x.id := by omega
      have : task.last_access > 0 := by omega
      simp [*]
    · have : task.last_access ≤ x.id := by omega
      simp [*]

/-- C20 (code at the failing input).  With the records 0, 1 and 2 in the log,
`PollAccessPattern` with `last_access = 0` returns the three records in ascending
order and sets `last_access` to 2; called again with `last_access = 2` it returns
record 2 once more, and with `last_access = 1` it returns the records 1 and 2. -/
theorem C20_poll_returns_last_access_again :
    srvLogged.io_pattern.map (fun stat => stat.id) = [0, 1, 2]
    ∧ polledIds srvLogged 0 = ([0, 1, 2], 2)
    ∧ polledIds srvLogged 2 = ([2], 2)
    ∧ polledIds srvLogged 1 = ([1, 2], 2) := by
  decide

/-! ## Further lemmas on the walk -/

theorem walkNoUnderflow_break (R : Nat) (b : BufferInfo) (rest : List BufferInfo)
    (ws : WalkState) (h : R ≤ ws.blob_off) : walkNoUnderflow R (b :: rest) ws := by
  simp [walkNoUnderflow, h]

theorem walkNoUnderflow_found (R : Nat) (b : BufferInfo) (rest : List BufferInfo)
    (ws : WalkState) (h : ws.blob_off < R) (hf : foundAt b ws) :
    walkNoUnderflow R (b :: rest) ws
      ↔ (ws.buf_left ≤ ws.blob_off ∧ ws.blob_off - ws.buf_left ≤ b.size
          ∧ (ws.buf_left + b.size > R → ws.buf_left + (ws.blob_off - ws.buf_left) ≤ R)
          ∧ walkNoUnderflow R rest ⟨ws.buf_left + b.size, ws.buf_off + segSize R b ws,
              ws.buf_left + b.size, true⟩) := by
  have h1 : ¬ (ws.blob_off ≥ R) := by omega
  have h2 : (ws.found_left || (decide (ws.buf_left ≤ ws.blob_off) && decide (ws.blob_off < ws.buf_left + b.size))) = true := by
    simpa [foundAt] using hf
  simp only [walkNoUnderflow, h1, if_false, h2, if_true, segSize]

theorem walkNoUnderflow_skip (R : Nat) (b : BufferInfo) (rest : List BufferInfo)
    (ws : WalkState) (h : ws.blob_off < R) (hf : ¬ foundAt b ws) :
    walkNoUnderflow R (b :: rest) ws
      ↔ walkNoUnderflow R rest ⟨ws.blob_off, ws.buf_off, ws.buf_left + b.size, false⟩ := by
  have h1 : ¬ (ws.blob_off ≥ R) := by omega
  have h2 : (ws.found_left || (decide (ws.buf_left ≤ ws.blob_off) && decide (ws.blob_off < ws.buf_left + b.size))) = false := by
    simpa [foundAt] using hf
  simp [walkNoUnderflow, h1, h2]

/-- No subtraction of the walk underflows. -/
theorem walkBuffers_no_underflow (R : Nat) (bufs : List BufferInfo) :
    ∀ ws : WalkState, ws.Inv → walkNoUnderflow R bufs ws := by
  induction bufs with
  | nil => intro ws _; simp [walkNoUnderflow]
  | cons b rest ih =>
    intro ws hinv
    by_cases hbr : R ≤ ws.blob_off
    · exact walkNoUnderflow_break R b rest ws hbr
    · by_cases hf : foundAt b ws
      · rw [walkNoUnderflow_found R b rest ws (by omega) hf]
        have hrel := foundAt_rel b ws hinv hf
        exact ⟨hrel.2, hrel.1, fun _ => by omega, ih _ (inv_found b ws _)⟩
      · rw [walkNoUnderflow_skip R b rest ws (by omega) hf]
        exact ih _ (inv_skip b ws hinv hf)

/-- The payload offsets of the transfers are contiguous from the initial `buf_off`,
and their lengths add up to the advance of `buf_off`. -/
theorem walkBuffers_contiguous (R : Nat) (bufs : List BufferInfo) :
    ∀ ws : WalkState, Contiguous ws.buf_off (walkBuffers R bufs ws).1
      ∧ ws.buf_off + segsLen (walkBuffers R bufs ws).1 = (walkBuffers R bufs ws).2.buf_off := by
  induction bufs with
  | nil => intro ws; simp [walkBuffers, Contiguous, segsLen]
  | cons b rest ih =>
    intro ws
    by_cases hbr : R ≤ ws.blob_off
    · rw [walkBuffers_break R b rest ws hbr]; simp [Contiguous, segsLen]
    · by_cases hf : foundAt b ws
      · rw [walkBuffers_found R b rest ws (by omega) hf]
        obtain ⟨h1, h2⟩ := ih ⟨ws.buf_left + b.size, ws.buf_off + segSize R b ws,
          ws.buf_left + b.size, true⟩
        refine ⟨⟨rfl, h1⟩, ?_⟩
        simp only [segsLen, List.map_cons, List.sum_cons] at h2 ⊢
        omega
      · rw [walkBuffers_skip R b rest ws (by omega) hf]
        exact ih ⟨ws.blob_off, ws.buf_off, ws.buf_left + b.size, false⟩

theorem walkNoWrap_break (R : Nat) (b : BufferInfo) (rest : List BufferInfo)
    (ws : WalkState) (h : R ≤ ws.blob_off) :
    walkNoWrap R (b :: rest) ws ↔ ws.buf_left + b.size < 2 ^ 64 := by
  simp [walkNoWrap, h]

theorem walkNoWrap_found (R : Nat) (b : BufferInfo) (rest : List BufferInfo)
    (ws : WalkState) (h : ws.blob_off < R) (hf : foundAt b ws) :
    walkNoWrap R (b :: rest) ws
      ↔ (ws.buf_left + b.size < 2 ^ 64
          ∧ b.off + (ws.blob_off - ws.buf_left) < 2 ^ 64
          ∧ (ws.buf_left + b.size > R → ws.buf_left + (ws.blob_off - ws.buf_left) < 2 ^ 64)
          ∧ ws.buf_off + segSize R b ws < 2 ^ 64
          ∧ walkNoWrap R rest ⟨ws.buf_left + b.size, ws.buf_off + segSize R b ws,
              ws.buf_left + b.size, true⟩) := by
  have h1 : ¬ (ws.blob_off ≥ R) := by omega
  have h2 : (ws.found_left || (decide (ws.buf_left ≤ ws.blob_off) && decide (ws.blob_off < ws.buf_left + b.size))) = true := by
    simpa [foundAt] using hf
  simp only [walkNoWrap, h1, if_false, h2, if_true, segSize]

theorem walkNoWrap_skip (R : Nat) (b : BufferInfo) (rest : List BufferInfo)
    (ws : WalkState) (h : ws.blob_off < R) (hf : ¬ foundAt b ws) :
    walkNoWrap R (b :: rest) ws
      ↔ (ws.buf_left + b.size < 2 ^ 64
          ∧ walkNoWrap R rest ⟨ws.blob_off, ws.buf_off, ws.buf_left + b.size, false⟩) := by
  have h1 : ¬ (ws.blob_off ≥ R) := by omega
  have h2 : (ws.found_left || (decide (ws.buf_left ≤ ws.blob_off) && decide (ws.blob_off < ws.buf_left + b.size))) = false := by
    simpa [foundAt] using hf
  simp only [walkNoWrap, h1, if_false, h2, Bool.false_eq_true]

theorem segSize_le (R : Nat) (b : BufferInfo) (ws : WalkState) (h : ws.blob_off < R)
    (hle : ws.buf_left ≤ ws.blob_off) : segSize R b ws ≤ b.size := by
  unfold segSize
  split <;> omega

/-- No addition of the walk wraps when the buffers total fewer than `2^64` bytes and
every block ends below device offset `2^64`. -/
theorem walkBuffers_no_wrap (R : Nat) (bufs : List BufferInfo) :
    ∀ ws : WalkState, ws.Inv → ws.buf_off ≤ ws.buf_left →
      ws.buf_left + sumSizes bufs < 2 ^ 64 → (∀ b ∈ bufs, b.off + b.size < 2 ^ 64) →
      walkNoWrap R bufs ws := by
  induction bufs with
  | nil => intro ws _ _ _ _; simp [walkNoWrap]
  | cons b rest ih =>
    intro ws hinv hbo hsum hblk
    rw [sumSizes_cons] at hsum
    have hb := hblk b (List.mem_cons_self _ _)
    have hrest : ∀ x ∈ rest, x.off + x.size < 2 ^ 64 :=
      fun x hx => hblk x (List.mem_cons_of_mem _ hx)
    by_cases hbr : R ≤ ws.blob_off
    · rw [walkNoWrap_break R b rest ws hbr]
      omega
    · by_cases hf : foundAt b ws
      · rw [walkNoWrap_found R b rest ws (by omega) hf]
        have hrel := foundAt_rel b ws hinv hf
        have hseg := segSize_le R b ws (by omega) hrel.2
        refine ⟨by omega, by omega, fun _ => by omega, by omega, ?_⟩
        exact ih _ (inv_found b ws _) (by simp only; omega) (by simp only; omega) hrest
      · rw [walkNoWrap_skip R b rest ws (by omega) hf]
        refine ⟨by omega, ?_⟩
        exact ih _ (inv_skip b ws hinv hf) (by simp only; omega) (by simp only; omega) hrest

/-! ## Claims on the walk and the allocation loop -/

/-- C26 (amended: I/O segments stay inside the allocated blocks).  For every buffer
list whose buffers total fewer than `2^64` bytes and whose blocks end below device
offset `2^64`, and every offset and size, in the walk shared by `PutBlob` and
`GetBlob`: every transfer lies on the target and inside the block of a buffer of the
list; the payload offsets of the transfers are contiguous from 0; their lengths add
up to `min (r - offset) (total buffer bytes - offset)` where
`r = (offset + size) mod 2^64` is the right end as the code computes it (each
difference being 0 when negative), which is `min size (total buffer bytes - offset)`
when `offset + size < 2^64`; none of the unsigned subtractions underflows and no
addition of the loop wraps. -/
theorem C26_segments_inside_blocks (off size : Nat) (bufs : List BufferInfo)
    (hsum : sumSizes bufs < 2 ^ 64) (hblk : ∀ b ∈ bufs, b.off + b.size < 2 ^ 64) :
    (∀ s ∈ (walk off size bufs).1, ∃ b ∈ bufs,
        s.tid = b.tid ∧ b.off ≤ s.tgt_off ∧ s.tgt_off + s.buf_size ≤ b.off + b.size)
    ∧ Contiguous 0 (walk off size bufs).1
    ∧ segsLen (walk off size bufs).1
        = min ((off + size) % 2 ^ 64 - off) (sumSizes bufs - off)
    ∧ (off + size < 2 ^ 64 → segsLen (walk off size bufs).1 = min size (sumSizes bufs - off))
    ∧ walkNoUnderflow ((off + size) % 2 ^ 64) bufs ⟨off, 0, 0, false⟩
    ∧ walkNoWrap ((off + size) % 2 ^ 64) bufs ⟨off, 0, 0, false⟩ := by
  have hlen : segsLen (walk off size bufs).1
      = min ((off + size) % 2 ^ 64 - off) (sumSizes bufs - off) := by
    have h : 0 + segsLen (walkBuffers ((off + size) % 2 ^ 64) bufs ⟨off, 0, 0, false⟩).1
        = (walkBuffers ((off + size) % 2 ^ 64) bufs ⟨off, 0, 0, false⟩).2.buf_off :=
      (walkBuffers_contiguous ((off + size) % 2 ^ 64) bufs ⟨off, 0, 0, false⟩).2
    have h2 : (walkBuffers ((off + size) % 2 ^ 64) bufs ⟨off, 0, 0, false⟩).2.buf_off
        = 0 + min ((off + size) % 2 ^ 64 - off) (sumSizes bufs - (off - 0)) :=
      walkBuffers_buf_off ((off + size) % 2 ^ 64) bufs _ (walk_inv off)
    show segsLen (walkBuffers ((off + size) % 2 ^ 64) bufs ⟨off, 0, 0, false⟩).1 = _
    rw [h2] at h
    omega
  refine ⟨walkBuffers_within ((off + size) % 2 ^ 64) bufs _ (walk_inv off),
    (walkBuffers_contiguous ((off + size) % 2 ^ 64) bufs ⟨off, 0, 0, false⟩).1, hlen, ?_,
    walkBuffers_no_underflow ((off + size) % 2 ^ 64) bufs _ (walk_inv off),
    walkBuffers_no_wrap ((off + size) % 2 ^ 64) bufs _ (walk_inv off) (Nat.le_refl _)
      (by simpa using hsum) hblk⟩
  intro hlt
  rw [hlen, Nat.mod_eq_of_lt hlt]
  congr 1
  omega

/-- C26 (witness): two bytes at offset 1 of one buffer of four bytes. -/
theorem C26_segments_inside_blocks_witness :
    segsLen (walk 1 2 [⟨0, 0, 4⟩]).1 = min 2 (sumSizes [⟨0, 0, 4⟩] - 1) :=
  (C26_segments_inside_blocks 1 2 [⟨0, 0, 4⟩] (by decide) (by decide)).2.2.2.1 (by decide)

/-- C26 (counterexample): one buffer of 4 bytes, offset 1 and size `2^64 - 1`.  The
right end `1 + (2^64 - 1)` is 0 in 64-bit arithmetic, so the loop breaks at its
first test and no transfer is issued: the lengths add up to 0, where
`min(size, total buffer bytes - offset)` is 3. -/
theorem C26_counterexample :
    (1 + 18446744073709551615) % 2 ^ 64 = 0
    ∧ (walk 1 18446744073709551615 [⟨0, 0, 4⟩]).1 = []
    ∧ segsLen (walk 1 18446744073709551615 [⟨0, 0, 4⟩]).1 = 0
    ∧ min 18446744073709551615 (sumSizes [⟨0, 0, 4⟩] - 1) = 3 := by
  decide

/-- C27 (code at the failing input).  A put of 10 bytes whose schema asks target 0
for all of them: target 0 gives 4, the spill of 6 goes to the appended fallback
(index 1 of 2 sub-placements), the fallback gives nothing, and line 895 then
accesses `plcmnts_[2]`, past the end.  With exact allocation no such access is
made. -/
theorem C27_spill_past_fallback :
    envShort.Placement [putSizeDiff putTen blobFresh] srvThree.targets putTen.score
      = [[⟨10, 0⟩]]
    ∧ (allocSchema (envShort.Allocate 0) 0 0 ([⟨10, 0⟩] ++ [⟨0, srvThree.fallback_target⟩])
        ⟨[], srvThree.targets, false⟩).oob = true
    ∧ (putAllocate envShort srvThree putTen blobFresh).oob = true
    ∧ (putAllocate envExact srvThree putTen blobFresh).oob = false := by
  decide

/-! ## Claims on truncation, lookups, tagging and reorganization -/

theorem GetBlobSize_by_id (env : Env) (s : Server) (task : GetBlobSizeTask)
    (hnn : task.blob_id.IsNull = false) :
    (GetBlobSize env s task).1 = s
    ∧ (GetBlobSize env s task).2.size
        = (match s.tls.blob_map task.blob_id with
            | Option.none => 0
            | some b => b.blob_size) := by
  unfold GetBlobSize
  simp only [hnn]
  cases hm : s.tls.blob_map task.blob_id <;> simp [hm]

/-- C22 (code at the failing input).  The blob `⟨1, 7, 1⟩` of `srvOwner` has
`blob_size = 3`.  `TruncateBlob` of that blob to `new_size = 1` returns the state as
it was, and `GetBlobSize` afterwards still returns 3, not 1. -/
theorem C22_truncate_unimplemented :
    (GetBlobSize envExact srvOwner ⟨tagA, [], ⟨1, 7, 1⟩, 0⟩).2.size = 3
    ∧ TruncateBlob srvOwner ⟨tagA, ⟨1, 7, 1⟩, 1⟩ = srvOwner
    ∧ (GetBlobSize envExact (TruncateBlob srvOwner ⟨tagA, ⟨1, 7, 1⟩, 1⟩)
        ⟨tagA, [], ⟨1, 7, 1⟩, 0⟩).2.size = 3
    ∧ (GetBlobSize envExact (TruncateBlob srvOwner ⟨tagA, ⟨1, 7, 1⟩, 1⟩)
        ⟨tagA, [], ⟨1, 7, 1⟩, 0⟩).2.size ≠ 1 :=
  ⟨by decide, rfl, by decide, by decide⟩

/-- C23 (code at the failing input).  On the empty lane a `GetBlob` addressed by the
id `⟨1, 7, 9⟩` returns `bytes_read = 0` and leaves `blob_id_map` as it was, but
`blob_map` now holds a value-initialised entry under that id; a `PutBlob` addressed
by the same id, which returned without effect before the get, then writes to that
entry. -/
theorem C23_get_inserts_entry :
    srvEmpty.tls.blob_map ⟨1, 7, 9⟩ = Option.none
    ∧ (GetBlob envExact srvEmpty getAbsent).2.data_size = 0
    ∧ (GetBlob envExact srvEmpty getAbsent).1.tls.blob_map ⟨1, 7, 9⟩ = some BlobInfo.default
    ∧ (GetBlob envExact srvEmpty getAbsent).1.tls.blob_id_map
        (GetBlobNameWithBucket tagA []) = Option.none
    ∧ ((PutBlob envExact srvEmpty ⟨tagA, [], ⟨1, 7, 9⟩, 0, 3, [5, 6, 7], 1, Flags.none⟩).1.tls.blob_map
        ⟨1, 7, 9⟩).map (fun b => b.blob_size) = Option.none
    ∧ ((PutBlob envExact (GetBlob envExact srvEmpty getAbsent).1
        ⟨tagA, [], ⟨1, 7, 9⟩, 0, 3, [5, 6, 7], 1, Flags.none⟩).1.tls.blob_map
        ⟨1, 7, 9⟩).map (fun b => b.blob_size) = some 3 := by
  decide

/-- C24 (code at the failing input).  The blob `⟨1, 7, 1⟩` of `srvOwner` has no
secondary tag.  After `Bucket::TagBlob` of that blob with `tagA`, `BlobHasTag`
answers false (whatever the task's result field held before), the blob's `tags` are
still empty, and the blob appears a second time in the blob list of `tagA`; after
the task `TagBlob` with the same arguments `BlobHasTag` answers true. -/
theorem C24_bucket_tag_blob_not_tagged :
    (srvOwner.tls.blob_map ⟨1, 7, 1⟩).map (fun b => b.tags) = some []
    ∧ BlobHasTag (BucketTagBlob srvOwner ⟨1, 7, 1⟩ tagA) ⟨1, 7, 1⟩ tagA false = false
    ∧ BlobHasTag (BucketTagBlob srvOwner ⟨1, 7, 1⟩ tagA) ⟨1, 7, 1⟩ tagA true = false
    ∧ ((BucketTagBlob srvOwner ⟨1, 7, 1⟩ tagA).tls.blob_map ⟨1, 7, 1⟩).map (fun b => b.tags)
        = some []
    ∧ ((BucketTagBlob srvOwner ⟨1, 7, 1⟩ tagA).tls.tag_map tagA).map (fun t => t.blobs)
        = some [⟨1, 7, 1⟩, ⟨1, 7, 2⟩, ⟨1, 7, 1⟩]
    ∧ BlobHasTag (TagBlob srvOwner ⟨1, 7, 1⟩ tagA) ⟨1, 7, 1⟩ tagA false = true := by
  decide

/-- C25 (code at the failing input).  The blob `⟨1, 7, 1⟩` of `srvOwner` was created
under the name `[98]` in `tagA` and has score 1.  `ReorganizeBlob` with score 5,
addressed by that name and a null id, returns without effect and sends no put: the
score is still 1.  Addressed by the id it sets `score` and `user_score` to 5 and
sends the put of the blob's 3 bytes with score 5. -/
theorem C25_reorganize_by_name_ignored :
    srvOwner.tls.blob_id_map (GetBlobNameWithBucket tagA [98]) = some ⟨1, 7, 1⟩
    ∧ srvOwner.tls.blob_id_map [98] = Option.none
    ∧ GetBlobScore srvOwner ⟨1, 7, 1⟩ 0 = 1
    ∧ BucketReorganizeByName envExact srvOwner tagA [98] 5 = srvOwner
    ∧ (ReorganizeBlob envExact srvOwner ⟨tagA, [98], UniqueId.GetNull, 5, true⟩).2.2 = []
    ∧ GetBlobScore (BucketReorganizeByName envExact srvOwner tagA [98] 5) ⟨1, 7, 1⟩ 0 = 1
    ∧ GetBlobScore (BucketReorganizeById envExact srvOwner tagA ⟨1, 7, 1⟩ 5) ⟨1, 7, 1⟩ 0 = 5
    ∧ ((BucketReorganizeById envExact srvOwner tagA ⟨1, 7, 1⟩ 5).tls.blob_map ⟨1, 7, 1⟩).map
        (fun b => b.user_score) = some 5
    ∧ (ReorganizeBlob envExact srvOwner ⟨tagA, [], ⟨1, 7, 1⟩, 5, true⟩).2.2
        = [⟨tagA, [], ⟨1, 7, 1⟩, 0, 3, [0, 0, 0], 5, Flags.none⟩] := by
  refine ⟨by decide, by decide, by decide, rfl, by decide, by decide, by decide, by decide,
    by decide⟩

theorem GetBlobSize_by_name (env : Env) (s : Server) (task : GetBlobSizeTask)
    (hnull : task.blob_id = UniqueId.GetNull) :
    (GetBlobSize env s task).1
        = (GetOrCreateBlobId s task.tag_id (env.HashBlobName task.tag_id task.blob_name)
            task.blob_name Flags.none).2.1
    ∧ (GetBlobSize env s task).2.blob_id
        = (GetOrCreateBlobId s task.tag_id (env.HashBlobName task.tag_id task.blob_name)
            task.blob_name Flags.none).1
    ∧ (GetBlobSize env s task).2.size
        = (match (GetOrCreateBlobId s task.tag_id (env.HashBlobName task.tag_id task.blob_name)
              task.blob_name Flags.none).2.1.tls.blob_map
            (GetOrCreateBlobId s task.tag_id (env.HashBlobName task.tag_id task.blob_name)
              task.blob_name Flags.none).1 with
            | Option.none => 0
            | some b => b.blob_size) := by
  unfold GetBlobSize
  simp only [hnull, IsNull_GetNull, if_true]
  cases hm : (GetOrCreateBlobId s task.tag_id (env.HashBlobName task.tag_id task.blob_name)
      task.blob_name Flags.none).2.1.tls.blob_map
    (GetOrCreateBlobId s task.tag_id (env.HashBlobName task.tag_id task.blob_name)
      task.blob_name Flags.none).1 <;> simp [hm]

/-- C28 (amended: `GetBlobSize` by name creates a missing blob).  Addressed by a null
id and a name whose key is absent from `blob_id_map`, `GetBlobSize` returns 0 and
creates the blob: the key now maps to the id `{node_id, hash, id_alloc}`, `blob_map`
holds a blob of size 0 under that id, and `id_alloc` has advanced; `GetBlobId` for
the name answered the null id before and answers the new id after.  Addressed by a
non-null id, or by a name whose key is present, it returns the state unchanged. -/
theorem C28_get_blob_size_creates (env : Env) (s : Server) (task : GetBlobSizeTask)
    (hnull : task.blob_id = UniqueId.GetNull)
    (habs : s.tls.blob_id_map (GetBlobNameWithBucket task.tag_id task.blob_name)
      = Option.none) :
    (GetBlobSize env s task).2.size = 0
    ∧ (GetBlobSize env s task).2.blob_id
        = ⟨s.node_id, env.HashBlobName task.tag_id task.blob_name, s.id_alloc⟩
    ∧ (GetBlobSize env s task).1.tls.blob_id_map
          (GetBlobNameWithBucket task.tag_id task.blob_name)
        = some ⟨s.node_id, env.HashBlobName task.tag_id task.blob_name, s.id_alloc⟩
    ∧ (∃ b, (GetBlobSize env s task).1.tls.blob_map
          ⟨s.node_id, env.HashBlobName task.tag_id task.blob_name, s.id_alloc⟩ = some b
        ∧ b.blob_size = 0)
    ∧ (GetBlobSize env s task).1.id_alloc = (s.id_alloc + 1) % 2 ^ 64
    ∧ GetBlobId s task.tag_id task.blob_name = UniqueId.GetNull
    ∧ GetBlobId (GetBlobSize env s task).1 task.tag_id task.blob_name
        = ⟨s.node_id, env.HashBlobName task.tag_id task.blob_name, s.id_alloc⟩
    ∧ (∀ t2 : GetBlobSizeTask, t2.blob_id.IsNull = false → (GetBlobSize env s t2).1 = s)
    ∧ (∀ (t2 : GetBlobSizeTask) (id : BlobId), t2.blob_id = UniqueId.GetNull →
        s.tls.blob_id_map (GetBlobNameWithBucket t2.tag_id t2.blob_name) = some id →
        (GetBlobSize env s t2).1 = s) := by
  obtain ⟨e1, e2, e3⟩ := GetBlobSize_by_name env s task hnull
  obtain ⟨b, c1, _, c3, _⟩ := GetOrCreateBlobId_created s task.tag_id
    (env.HashBlobName task.tag_id task.blob_name) task.blob_name Flags.none habs
  have hkey := GetOrCreateBlobId_key s task.tag_id
    (env.HashBlobName task.tag_id task.blob_name) task.blob_name Flags.none
  have hid : (GetOrCreateBlobId s task.tag_id (env.HashBlobName task.tag_id task.blob_name)
      task.blob_name Flags.none).1
      = ⟨s.node_id, env.HashBlobName task.tag_id task.blob_name, s.id_alloc⟩ := by
    simp [GetOrCreateBlobId, habs]
  have hal : (GetOrCreateBlobId s task.tag_id (env.HashBlobName task.tag_id task.blob_name)
      task.blob_name Flags.none).2.1.id_alloc = (s.id_alloc + 1) % 2 ^ 64 := by
    simp [GetOrCreateBlobId, habs]
  rw [hid] at c1 hkey e2
  rw [hid, c1] at e3
  refine ⟨by rw [e3]; exact c3, e2, by rw [e1]; exact hkey, ⟨b, by rw [e1]; exact c1, c3⟩,
    by rw [e1]; exact hal, by simp only [GetBlobId, habs],
    by simp only [GetBlobId, e1, hkey], fun t2 h2 => (GetBlobSize_by_id env s t2 h2).1, ?_⟩
  intro t2 id h2 hk
  rw [(GetBlobSize_by_name env s t2 h2).1, GetOrCreateBlobId_found _ _ _ _ _ id hk]

/-- C28 (witness): `GetBlobSize` of the name `[98]`, which `srvTag` does not hold. -/
theorem C28_get_blob_size_creates_witness :
    (GetBlobSize envExact srvTag ⟨tagA, [98], UniqueId.GetNull, 0⟩).2.size = 0
    ∧ (GetBlobSize envExact srvTag ⟨tagA, [98], UniqueId.GetNull, 0⟩).1.id_alloc
        = (1 + 1) % 2 ^ 64 :=
  have h := C28_get_blob_size_creates envExact srvTag ⟨tagA, [98], UniqueId.GetNull, 0⟩ rfl
    (by decide)
  ⟨h.1, h.2.2.2.2.1⟩

/-- C28 (counterexample): `GetBlobSize` of the name `[98]` on `srvTag` returns 0, and
afterwards `id_alloc` is 2 instead of 1, `blob_map` holds the blob `⟨1, 7, 1⟩`, and
`ContainsBlob` for the name answers true instead of false. -/
theorem C28_counterexample :
    (GetBlobSize envExact srvTag ⟨tagA, [98], UniqueId.GetNull, 0⟩).2.size = 0
    ∧ srvTag.id_alloc = 1
    ∧ (GetBlobSize envExact srvTag ⟨tagA, [98], UniqueId.GetNull, 0⟩).1.id_alloc = 2
    ∧ srvTag.tls.blob_map ⟨1, 7, 1⟩ = Option.none
    ∧ ((GetBlobSize envExact srvTag ⟨tagA, [98], UniqueId.GetNull, 0⟩).1.tls.blob_map
        ⟨1, 7, 1⟩).isSome = true
    ∧ ContainsBlob srvTag tagA [98] = false
    ∧ ContainsBlob (GetBlobSize envExact srvTag ⟨tagA, [98], UniqueId.GetNull, 0⟩).1 tagA [98]
        = true := by
  decide

/-! ## Claims on the tag maps and the metadata polls -/

/-- C29 (code at the failing input).  On the empty lane, where the tag maps agree,
`TagUpdateSize` for the id `⟨1, 10, 5⟩`, which is not present, inserts a
value-initialised tag under it: its `tag_id` is not the key and its (empty) name is
not in `tag_id_map`.  The same happens, under `tagA`, when the `TagUpdateSize` sent
by a `PutBlob` to a tag that does not exist is delivered.  On a tag that exists the
maps still agree afterwards. -/
theorem C29_tag_update_size_inserts :
    srvEmpty.tls.tag_map ⟨1, 10, 5⟩ = Option.none
    ∧ AgreeAt srvEmpty ⟨1, 10, 5⟩
    ∧ (TagUpdateSize srvEmpty ⟨1, 10, 5⟩ 3 UpdateSizeMode.kAdd).tls.tag_map ⟨1, 10, 5⟩
        = some ⟨UniqueId.GetNull, [], [], 3, false, false⟩
    ∧ (TagUpdateSize srvEmpty ⟨1, 10, 5⟩ 3 UpdateSizeMode.kAdd).tls.tag_id_map []
        = Option.none
    ∧ ¬ AgreeAt (TagUpdateSize srvEmpty ⟨1, 10, 5⟩ 3 UpdateSizeMode.kAdd) ⟨1, 10, 5⟩
    ∧ (PutBlob envExact srvEmpty putABC).1.issued
        = [Request.TagUpdateSize tagA 3 UpdateSizeMode.kAdd, Request.TagAddBlob tagA ⟨1, 7, 1⟩]
    ∧ ¬ AgreeAt (applyBucketRequests (PutBlob envExact srvEmpty putABC).1.issued
          (PutBlob envExact srvEmpty putABC).1) tagA
    ∧ AgreeAt srvTag tagA
    ∧ AgreeAt (TagUpdateSize srvTag tagA 3 UpdateSizeMode.kAdd) tagA := by
  decide

/-- C30 (code at the failing input).  With `max_count = 2`, the replica lists
`[1, 2]` and `[3, 4, 5]` aggregate to all five entries, and the lists `[1]`,
`[2, 3, 4]`, `[5]` to `[1, 2, 5]`, which is longer than 2 and not a prefix of the
concatenation: a replica met when the aggregate already holds `max_count` entries
is appended in full.  With `max_count = 0` the result is the concatenation, and
with `max_count = 5` a single cut suffices. -/
theorem C30_poll_aggregation_exceeds_max :
    MonitorPollMetadata 2 [[1, 2], [3, 4, 5]] = [1, 2, 3, 4, 5]
    ∧ MonitorPollMetadata 2 [[1], [2, 3, 4], [5]] = [1, 2, 5]
    ∧ ¬ ([1, 2, 5] <+: [1] ++ [2, 3, 4] ++ [5])
    ∧ MonitorPollMetadata 0 [[1], [2, 3, 4], [5]] = [1, 2, 3, 4, 5]
    ∧ MonitorPollMetadata 5 [[1], [2, 3, 4], [5, 6]] = [1, 2, 3, 4, 5] := by
  decide

/-! ## Claim on the size of a blob -/

theorem GetOrCreateBlobId_keeps (s : Server) (tag_id : TagId) (h : Nat) (name : ChiString)
    (f : Flags) (id : BlobId) (b : BlobInfo) (hfresh : FreshIds s)
    (hb : s.tls.blob_map id = some b) :
    (GetOrCreateBlobId s tag_id h name f).2.1.tls.blob_map id = some b := by
  unfold GetOrCreateBlobId
  cases hk : s.tls.blob_id_map (GetBlobNameWithBucket tag_id name) with
  | some i => simp [hk, hb]
  | none =>
    have hne : id ≠ ⟨s.node_id, h, s.id_alloc⟩ := by
      intro e
      rw [e, hfresh h] at hb
      cases hb
    simp [hk, Map.emplace, hfresh h, Map.set, hne, hb]

theorem resolvePut_keeps (env : Env) (s : Server) (task : PutBlobTask) (id : BlobId)
    (b : BlobInfo) (hfresh : FreshIds s) (hb : s.tls.blob_map id = some b) :
    (resolvePut env s task).1.tls.blob_map id = some b := by
  unfold resolvePut
  split
  · exact GetOrCreateBlobId_keeps s _ _ _ _ id b hfresh hb
  · exact hb

theorem resolveGet_keeps (env : Env) (s : Server) (task : GetBlobTask) (id : BlobId)
    (b : BlobInfo) (hfresh : FreshIds s) (hb : s.tls.blob_map id = some b) :
    (resolveGet env s task).1.tls.blob_map id = some b := by
  unfold resolveGet
  split
  · exact GetOrCreateBlobId_keeps s _ _ _ _ id b hfresh hb
  · exact hb

/-- A `PutBlob` does not lower the size of any blob, and raises the size of the blob
it resolves to up to the end of the range written. -/
theorem PutBlob_blob_size (env : Env) (s : Server) (task : PutBlobTask) (id : BlobId)
    (b : BlobInfo) (hfresh : FreshIds s) (hb : s.tls.blob_map id = some b) :
    ∃ b', (PutBlob env s task).1.tls.blob_map id = some b'
      ∧ b.blob_size ≤ b'.blob_size
      ∧ ((resolvePut env s task).2.blob_id = id →
          b'.blob_size = max b.blob_size ((task.blob_off + task.data_size) % 2 ^ 64)) := by
  have h1 := resolvePut_keeps env s task id b hfresh hb
  obtain ⟨_, _, e3, e4, _⟩ := resolvePut_fields env s task
  cases h0 : (resolvePut env s task).1.tls.blob_map (resolvePut env s task).2.blob_id with
  | none =>
    have e : (PutBlob env s task).1 = (resolvePut env s task).1 := by
      simp only [PutBlob, h0]
    refine ⟨b, by rw [e]; exact h1, Nat.le_refl _, fun hid => ?_⟩
    rw [hid, h1] at h0
    cases h0
  | some b0 =>
    obtain ⟨_, _, _, _, hbm⟩ := PutBlob_found env s task b0 h0
    by_cases hid : (resolvePut env s task).2.blob_id = id
    · rw [hid, h1] at h0
      cases h0
      have hsz := (putBlobInfo_fields (resolvePut env s task).2 b
        (putAllocate env (resolvePut env s task).1 (resolvePut env s task).2 b)).2.2.1
      rw [e3, e4] at hsz
      refine ⟨_, by rw [hbm, hid, Map.set_same], ?_, fun _ => hsz⟩
      rw [hsz]
      exact Nat.le_max_left _ _
    · refine ⟨b, ?_, Nat.le_refl _, fun h => absurd h hid⟩
      rw [hbm, Map.set_other _ _ _ _ (fun e => hid e.symm)]
      exact h1

/-- A `GetBlob` leaves the size of every blob as it is. -/
theorem GetBlob_blob_size (env : Env) (s : Server) (task : GetBlobTask) (id : BlobId)
    (b : BlobInfo) (hfresh : FreshIds s) (hb : s.tls.blob_map id = some b) :
    ∃ b', (GetBlob env s task).1.tls.blob_map id = some b' ∧ b'.blob_size = b.blob_size := by
  have h1 := resolveGet_keeps env s task id b hfresh hb
  by_cases hid : (resolveGet env s task).2.blob_id = id
  · simp only [GetBlob, BlobInfo.UpdateReadStats, hid, h1, Option.getD_some, Map.set_same]
    refine ⟨_, rfl, ?_⟩
    split <;> rfl
  · refine ⟨b, ?_, rfl⟩
    simp only [GetBlob]
    rw [Map.set_other _ _ _ _ (fun e => hid e.symm)]
    exact h1

theorem setLastFlush_blob_size (s3 : Server) (id2 id : BlobId) (mc : Nat) (b1 : BlobInfo)
    (h : s3.tls.blob_map id = some b1) :
    ∃ b', (match s3.tls.blob_map id2 with
        | Option.none => s3
        | some b2 => { s3 with tls := { s3.tls with
            blob_map := s3.tls.blob_map.set id2 { b2 with last_flush := mc } } }).tls.blob_map id
          = some b'
      ∧ b'.blob_size = b1.blob_size := by
  cases h2 : s3.tls.blob_map id2 with
  | none => exact ⟨b1, h, rfl⟩
  | some b2 =>
    by_cases e : id = id2
    · subst e
      rw [h] at h2
      cases h2
      exact ⟨_, Map.set_same _ _ _, rfl⟩
    · exact ⟨b1, by simp only [Map.set_other _ _ _ _ e, h], rfl⟩

/-- A `FlushBlob` leaves the size of every blob as it is. -/
theorem FlushBlob_blob_size (env : Env) (s : Server) (id2 : BlobId) (w : Bool) (id : BlobId)
    (b : BlobInfo) (hfresh : FreshIds s) (hb : s.tls.blob_map id = some b) :
    ∃ b', (FlushBlob env s id2 w).tls.blob_map id = some b' ∧ b'.blob_size = b.blob_size := by
  cases h2 : s.tls.blob_map id2 with
  | none => exact ⟨b, by simp only [FlushBlob, h2, hb], rfl⟩
  | some bi =>
    by_cases hc : bi.last_flush ≤ 0 ∨ bi.mod_count ≤ bi.last_flush
    · rw [FlushBlob_skip env s id2 bi w h2 hc]
      exact ⟨b, hb, rfl⟩
    · simp only [FlushBlob, h2, hc, if_false, ClientGetBlob]
      cases w
      · obtain ⟨b1, g1, g2⟩ := GetBlob_blob_size env s
          ⟨bi.tag_id, [], bi.blob_id, 0, bi.blob_size, [], Flags.none⟩ id b hfresh hb
        obtain ⟨b', k1, k2⟩ := setLastFlush_blob_size
          { (GetBlob env s ⟨bi.tag_id, [], bi.blob_id, 0, bi.blob_size, [], Flags.none⟩).1 with
            issued := (GetBlob env s
                ⟨bi.tag_id, [], bi.blob_id, 0, bi.blob_size, [], Flags.none⟩).1.issued ++
              [Request.StageOut bi.tag_id bi.name
                (GetBlob env s ⟨bi.tag_id, [], bi.blob_id, 0, bi.blob_size, [], Flags.none⟩).2.data
                bi.blob_size] }
          id2 id bi.mod_count b1 g1
        exact ⟨b', k1, k2.trans g2⟩
      · have hfresh1 : FreshIds { s with flush_count := s.flush_count + 1 } := hfresh
        obtain ⟨b1, g1, g2⟩ := GetBlob_blob_size env { s with flush_count := s.flush_count + 1 }
          ⟨bi.tag_id, [], bi.blob_id, 0, bi.blob_size, [], Flags.none⟩ id b hfresh1 hb
        obtain ⟨b', k1, k2⟩ := setLastFlush_blob_size
          { (GetBlob env { s with flush_count := s.flush_count + 1 }
              ⟨bi.tag_id, [], bi.blob_id, 0, bi.blob_size, [], Flags.none⟩).1 with
            issued := (GetBlob env { s with flush_count := s.flush_count + 1 }
                ⟨bi.tag_id, [], bi.blob_id, 0, bi.blob_size, [], Flags.none⟩).1.issued ++
              [Request.StageOut bi.tag_id bi.name
                (GetBlob env { s with flush_count := s.flush_count + 1 }
                  ⟨bi.tag_id, [], bi.blob_id, 0, bi.blob_size, [], Flags.none⟩).2.data
                bi.blob_size] }
          id2 id bi.mod_count b1 g1
        exact ⟨b', k1, k2.trans g2⟩

/-- A `TagBlob` leaves the size of every blob as it is. -/
theorem TagBlob_blob_size (s : Server) (id2 : BlobId) (tag : TagId) (id : BlobId)
    (b : BlobInfo) (hb : s.tls.blob_map id = some b) :
    ∃ b', (TagBlob s id2 tag).tls.blob_map id = some b' ∧ b'.blob_size = b.blob_size := by
  unfold TagBlob
  cases h2 : s.tls.blob_map id2 with
  | none => exact ⟨b, hb, rfl⟩
  | some b2 =>
    by_cases e : id = id2
    · subst e
      rw [hb] at h2
      cases h2
      exact ⟨_, Map.set_same _ _ _, rfl⟩
    · exact ⟨b, by simp only [Map.set_other _ _ _ _ e, hb], rfl⟩

/-- The state and the put left by a `ReorganizeBlob` that found its blob. -/
theorem ReorganizeBlob_found (env : Env) (s : Server) (task t1 : ReorganizeBlobTask)
    (bi : BlobInfo) (hr : resolveReorganize s task = some t1)
    (hm : s.tls.blob_map t1.blob_id = some bi) (s1 : Server) (bi1 : BlobInfo)
    (hbi : bi1 = (if t1.is_user_score then { bi with user_score := t1.score, score := t1.score }
                  else { bi with score := t1.score }))
    (hs1 : s1 = { s with tls := { s.tls with blob_map := s.tls.blob_map.set t1.blob_id bi1 } }) :
    (ReorganizeBlob env s task).1
        = (GetBlob env s1 ⟨t1.tag_id, [], t1.blob_id, 0, bi1.blob_size, [], Flags.none⟩).1
    ∧ (ReorganizeBlob env s task).2.2
        = [⟨t1.tag_id, [], t1.blob_id, 0,
            (((GetBlob env s1 ⟨t1.tag_id, [], t1.blob_id, 0, bi1.blob_size, [],
                Flags.none⟩).1.tls.blob_map t1.blob_id).getD bi1).blob_size,
            (GetBlob env s1 ⟨t1.tag_id, [], t1.blob_id, 0, bi1.blob_size, [], Flags.none⟩).2.data,
            (((GetBlob env s1 ⟨t1.tag_id, [], t1.blob_id, 0, bi1.blob_size, [],
                Flags.none⟩).1.tls.blob_map t1.blob_id).getD bi1).score,
            Flags.none⟩] := by
  subst hs1 hbi
  simp only [ReorganizeBlob, hr, hm, ClientGetBlob]
  exact ⟨trivial, trivial⟩

/-- A `ReorganizeBlob` leaves the size of every blob as it is, and the put it sends
covers `[0, blob_size)` of its blob. -/
theorem ReorganizeBlob_blob_size (env : Env) (s : Server) (task : ReorganizeBlobTask)
    (id : BlobId) (b : BlobInfo) (hfresh : FreshIds s) (hb : s.tls.blob_map id = some b) :
    (∃ b', (ReorganizeBlob env s task).1.tls.blob_map id = some b'
      ∧ b'.blob_size = b.blob_size)
    ∧ (∀ p ∈ (ReorganizeBlob env s task).2.2, p.blob_off = 0
        ∧ ∃ b2, (ReorganizeBlob env s task).1.tls.blob_map p.blob_id = some b2
          ∧ p.data_size = b2.blob_size) := by
  cases hr : resolveReorganize s task with
  | none =>
    have e : ReorganizeBlob env s task = (s, task, []) := by simp only [ReorganizeBlob, hr]
    rw [e]
    exact ⟨⟨b, hb, rfl⟩, fun p hp => by cases hp⟩
  | some t1 =>
    cases hm : s.tls.blob_map t1.blob_id with
    | none =>
      have e : ReorganizeBlob env s task = (s, t1, []) := by simp only [ReorganizeBlob, hr, hm]
      rw [e]
      exact ⟨⟨b, hb, rfl⟩, fun p hp => by cases hp⟩
    | some bi =>
      obtain ⟨e1, e2⟩ := ReorganizeBlob_found env s task t1 bi hr hm _ _ rfl rfl
      have hsz : ∀ c : BlobInfo, (if t1.is_user_score = true
          then { c with user_score := t1.score, score := t1.score }
          else { c with score := t1.score }).blob_size = c.blob_size := by
        intro c; split <;> rfl
      have hfresh1 : FreshIds { s with tls := { s.tls with
          blob_map := s.tls.blob_map.set t1.blob_id
            (if t1.is_user_score = true then { bi with user_score := t1.score, score := t1.score }
             else { bi with score := t1.score }) } } := by
        intro h
        have hne : (⟨s.node_id, h, s.id_alloc⟩ : BlobId) ≠ t1.blob_id := by
          intro e
          rw [← e, hfresh h] at hm
          cases hm
        show (s.tls.blob_map.set t1.blob_id _) ⟨s.node_id, h, s.id_alloc⟩ = Option.none
        rw [Map.set_other _ _ _ _ hne]
        exact hfresh h
      have hself : ({ s with tls := { s.tls with
          blob_map := s.tls.blob_map.set t1.blob_id
            (if t1.is_user_score = true then { bi with user_score := t1.score, score := t1.score }
             else { bi with score := t1.score }) } } : Server).tls.blob_map t1.blob_id
          = some (if t1.is_user_score = true
              then { bi with user_score := t1.score, score := t1.score }
              else { bi with score := t1.score }) := Map.set_same _ _ _
      refine ⟨?_, ?_⟩
      · rw [e1]
        by_cases e : id = t1.blob_id
        · rw [e] at hb ⊢
          rw [hb] at hm
          cases hm
          obtain ⟨b', g1, g2⟩ := GetBlob_blob_size env _
            ⟨t1.tag_id, [], t1.blob_id, 0, _, [], Flags.none⟩ t1.blob_id _ hfresh1 hself
          exact ⟨b', g1, g2.trans (hsz b)⟩
        · have hb1 : ({ s with tls := { s.tls with
              blob_map := s.tls.blob_map.set t1.blob_id
                (if t1.is_user_score = true
                 then { bi with user_score := t1.score, score := t1.score }
                 else { bi with score := t1.score }) } } : Server).tls.blob_map id
              = some b := by
            show (s.tls.blob_map.set t1.blob_id _) id = some b
            rw [Map.set_other _ _ _ _ e]
            exact hb
          exact GetBlob_blob_size env _ _ id b hfresh1 hb1
      · intro p hp
        rw [e2] at hp
        rw [List.mem_singleton] at hp
        subst hp
        obtain ⟨b2, g1, _⟩ := GetBlob_blob_size env _
          ⟨t1.tag_id, [], t1.blob_id, 0, _, [], Flags.none⟩ t1.blob_id _ hfresh1 hself
        refine ⟨rfl, b2, by rw [e1]; exact g1, ?_⟩
        simp only [g1, Option.getD_some]

theorem GetBlobSize_keeps (env : Env) (s : Server) (task : GetBlobSizeTask) (id : BlobId)
    (b : BlobInfo) (hfresh : FreshIds s) (hb : s.tls.blob_map id = some b) :
    (GetBlobSize env s task).1.tls.blob_map id = some b := by
  by_cases hn : task.blob_id.IsNull = true
  · have hnull : task.blob_id = UniqueId.GetNull := by simpa [UniqueId.IsNull] using hn
    rw [(GetBlobSize_by_name env s task hnull).1]
    exact GetOrCreateBlobId_keeps s _ _ _ _ id b hfresh hb
  · rw [(GetBlobSize_by_id env s task (by simpa using hn)).1]
    exact hb

/-- C21 (amended: size monotonicity).  On a state in which the id that the next
creation would take is not yet a key of `blob_map`, for every blob and every call of
`PutBlob`, `GetBlob`, `FlushBlob`, `ReorganizeBlob`, `TagBlob`, `GetBlobSize` or
`GetOrCreateBlobId` (whomever the call addresses): the blob is still there and its
`blob_size` has not decreased; a call other than `PutBlob` leaves it unchanged; a
`PutBlob(offset, size)` that addresses the blob leaves
`blob_size = max(old blob_size, (offset + size) mod 2^64)`, which is
`max(old blob_size, offset + size)` when `offset + size < 2^64`; and the put that a
`ReorganizeBlob` sends covers `[0, blob_size)` of its blob. -/
theorem C21_size_monotone (s : Server) (id : BlobId) (b : BlobInfo) (call : BlobCall)
    (hfresh : FreshIds s) (hb : s.tls.blob_map id = some b) :
    (∃ b', (runCall s call).tls.blob_map id = some b'
      ∧ b.blob_size ≤ b'.blob_size
      ∧ (call.isPut = false → b'.blob_size = b.blob_size)
      ∧ (∀ env task, call = BlobCall.put env task → Addresses s task id →
          b'.blob_size = max b.blob_size ((task.blob_off + task.data_size) % 2 ^ 64)
          ∧ (task.blob_off + task.data_size < 2 ^ 64 →
              b'.blob_size = max b.blob_size (task.blob_off + task.data_size))))
    ∧ (∀ env task, call = BlobCall.reorganize env task →
        ∀ p ∈ (ReorganizeBlob env s task).2.2, p.blob_off = 0
          ∧ ∃ b2, (runCall s call).tls.blob_map p.blob_id = some b2
            ∧ p.data_size = b2.blob_size) := by
  cases call with
  | put env task =>
    obtain ⟨b', h1, h2, h3⟩ := PutBlob_blob_size env s task id b hfresh hb
    refine ⟨⟨b', h1, h2, fun h => (by cases h), fun env2 task2 he ha => ?_⟩,
      fun env2 task2 he => (by cases he)⟩
    cases he
    have h4 := h3 (resolvePut_addresses env s task id ha).2
    refine ⟨h4, fun hlt => ?_⟩
    rw [h4, Nat.mod_eq_of_lt hlt]
  | get env task =>
    obtain ⟨b', h1, h2⟩ := GetBlob_blob_size env s task id b hfresh hb
    exact ⟨⟨b', h1, by omega, fun _ => h2, fun _ _ he => by cases he⟩,
      fun _ _ he => by cases he⟩
  | flush env id2 w =>
    obtain ⟨b', h1, h2⟩ := FlushBlob_blob_size env s id2 w id b hfresh hb
    exact ⟨⟨b', h1, by omega, fun _ => h2, fun _ _ he => by cases he⟩,
      fun _ _ he => by cases he⟩
  | reorganize env task =>
    obtain ⟨⟨b', h1, h2⟩, h3⟩ := ReorganizeBlob_blob_size env s task id b hfresh hb
    refine ⟨⟨b', h1, by omega, fun _ => h2, fun _ _ he => by cases he⟩,
      fun env2 task2 he => ?_⟩
    cases he
    exact h3
  | tagBlob id2 tag =>
    obtain ⟨b', h1, h2⟩ := TagBlob_blob_size s id2 tag id b hb
    exact ⟨⟨b', h1, by omega, fun _ => h2, fun _ _ he => by cases he⟩,
      fun _ _ he => by cases he⟩
  | getBlobSize env task =>
    exact ⟨⟨b, GetBlobSize_keeps env s task id b hfresh hb, Nat.le_refl _, fun _ => rfl,
      fun _ _ he => by cases he⟩, fun _ _ he => by cases he⟩
  | getOrCreateBlobId env tag_id name =>
    exact ⟨⟨b, GetOrCreateBlobId_keeps s _ _ _ _ id b hfresh hb, Nat.le_refl _, fun _ => rfl,
      fun _ _ he => by cases he⟩, fun _ _ he => by cases he⟩

/-- C21 (witness): the put of two bytes at offset 2 on the blob of 3 bytes of
`srvOwner`, whose next id has `unique = 3`; the blob ends with `blob_size = 4`. -/
theorem C21_size_monotone_witness :
    ∃ b', (runCall srvOwner (BlobCall.put envExact putById)).tls.blob_map ⟨1, 7, 1⟩ = some b'
      ∧ blobABC.blob_size ≤ b'.blob_size
      ∧ b'.blob_size = 4 :=
  have h := (C21_size_monotone srvOwner ⟨1, 7, 1⟩ blobABC (BlobCall.put envExact putById)
    (fun h => by simp [srvOwner, laneOwner, Map.set, Map.empty]) (by decide)).1
  h.elim (fun b' hb' => ⟨b', hb'.1, hb'.2.1,
    ((hb'.2.2.2 envExact putById rfl (by decide)).2 (by decide)).trans (by decide)⟩)

/-- C21 (counterexample).  First, a put of 2 bytes at offset `2^64 - 1` on the blob of
3 bytes of `srvOwner`: `offset + size` is 1 in 64-bit arithmetic and `blob_size`
stays 3, where `max(old blob_size, offset + size)` is `2^64 + 1`.  Second, on the
empty lane a `GetBlob` addressed by the id `⟨1, 7, 1⟩`, which no blob has yet, leaves
an entry under that id, and a put of 3 bytes by that id gives it `blob_size = 3`;
the id is the one the next creation takes, and afterwards `GetBlobSize`, `GetBlob`
or `GetOrCreateBlobId` by the new name `[98]` leaves that entry with `blob_size = 0`
and a `PutBlob` of one byte by that name leaves it with `blob_size = 1`. -/
theorem C21_counterexample :
    ((srvOwner.tls.blob_map ⟨1, 7, 1⟩).map (fun b => b.blob_size) = some 3
      ∧ ((PutBlob envExact srvOwner putWrap).1.tls.blob_map ⟨1, 7, 1⟩).map
          (fun b => b.blob_size) = some 3
      ∧ max 3 (putWrap.blob_off + putWrap.data_size) = 18446744073709551617)
    ∧ (srvEmpty.tls.blob_map ⟨1, 7, 1⟩ = Option.none
      ∧ ((PutBlob envExact (GetBlob envExact srvEmpty getPhantom).1 putPhantom).1.tls.blob_map
          ⟨1, 7, 1⟩).map (fun b => b.blob_size) = some 3
      ∧ ((GetBlobSize envExact
            (PutBlob envExact (GetBlob envExact srvEmpty getPhantom).1 putPhantom).1
            ⟨tagA, [98], UniqueId.GetNull, 0⟩).1.tls.blob_map ⟨1, 7, 1⟩).map
          (fun b => b.blob_size) = some 0
      ∧ ((GetBlob envExact
            (PutBlob envExact (GetBlob envExact srvEmpty getPhantom).1 putPhantom).1
            getABC).1.tls.blob_map ⟨1, 7, 1⟩).map (fun b => b.blob_size) = some 0
      ∧ ((GetOrCreateBlobIdTask envExact
            (PutBlob envExact (GetBlob envExact srvEmpty getPhantom).1 putPhantom).1
            tagA [98]).1.tls.blob_map ⟨1, 7, 1⟩).map (fun b => b.blob_size) = some 0
      ∧ ((PutBlob envExact
            (PutBlob envExact (GetBlob envExact srvEmpty getPhantom).1 putPhantom).1
            putOne).1.tls.blob_map ⟨1, 7, 1⟩).map (fun b => b.blob_size) = some 1) := by
  decide

end Hermes
